import Mathlib

/-! ShapeWorks Studio: mesh generation and caching

A verification development for the mesh subsystem of ShapeWorks Studio
(`MeshManager`, `Session`, `ShapeWorksStudioApp`) and for `Region`.

`MeshManager.h` declares the manager, its members and its signals; the bodies of
its methods and the classes `MeshCache`, `MeshWorkQueue` and `MeshWorker` are
described by the design document only.  Every definition that follows the design
document rather than a function body carries a doc comment starting with
"Modelled from the spec:".
-/

namespace shapeworks

/-! ## Data model -/

/-- Modelled from the spec: WorkItem (the class `MeshWorkItem` named in
`MeshManager.h`, whose declaration is in `MeshWorkQueue.h`).  An immutable value
`{ point_set, domain_index, use_reconstruction, use_warping }`.  A coordinate is
an f64; fingerprints are exact-content based, so a coordinate is held as the
integer value of its 64-bit pattern. -/
structure MeshWorkItem where
  point_set : List Int
  domain_index : Int
  use_reconstruction : Bool
  use_warping : Bool
deriving DecidableEq, Repr

/-- Modelled from the spec: Fingerprint, the deterministic content hash of a
work item, used as cache key. -/
abbrev Fingerprint := List Int

/-- Modelled from the spec: `fingerprint(item)`, pure and total, derived from
the full content of the item: the provider selector, the domain index, and the
point coordinates in their order. -/
def fingerprint (item : MeshWorkItem) : Fingerprint :=
  (if item.use_reconstruction then 1 else 0) ::
    (if item.use_warping then 1 else 0) ::
      item.domain_index :: item.point_set

/-- Modelled from the spec: the input check of section 7 (a): a work item is
malformed when its point set is empty or its number of coordinates is not a
multiple of 3. -/
def MeshWorkItem.well_formed (item : MeshWorkItem) : Bool :=
  !item.point_set.isEmpty && item.point_set.length % 3 == 0

/-- The coordinates a fingerprint was derived from. -/
def Fingerprint.points (fp : Fingerprint) : List Int := fp.drop 3

/-- The input check of `MeshWorkItem.well_formed`, read off a fingerprint. -/
def Fingerprint.well_formed (fp : Fingerprint) : Bool :=
  !(Fingerprint.points fp).isEmpty && (Fingerprint.points fp).length % 3 == 0

/-- The mesh of `StudioMesh.h`, reduced to the two members the manager looks at:
`poly_data_` (the geometry object, `none` for a null pointer, otherwise the
identity of the object) and `error_message_` ("error message if the polydata
didn't load").  The display metadata (`dimensions_`, `center_transform_`) is
not represented. -/
structure StudioMesh where
  poly_data_ : Option Nat
  error_message_ : String
deriving DecidableEq, Repr

/-- A build failed when the mesh it reports carries an error message. -/
def StudioMesh.failed (mesh : StudioMesh) : Bool :=
  decide (mesh.error_message_ ≠ "")

/-- The handle type of `StudioMesh.h`: `typedef QSharedPointer<StudioMesh> MeshHandle`;
`none` is the null (placeholder) handle. -/
abbrev MeshHandle := Option StudioMesh

/-- Modelled from the spec: the error handle returned synchronously for a
malformed work item (section 7 (a)); it carries a diagnostic message and no
geometry. -/
def input_error_mesh : StudioMesh :=
  { poly_data_ := none, error_message_ := "malformed or empty work item" }

/-! ## MeshCache -/

/-- Modelled from the spec: MeshCache / CacheTable (class `MeshCache`, member
`mesh_cache_` of `MeshManager.h`).  A table from fingerprint to mesh, bounded at
`max_entries`, kept in recency order: the most recently used entry comes first,
the least recently used one last.  At most one mesh is stored per fingerprint.
The `built_at` time of a cached mesh takes no part in any operation and is not
represented. -/
structure MeshCache where
  entries : List (Fingerprint × StudioMesh)
  max_entries : Nat
deriving DecidableEq, Repr

/-- Lookup of a key in a recency-ordered entry list. -/
def cache_lookup (key : Fingerprint) : List (Fingerprint × StudioMesh) → Option StudioMesh
  | [] => none
  | e :: rest => if e.1 = key then some e.2 else cache_lookup key rest

/-- Removal of every entry stored under a key. -/
def cache_remove (key : Fingerprint) (entries : List (Fingerprint × StudioMesh)) :
    List (Fingerprint × StudioMesh) :=
  entries.filter (fun e => decide (e.1 ≠ key))

/-- Modelled from the spec: `MeshCache.get(key)`: lookup, never builds. -/
def MeshCache.get (c : MeshCache) (key : Fingerprint) : Option StudioMesh :=
  cache_lookup key c.entries

/-- Modelled from the spec: `MeshCache.touch(key)`: refreshes the recency of an
entry on access (moves it to the front); nothing happens for an absent key. -/
def MeshCache.touch (c : MeshCache) (key : Fingerprint) : MeshCache :=
  match cache_lookup key c.entries with
  | none => c
  | some m => { c with entries := (key, m) :: cache_remove key c.entries }

/-- Eviction of the least recently used entry that no external caller
references: the last entry of the list whose key is not pinned.  When every
entry is pinned nothing is evicted. -/
def evict_lru (pinned : List Fingerprint) (entries : List (Fingerprint × StudioMesh)) :
    List (Fingerprint × StudioMesh) :=
  (entries.reverse.eraseP (fun e => !pinned.contains e.1)).reverse

/-- Modelled from the spec: `MeshCache.put(key, mesh)`: inserts or replaces; if
the table is at capacity, the least recently used entry not referenced by an
external caller (`pinned` lists the referenced keys) is evicted before the
insertion; if all entries are pinned the table exceeds its soft limit. -/
def MeshCache.put (c : MeshCache) (pinned : List Fingerprint) (key : Fingerprint)
    (mesh : StudioMesh) : MeshCache :=
  match cache_lookup key c.entries with
  | some _ => { c with entries := (key, mesh) :: cache_remove key c.entries }
  | none =>
    if c.max_entries ≤ c.entries.length then
      { c with entries := (key, mesh) :: evict_lru pinned c.entries }
    else
      { c with entries := (key, mesh) :: c.entries }

/-- Modelled from the spec: `MeshCache.clear()`: drops all entries. -/
def MeshCache.clear (c : MeshCache) : MeshCache :=
  { c with entries := [] }

/-! ## MeshWorkQueue -/

/-- Modelled from the spec: WorkQueue (class `MeshWorkQueue`, member
`work_queue_` of `MeshManager.h`): the ordered sequence of work items awaiting a
worker. -/
abbrev MeshWorkQueue := List MeshWorkItem

/-- Whether a fingerprint is queued. -/
def MeshWorkQueue.is_inside (queue : MeshWorkQueue) (fp : Fingerprint) : Bool :=
  queue.any (fun it => decide (fingerprint it = fp))

/-- Modelled from the spec: `WorkQueue.push(item)`: a no-op if the fingerprint
of the item already exists in the queue or in the in-flight set; the second
component is the "merged with existing" signal. -/
def MeshWorkQueue.push (queue : MeshWorkQueue) (in_flight : List Fingerprint)
    (item : MeshWorkItem) : MeshWorkQueue × Bool :=
  if MeshWorkQueue.is_inside queue (fingerprint item) || in_flight.contains (fingerprint item) then
    (queue, true)
  else
    (queue ++ [item], false)

/-! ## MeshManager -/

/-- The two signals of `MeshManager.h`: `new_mesh()` and
`error_encountered(std::string message)`. -/
inductive Notification where
  | new_mesh
  | error_encountered (message : String)
deriving DecidableEq, Repr

/-- Identity of a caller of `get_mesh`. -/
abbrev CallerId := Nat

/-- Modelled from the spec: the state of the MeshManager facade.

* `mesh_cache_`, `work_queue_`: the members of `MeshManager.h`;
* `in_flight`: the InFlightSet, the fingerprints a worker has been dispatched
  for and whose result has not been committed yet;
* `waiters`: the callers blocked in `get_mesh(item, wait = true)`, each with the
  fingerprint it waits for, in order of arrival;
* `max_threads`: the fixed size of the worker pool (`thread_pool_`);
* `provider_calls`: every provider invocation made so far (the item handed to
  reconstruct / warp / image extraction), in order;
* `error_emitted_`: the member of `MeshManager.h` of that name, `false` at
  construction, set once an `error_encountered` has been emitted;
* `notifications`: every signal emitted so far, in order;
* `returns`: every handle returned by `get_mesh` so far, with the caller and the
  fingerprint asked for, in order.

The providers (`mesh_generator_`, `surface_reconstructor_`, `mesh_warper_`) are
external collaborators: an invocation is recorded in `provider_calls` and its
outcome is the mesh a worker reports to `handle_thread_complete`.  The member
`prefs_` of `MeshManager.h` has no counterpart in the spec and is not
represented. -/
structure MeshManager where
  mesh_cache_ : MeshCache
  work_queue_ : MeshWorkQueue
  in_flight : List Fingerprint
  waiters : List (CallerId × Fingerprint)
  max_threads : Nat
  error_emitted_ : Bool
  provider_calls : List MeshWorkItem
  notifications : List Notification
  returns : List (CallerId × Fingerprint × MeshHandle)
deriving DecidableEq, Repr

/-- A freshly constructed manager: empty cache of the given capacity, empty
queue, idle pool of the given size. -/
def MeshManager.init (max_entries max_threads : Nat) : MeshManager :=
  { mesh_cache_ := { entries := [], max_entries := max_entries }
    work_queue_ := []
    in_flight := []
    waiters := []
    max_threads := max_threads
    error_emitted_ := false
    provider_calls := []
    notifications := []
    returns := [] }

/-- Modelled from the spec: `MeshManager::get_mesh(item, wait)`.  A malformed
item is rejected at the facade and the error handle is returned synchronously.
Otherwise the fingerprint is computed; on a cache hit the cached mesh is
returned at once (and its recency refreshed).  On a miss the item is pushed
(deduplicated against queued and in-flight work); with `wait` the caller is
added to the waiters and its return is delivered by the completion, without
`wait` the placeholder handle is returned at once. -/
def MeshManager.get_mesh (s : MeshManager) (caller : CallerId) (item : MeshWorkItem)
    (wait : Bool) : MeshManager :=
  if !item.well_formed then
    { s with returns := s.returns ++ [(caller, fingerprint item, some input_error_mesh)] }
  else
    match s.mesh_cache_.get (fingerprint item) with
    | some m =>
      { s with
        mesh_cache_ := s.mesh_cache_.touch (fingerprint item)
        returns := s.returns ++ [(caller, fingerprint item, some m)] }
    | none =>
      if wait then
        { s with
          work_queue_ := (MeshWorkQueue.push s.work_queue_ s.in_flight item).1
          waiters := s.waiters ++ [(caller, fingerprint item)] }
      else
        { s with
          work_queue_ := (MeshWorkQueue.push s.work_queue_ s.in_flight item).1
          returns := s.returns ++ [(caller, fingerprint item, none)] }

/-- Modelled from the spec: `MeshManager::generate_mesh(item)`: the
fire-and-forget variant of `get_mesh` with `wait = false`; no handle is handed
back. -/
def MeshManager.generate_mesh (s : MeshManager) (item : MeshWorkItem) : MeshManager :=
  { MeshManager.get_mesh s 0 item false with returns := s.returns }

/-- Modelled from the spec: `MeshManager::clear_cache()`: delegates to
`MeshCache.clear()`. -/
def MeshManager.clear_cache (s : MeshManager) : MeshManager :=
  { s with mesh_cache_ := s.mesh_cache_.clear }

/-- Modelled from the spec: a worker takes a queued item and invokes the
provider for it (section 4.4).  The service order of the queue is not a
correctness requirement of the spec, so the item taken is named by its
fingerprint.  Nothing happens when no such item is queued or when all workers of
the fixed-size pool are busy. -/
def MeshManager.dispatch (s : MeshManager) (fp : Fingerprint) : MeshManager :=
  match s.work_queue_.find? (fun it => decide (fingerprint it = fp)) with
  | none => s
  | some item =>
    if s.in_flight.length < s.max_threads then
      { s with
        work_queue_ := s.work_queue_.erase item
        in_flight := s.in_flight ++ [fp]
        provider_calls := s.provider_calls ++ [item] }
    else s

/-- Modelled from the spec: `MeshManager::check_error_status(mesh)`, whose body
is not available, together with the member `bool error_emitted_ = false` that
`MeshManager.h` declares for it: a failed build is surfaced as one
`error_encountered` notification carrying the message of the mesh, and the flag
records that the notification has been emitted; once the flag is set, no
further notification is emitted. -/
def MeshManager.check_error_status (s : MeshManager) (mesh : StudioMesh) : MeshManager :=
  if mesh.failed && !s.error_emitted_ then
    { s with
      error_emitted_ := true
      notifications := s.notifications ++ [Notification.error_encountered mesh.error_message_] }
  else s

/-- Modelled from the spec: `MeshManager::handle_thread_complete(item, mesh)`:
the completion of the build of an in-flight item.  The fingerprint leaves the
in-flight set and every caller waiting for it is released with the reported
handle, atomically with the outcome: a successful mesh is put into the cache
and `new_mesh` is emitted; a failed one is reported through
`check_error_status` and nothing is cached.  `pinned` lists the keys whose
meshes external callers reference at that moment.  A completion for a
fingerprint that is not in flight does not occur (a worker reports exactly once
per dispatched item) and changes nothing. -/
def MeshManager.handle_thread_complete (s : MeshManager) (pinned : List Fingerprint)
    (item : MeshWorkItem) (mesh : StudioMesh) : MeshManager :=
  if s.in_flight.contains (fingerprint item) then
    let released := s.waiters.filter (fun w => decide (w.2 = fingerprint item))
    let s1 : MeshManager :=
      { s with
        in_flight := s.in_flight.erase (fingerprint item)
        waiters := s.waiters.filter (fun w => decide (w.2 ≠ fingerprint item))
        returns := s.returns ++ released.map (fun w => (w.1, fingerprint item, some mesh)) }
    if mesh.failed then
      MeshManager.check_error_status s1 mesh
    else
      { s1 with
        mesh_cache_ := s1.mesh_cache_.put pinned (fingerprint item) mesh
        notifications := s1.notifications ++ [Notification.new_mesh] }
  else s

/-- The steps of the manager: the calls of its interface, the dispatch of a
queued item to a worker, and the completion reported by a worker. -/
inductive Event where
  | get_mesh (caller : CallerId) (item : MeshWorkItem) (wait : Bool)
  | generate_mesh (item : MeshWorkItem)
  | clear_cache
  | dispatch (fp : Fingerprint)
  | thread_complete (pinned : List Fingerprint) (item : MeshWorkItem) (mesh : StudioMesh)
deriving DecidableEq, Repr

/-- One step of the manager. -/
def MeshManager.step (s : MeshManager) : Event → MeshManager
  | Event.get_mesh caller item wait => s.get_mesh caller item wait
  | Event.generate_mesh item => s.generate_mesh item
  | Event.clear_cache => s.clear_cache
  | Event.dispatch fp => s.dispatch fp
  | Event.thread_complete pinned item mesh => s.handle_thread_complete pinned item mesh

/-- A run of the manager over a sequence of steps. -/
def MeshManager.run (s : MeshManager) (events : List Event) : MeshManager :=
  events.foldl MeshManager.step s

/-! ## Session and application handlers -/

/-- The entries of the view mode combo box (`VIEW_MODE` in
`ShapeWorksStudioApp.cpp`). -/
inductive VIEW_MODE where
  | ORIGINAL
  | GROOMED
  | RECONSTRUCTED
deriving DecidableEq, Repr

/-- The calls a handler makes on its collaborators, in program order.  A shape
of the session is named by its position in `Session::shapes_`; the argument of
`update_display` is `none` where the call leaves it to its default. -/
inductive Call where
  | set_view_combo_item_enabled (item : VIEW_MODE) (value : Bool)
  | view_mode_combobox_setCurrentIndex (index : VIEW_MODE)
  | mesh_manager_clear_cache
  | shape_clear_reconstructed_mesh (shape : Nat)
  | project_get_particles_present
  | shape_get_local_correspondence_points (shape : Nat)
  | surface_reconstructor_resetReconstruct
  | analysis_tool_reset_stats
  | analysis_tool_initialize_mesh_warper
  | visualizer_set_display_mode
  | visualizer_set_mean
  | visualizer_update_lut
  | visualizer_update_samples
  | visualizer_reset_camera
  | update_display (force : Option Bool)
  | handle_glyph_changed
  | enable_possible_actions
deriving DecidableEq, Repr

/-- The part of a `Session` its cache handlers read: the number of shapes in
`shapes_` and whether the project has particles. -/
structure Session where
  num_shapes : Nat
  particles_present : Bool
deriving DecidableEq, Repr

/-- The shapes of the session, by position. -/
def Session.shapes_ (session : Session) : List Nat := List.range session.num_shapes

/-- `Session::calculate_reconstructed_samples` (Session.cpp): returns at once
when the project has no particles; otherwise it walks over the shapes and reads
their local correspondence points (the mesh request in the loop body is
commented out). -/
def Session.calculate_reconstructed_samples (session : Session) : List Call :=
  if !session.particles_present then
    [Call.project_get_particles_present]
  else
    Call.project_get_particles_present ::
      session.shapes_.map Call.shape_get_local_correspondence_points

/-- `Session::handle_clear_cache` (Session.cpp): clears the cache of the mesh
manager, clears the reconstructed mesh of each shape in turn, then calls
`calculate_reconstructed_samples`. -/
def Session.handle_clear_cache (session : Session) : List Call :=
  Call.mesh_manager_clear_cache ::
    (session.shapes_.map Call.shape_clear_reconstructed_mesh ++
      session.calculate_reconstructed_samples)

/-- `ShapeWorksStudioApp::handle_optimize_complete`. -/
def handle_optimize_complete (session : Session) : List Call :=
  [Call.surface_reconstructor_resetReconstruct,
   Call.analysis_tool_reset_stats,
   Call.analysis_tool_initialize_mesh_warper] ++
  session.handle_clear_cache ++
  [Call.set_view_combo_item_enabled VIEW_MODE.RECONSTRUCTED true,
   Call.view_mode_combobox_setCurrentIndex VIEW_MODE.GROOMED,
   Call.visualizer_set_display_mode,
   Call.visualizer_set_mean,
   Call.visualizer_update_lut,
   Call.update_display none,
   Call.visualizer_update_samples,
   Call.handle_glyph_changed,
   Call.enable_possible_actions]

/-- `ShapeWorksStudioApp::handle_groom_complete`. -/
def handle_groom_complete (session : Session) : List Call :=
  [Call.set_view_combo_item_enabled VIEW_MODE.GROOMED true,
   Call.view_mode_combobox_setCurrentIndex VIEW_MODE.GROOMED] ++
  session.handle_clear_cache ++
  [Call.update_display (some true),
   Call.visualizer_reset_camera,
   Call.enable_possible_actions]

/-! ## Region -/

/-- Width in bits of `long` and `unsigned long`, the component types of `Coord`
and `Dims`. -/
def LONG_BITS : Nat := 64

/-- A `Coord`: three `long` components, indexed 0, 1, 2. -/
abbrev Coord := Fin 3 → Int

/-- A `Dims`: three `unsigned long` components, indexed 0, 1, 2. -/
abbrev Dims := Fin 3 → Nat

/-- A value is representable as a `long`. -/
def is_long (x : Int) : Prop := -(2 : Int) ^ (LONG_BITS - 1) ≤ x ∧ x < (2 : Int) ^ (LONG_BITS - 1)

/-- `static_cast<unsigned long>` of an integer: its residue modulo `2 ^ LONG_BITS`. -/
def to_unsigned_long (x : Int) : Nat := (x % (2 : Int) ^ LONG_BITS).toNat

/-- `static_cast<long>` of an integer: the two's complement reading of its
residue modulo `2 ^ LONG_BITS`. -/
def to_long (x : Int) : Int :=
  if x % (2 : Int) ^ LONG_BITS < (2 : Int) ^ (LONG_BITS - 1) then x % (2 : Int) ^ LONG_BITS
  else x % (2 : Int) ^ LONG_BITS - (2 : Int) ^ LONG_BITS

/-- The class `Region` of Region.h: a logical region of an image or a mesh. -/
structure Region where
  min : Coord
  max : Coord

/-- `Region() = default`: the member initialisers, `min = 10^9` and
`max = -10^9` on every axis. -/
def Region.default : Region :=
  { min := fun _ => 1000000000, max := fun _ => -1000000000 }

/-- `Region(const Coord &_min, const Coord &_max)`. -/
def Region.of_min_max (_min _max : Coord) : Region :=
  { min := _min, max := _max }

/-- `Region(const Dims &dims)`: `min` is the origin; `max` is `dims - 1` on each
axis unless the (unsigned) sum of the dimensions is zero, in which case `max`
keeps its member initialiser. -/
def Region.of_dims (dims : Dims) : Region :=
  { min := fun _ => 0
    max :=
      if 0 ≠ (dims 0 + dims 1 + dims 2) % 2 ^ LONG_BITS then
        fun i => to_long (to_long (dims i) - 1)
      else Region.default.max }

/-- `Region::valid`: "verified min/max do not create an inverted or an empty
region". -/
def Region.valid (r : Region) : Bool :=
  decide (r.max 0 > r.min 0) && decide (r.max 1 > r.min 1) && decide (r.max 2 > r.min 2)

/-- `Region::size`: per axis, `static_cast<unsigned long>(max[i] - min[i])`. -/
def Region.size (r : Region) : Dims :=
  fun i => to_unsigned_long (r.max i - r.min i)

/-! ## State predicates -/

/-- Every queued item, every in-flight fingerprint and every cached key has
passed the input check of `get_mesh`. -/
def MeshManager.KeysChecked (s : MeshManager) : Prop :=
  (∀ it ∈ s.work_queue_, it.well_formed = true) ∧
  (∀ fp ∈ s.in_flight, Fingerprint.well_formed fp = true) ∧
  (∀ e ∈ s.mesh_cache_.entries, Fingerprint.well_formed e.1 = true)

/-- No fingerprint occurs twice in the work queue. -/
def MeshManager.QueueDistinct (s : MeshManager) : Prop :=
  (s.work_queue_.map fingerprint).Nodup

/-- The provider invocations made so far for a fingerprint. -/
def MeshManager.calls_for (s : MeshManager) (fp : Fingerprint) : List MeshWorkItem :=
  s.provider_calls.filter (fun it => decide (fingerprint it = fp))

/-- The handles returned so far to callers that asked for a fingerprint. -/
def MeshManager.returns_for (s : MeshManager) (fp : Fingerprint) :
    List (CallerId × Fingerprint × MeshHandle) :=
  s.returns.filter (fun r => decide (r.2.1 = fp))

/-- The callers currently blocked on a fingerprint, in order of arrival. -/
def MeshManager.waiters_for (s : MeshManager) (fp : Fingerprint) : List CallerId :=
  (s.waiters.filter (fun w => decide (w.2 = fp))).map (fun w => w.1)

/-- The state `Absent` of the per-fingerprint state machine of the spec: the
fingerprint of the item is not cached, not queued, not in flight, and no caller
waits for it. -/
def MeshManager.absent (s : MeshManager) (item : MeshWorkItem) : Prop :=
  s.mesh_cache_.get (fingerprint item) = none ∧
  s.work_queue_.count item = 0 ∧
  s.in_flight.count (fingerprint item) = 0 ∧
  s.waiters_for (fingerprint item) = []

/-- The item is not cached and is owned by at most one place: it is absent, or
queued once, or in flight once (the states `Absent`, `Queued`, `Building`). -/
def MeshManager.Tracked (s : MeshManager) (item : MeshWorkItem) : Prop :=
  s.mesh_cache_.get (fingerprint item) = none ∧
  s.work_queue_.count item + s.in_flight.count (fingerprint item) ≤ 1

/-- Whether a step is the completion of the build of a fingerprint. -/
def Event.completes (fp : Fingerprint) : Event → Bool
  | Event.thread_complete _ item _ => decide (fingerprint item = fp)
  | _ => false

/-- The caller a step adds to the waiters of a fingerprint: the caller of a
`get_mesh(item, wait = true)` for that fingerprint. -/
def Event.waiting_caller (fp : Fingerprint) : Event → List CallerId
  | Event.get_mesh caller item true => if fingerprint item = fp then [caller] else []
  | _ => []

/-- The placeholder handle a step returns at once for a fingerprint: the one of
a `get_mesh(item, wait = false)` for that fingerprint. -/
def Event.placeholder_return (fp : Fingerprint) :
    Event → List (CallerId × Fingerprint × MeshHandle)
  | Event.get_mesh caller item false => if fingerprint item = fp then [(caller, fp, none)] else []
  | _ => []

/-- The callers of the `get_mesh(item, wait = true)` steps of a run for a
fingerprint, in order. -/
def waiting_callers (fp : Fingerprint) : List Event → List CallerId
  | [] => []
  | e :: rest => e.waiting_caller fp ++ waiting_callers fp rest

/-- The placeholder handles returned during a run for a fingerprint, in order. -/
def placeholder_returns (fp : Fingerprint) :
    List Event → List (CallerId × Fingerprint × MeshHandle)
  | [] => []
  | e :: rest => e.placeholder_return fp ++ placeholder_returns fp rest

/-- How a step or run from `s` to `t` advances the build of an item that stays
uncached: the item stays tracked, a worker already on it stays on it, the
provider is invoked for it exactly when a worker takes it, and the returns and
waiters for its fingerprint grow by the given lists. -/
def Progress (item : MeshWorkItem) (s t : MeshManager)
    (new_returns : List (CallerId × Fingerprint × MeshHandle)) (new_waiters : List CallerId) : Prop :=
  t.Tracked item ∧
  s.in_flight.count (fingerprint item) ≤ t.in_flight.count (fingerprint item) ∧
  t.calls_for (fingerprint item) = s.calls_for (fingerprint item) ++
    List.replicate (t.in_flight.count (fingerprint item) - s.in_flight.count (fingerprint item)) item ∧
  t.returns_for (fingerprint item) = s.returns_for (fingerprint item) ++ new_returns ∧
  t.waiters_for (fingerprint item) = s.waiters_for (fingerprint item) ++ new_waiters

/-! ## Sample values -/

/-- A well-formed work item: one particle. -/
def sample_item : MeshWorkItem :=
  { point_set := [1, 2, 3], domain_index := 0, use_reconstruction := true, use_warping := false }

/-- A second well-formed work item. -/
def other_item : MeshWorkItem :=
  { point_set := [4, 5, 6], domain_index := 0, use_reconstruction := true, use_warping := false }

/-- A malformed work item: four coordinates. -/
def malformed_item : MeshWorkItem :=
  { point_set := [1, 2, 3, 4], domain_index := 0, use_reconstruction := true, use_warping := false }

/-- A successfully built mesh. -/
def sample_mesh : StudioMesh := { poly_data_ := some 7, error_message_ := "" }

/-- The mesh reported by a failed build. -/
def sample_failed_mesh : StudioMesh :=
  { poly_data_ := none, error_message_ := "reconstruction diverged" }

/-- A valid region: the image block from (0, 0, 0) to (5, 5, 5). -/
def sample_region : Region := Region.of_min_max (fun _ => 0) (fun _ => 5)

/-- The dimensions of a single slice: 512 x 512 x 1. -/
def slice_dims : Dims := fun i => if i = 2 then 1 else 512

/-! ## File names -/

/-- The contract of `StringUtils::hasSuffix(filename, suffix)` (Libs/Utils,
whose code is not part of the files at hand): it tells whether the characters
of `suffix` are the last characters of `filename`.  The functions that call it
take it as a parameter. -/
def SuffixTest (hasSuffix : String → String → Bool) : Prop :=
  ∀ filename suffix, hasSuffix filename suffix = true ↔ List.IsSuffix suffix.data filename.data

/-- A suffix test that meets the contract: comparison of the last characters. -/
def has_suffix (filename suffix : String) : Bool :=
  suffix.data.isSuffixOf filename.data

/-- The calls `on_action_save_project_as_triggered` makes once a file name has
been chosen, in program order; `preferences_set_last_directory_of` stands for
`set_last_directory(QFileInfo(filename).absolutePath())`. -/
inductive SaveAsCall where
  | preferences_add_recent_file (filename : String)
  | update_recent_files
  | preferences_set_last_directory_of (filename : String)
  | save_project (filename : String)
  | enable_possible_actions
deriving DecidableEq, Repr

/-- The file name `on_action_save_project_as_triggered` goes on with: ".xlsx"
is appended unless `hasSuffix(filename, ".xlsx")`. -/
def save_as_filename (hasSuffix : String → String → Bool) (filename : String) : String :=
  if !hasSuffix filename ".xlsx" then filename ++ ".xlsx" else filename

/-- `ShapeWorksStudioApp::on_action_save_project_as_triggered`, from the file
name returned by the dialog: the value returned and the calls made.  An empty
name (dialog cancelled) returns at once. -/
def on_action_save_project_as_triggered (hasSuffix : String → String → Bool)
    (filename : String) : Bool × List SaveAsCall :=
  if filename.isEmpty then (false, [])
  else
    (false,
      [SaveAsCall.preferences_add_recent_file (save_as_filename hasSuffix filename),
       SaveAsCall.update_recent_files,
       SaveAsCall.preferences_set_last_directory_of (save_as_filename hasSuffix filename),
       SaveAsCall.save_project (save_as_filename hasSuffix filename),
       SaveAsCall.enable_possible_actions])

/-- `Session::is_supported_file_format`, with the list returned by
`Mesh::getSupportedTypes()` as a parameter. -/
def Session.is_supported_file_format (hasSuffix : String → String → Bool)
    (supported_types : List String) (filename : String) : Bool :=
  if supported_types.any (fun type => hasSuffix filename type) then true
  else if hasSuffix filename ".nrrd" || hasSuffix filename ".mha" ||
      hasSuffix filename ".nii" || hasSuffix filename ".nii.gz" then true
  else false

/-! ## Viewers -/

/-- `ShapeWorksStudioApp::on_zoom_slider_valueChanged`: the tile layout
(width, height) handed to `lightbox_->set_tile_layout` for a slider value;
nothing is set while the render window is not ready. -/
def on_zoom_slider_valueChanged (render_window_ready : Bool) (value : Int) : Option (Int × Int) :=
  if !render_window_ready then none
  else if value = 0 then some (1, 1)
  else if value = 1 then some (2, 1)
  else some (value, value)

/-- The number of tiles of the layout a slider value is mapped to. -/
def tile_count (value : Int) : Int :=
  match on_zoom_slider_valueChanged true value with
  | some layout => layout.1 * layout.2
  | none => 0

/-- `ShapeWorksStudioApp::reset_num_viewers`: the value of the zoom slider after
the call.  `MODE_ALL_SAMPLES_C` is the constant of `AnalysisTool`,
`analysis_mode_checked` is `ui_->action_analysis_mode->isChecked()`,
`analysis_mode` is `analysis_tool_->get_analysis_mode()`, `num_samples` is the
number of shapes of the session and `zoom_slider` the value of the slider
before the call; `setValue` stores the value it is given (the range of the
slider, which is set in the form, is taken to contain 0 to 4). -/
def reset_num_viewers (MODE_ALL_SAMPLES_C : String) (analysis_mode_checked : Bool)
    (analysis_mode : String) (num_samples : Nat) (zoom_slider : Int) : Int :=
  let mode := if analysis_mode_checked then analysis_mode else MODE_ALL_SAMPLES_C
  if mode = MODE_ALL_SAMPLES_C then
    let value : Int :=
      if num_samples = 1 then 0
      else if num_samples = 2 then 1
      else if num_samples ≤ 4 then 2
      else if num_samples ≤ 9 then 3
      else if num_samples > 9 then 4
      else 4
    if value ≠ zoom_slider then value else zoom_slider
  else
    if 0 ≠ zoom_slider then 0 else zoom_slider

/-! ## Recent files -/

/-- One of the four recent-file menu actions (`recent_file_actions_`): its text,
its data (the file it opens) and whether it is shown. -/
structure RecentFileAction where
  text : String
  data : String
  visible : Bool
deriving DecidableEq, Repr

/-- The second loop of `update_recent_files`: entry `i` is kept unless a later
entry `j > i` has the same `QFileInfo(...).canonicalFilePath()`. -/
def no_dupes (canonicalFilePath : String → String) : List String → List String
  | [] => []
  | f :: rest =>
    if rest.any (fun g => decide (canonicalFilePath f = canonicalFilePath g)) then
      no_dupes canonicalFilePath rest
    else f :: no_dupes canonicalFilePath rest

/-- The two loops over `recent_file_actions_`, action by action from position
`i`: a position below `num_recent_files` gets its text and data and is shown, a
position from `num_recent_files` to 3 is hidden. -/
def set_recent_file_actions (fileName : String → String) (recent_files : List String)
    (num_recent_files : Nat) : Nat → List RecentFileAction → List RecentFileAction
  | _, [] => []
  | i, action :: rest =>
    (if i < num_recent_files then
      { text := "&" ++ toString (i + 1) ++ " " ++ fileName (recent_files.getD i "")
        data := recent_files.getD i ""
        visible := true }
    else if i < 4 then { action with visible := false }
    else action) :: set_recent_file_actions fileName recent_files num_recent_files (i + 1) rest

/-- `ShapeWorksStudioApp::update_recent_files`: the menu actions after the call,
from the stored recent files (`preferences_.get_recent_files()`) and the actions
before it.  `file_exists` is `QFile::exists`, `canonicalFilePath` and `fileName`
are those of `QFileInfo`. -/
def update_recent_files (file_exists : String → Bool) (canonicalFilePath fileName : String → String)
    (stored : List String) (actions : List RecentFileAction) : List RecentFileAction :=
  let existing_files := stored.filter file_exists
  let no_dupes := no_dupes canonicalFilePath existing_files
  let num_recent_files := min no_dupes.length 4
  set_recent_file_actions fileName no_dupes num_recent_files 0 actions

/-- The list the claim describes: among the entries with the same canonical
path only the last one is kept, the relative order of the kept entries being
that of the given list.  Read from the end of the list, an entry is kept unless
an entry with its canonical path has been kept already. -/
def keep_last (canonicalFilePath : String → String) (files : List String) : List String :=
  files.foldr
    (fun f kept =>
      if ∀ g ∈ kept, canonicalFilePath f ≠ canonicalFilePath g then f :: kept else kept) []

/-- The entries shown in the menu: the data of the visible actions, in order. -/
def shown_entries (actions : List RecentFileAction) : List String :=
  (actions.filter (fun a => a.visible)).map (fun a => a.data)

/-- A file system in which every file but "gone.xlsx" exists. -/
def sample_file_exists (filename : String) : Bool := filename != "gone.xlsx"

/-- Canonical paths in which "./a.xlsx" and "a.xlsx" name the same file. -/
def sample_canonical (filename : String) : String :=
  if filename = "./a.xlsx" then "a.xlsx" else filename

/-- Four menu actions, none of them set yet. -/
def sample_actions : List RecentFileAction :=
  List.replicate 4 { text := "", data := "", visible := false }

/-! ## Loading a project -/

/-- The part of a `Subject` (Libs/Project) that loading reads and writes: the
particle file names and the groomed file names. -/
structure Subject where
  local_particle_filename : String
  global_particle_filename : String
  groomed_filenames : List String
deriving DecidableEq, Repr

/-- A freshly made subject (`std::make_shared<Subject>()`). -/
def Subject.fresh : Subject :=
  { local_particle_filename := "", global_particle_filename := "", groomed_filenames := [] }

/-- A `Shape` of the session as far as loading touches it.  `object` is the
identity of the `Shape` object (its creation number), so that a shape created
by a load can be told from one that was there before; `local_point_file` and
`global_point_file` are the files imported into it; `group_id` is the value
given by `set_group_id`, `none` as long as it has not been called.  The subject
is kept by value: its sharing with the subject list of the project is not
represented. -/
structure Shape where
  object : Nat
  subject : Subject
  annotations : List String
  local_point_file : Option String
  global_point_file : Option String
  group_id : Option Int
deriving DecidableEq, Repr

/-- The calls of `load_point_files` and `load_groomed_files` made by a load, with
the file list handed over. -/
inductive LoadCall where
  | load_point_files (list : List String) (is_local : Bool)
  | load_groomed_files (file_names : List String)
deriving DecidableEq, Repr

/-- The members of `Session` that loading reads and writes.  `objects_created`
counts the `Shape` objects created so far and numbers the next one;
`load_calls` records the loader calls made so far. -/
structure SessionState where
  filename_ : String
  is_light_project_ : Bool
  groups_available_ : Bool
  shapes_ : List Shape
  objects_created : Nat
  load_calls : List LoadCall
deriving DecidableEq, Repr

/-- An element looked up in the XML document with
`docHandle.FirstChild(name).Element()`: there is no such element (a null
pointer), or there is one without text (`GetText()` is a null pointer), or
there is one with text, held as the values that `inputsBuffer >> value` reads
from it in order. -/
inductive XmlElement (α : Type) where
  | absent
  | no_text
  | text (values : List α)
deriving DecidableEq, Repr

/-- Whether the element is there (`Element() != nullptr`). -/
def XmlElement.present {α : Type} : XmlElement α → Bool
  | XmlElement.absent => false
  | _ => true

/-- The elements of a legacy XML parameter file that `load_light_project` looks
up.  For `mesh_files` and `distance_transform_files`, which are read under
`if (elem && elem->GetText())`, `none` stands for "no such element, or an
element without text" and `some` holds the whitespace-separated tokens of the
text in document order.  The point file elements and `group_ids` are read under
`if (elem)` alone, so for them the three cases are kept apart.
`has_project_element` tells whether the document has a `project` element. -/
structure XmlDocument where
  has_project_element : Bool
  group_ids : XmlElement Int
  mesh_files : Option (List String)
  distance_transform_files : Option (List String)
  point_files : XmlElement String
  local_point_files : XmlElement String
  world_point_files : XmlElement String
deriving DecidableEq, Repr

/-- What loading asks of its surroundings: `file_exists` is `QFile::exists`,
`file_name` is `QFileInfo(...).fileName()`, `xml` is the outcome of
`TiXmlDocument::LoadFile` (`none` when it fails), `project_subjects` are the
subjects the project holds after `project_->load`, `project_has_groups` tells
whether it has group names, `import_local_point_file` and
`import_global_point_file` are the results of the `Shape` methods of these
names, and `was_canceled is_local i` is `progress.wasCanceled()` in round `i` of
`load_point_files`. -/
structure Surroundings where
  file_exists : String → Bool
  file_name : String → String
  xml : String → Option XmlDocument
  project_subjects : String → List Subject
  project_has_groups : String → Bool
  import_local_point_file : String → Bool
  import_global_point_file : String → Bool
  was_canceled : Bool → Nat → Bool

/-- A new `Shape` with a given subject, as created by the loaders
(`new Shape`, `set_mesh_manager`, `set_subject`). -/
def Shape.create (object : Nat) (subject : Subject) : Shape :=
  { object := object, subject := subject, annotations := [],
    local_point_file := none, global_point_file := none, group_id := none }

/-- The loop of `Session::load_point_files` from round `i` on: the value
returned and the session after it.  Round `i` stops the loop when the progress
dialog was cancelled; otherwise it takes shape `i`, creating it at the end of
`shapes_` if there is none, sets its annotations, and imports the file into
it; a file that does not exist or fails to import returns `false`. -/
def Session.load_point_files_from (w : Surroundings) (is_local : Bool) :
    Nat → List String → SessionState → Bool × SessionState
  | _, [], s => (true, s)
  | i, fname :: rest, s =>
    if w.was_canceled is_local i then (true, s)
    else
      let s1 : SessionState :=
        if i < s.shapes_.length then s
        else
          { s with
            shapes_ := s.shapes_ ++ [Shape.create s.objects_created Subject.fresh]
            objects_created := s.objects_created + 1 }
      let k := if i < s.shapes_.length then i else s.shapes_.length
      let s2 : SessionState :=
        { s1 with
          shapes_ := s1.shapes_.modify
            (fun shape => { shape with annotations := [w.file_name fname, "", "", ""] }) k }
      if w.file_exists fname then
        if !is_local then
          if !w.import_global_point_file fname then (false, s2)
          else
            Session.load_point_files_from w is_local (i + 1) rest
              { s2 with
                shapes_ := s2.shapes_.modify
                  (fun shape => { shape with global_point_file := some fname }) k }
        else
          if !w.import_local_point_file fname then (false, s2)
          else
            Session.load_point_files_from w is_local (i + 1) rest
              { s2 with
                shapes_ := s2.shapes_.modify
                  (fun shape => { shape with local_point_file := some fname }) k }
      else (false, s2)

/-- `Session::load_point_files(list, local)`. -/
def Session.load_point_files (w : Surroundings) (s : SessionState) (list : List String)
    (is_local : Bool) : Bool × SessionState :=
  Session.load_point_files_from w is_local 0 list
    { s with load_calls := s.load_calls ++ [LoadCall.load_point_files list is_local] }

/-- The loop of `Session::load_groomed_files` from round `i` on: shape `i` is
created if there is none, then its subject gets the file as its only groomed
file name and its annotations are set. -/
def Session.load_groomed_files_from (w : Surroundings) :
    Nat → List String → SessionState → SessionState
  | _, [], s => s
  | i, fname :: rest, s =>
    let s1 : SessionState :=
      if s.shapes_.length ≤ i then
        { s with
          shapes_ := s.shapes_ ++ [Shape.create s.objects_created Subject.fresh]
          objects_created := s.objects_created + 1 }
      else s
    Session.load_groomed_files_from w (i + 1) rest
      { s1 with
        shapes_ := s1.shapes_.modify
          (fun shape =>
            { shape with
              subject := { shape.subject with groomed_filenames := [fname] }
              annotations := [w.file_name fname, "", "", ""] }) i }

/-- `Session::load_groomed_files(file_names, iso)`. -/
def Session.load_groomed_files (w : Surroundings) (s : SessionState)
    (file_names : List String) : SessionState :=
  Session.load_groomed_files_from w 0 file_names
    { s with load_calls := s.load_calls ++ [LoadCall.load_groomed_files file_names] }

/-- The groomed file list of `load_light_project` after the `mesh_files` and
`distance_transform_files` elements have been read; `none` when the function
has returned `false` because a listed file does not exist.  The files of
`mesh_files` are taken first; a `distance_transform_files` element with text
clears the list and its files are taken instead. -/
def Session.light_project_groom_files (w : Surroundings) (doc : XmlDocument) :
    Option (List String) :=
  let after_mesh : Option (List String) :=
    match doc.mesh_files with
    | some files => if files.all w.file_exists then some files else none
    | none => some []
  match after_mesh with
  | none => none
  | some groom_files =>
    match doc.distance_transform_files with
    | some files => if files.all w.file_exists then some files else none
    | none => some groom_files

/-- The local and the world point file list of `load_light_project` after the
`point_files`, `local_point_files` and `world_point_files` elements have been
read: the files of `point_files` go to both lists, `local_point_files` replaces
the first list and `world_point_files` the second.  Each element that is there
is read with `inputsBuffer.str(elem->GetText())` without a check of the text:
for an element without text a null pointer is made into a `std::string`, which
throws `std::logic_error`, and the result is `none`. -/
def Session.light_project_point_files (doc : XmlDocument) :
    Option (List String × List String) :=
  let after_point : Option (List String × List String) :=
    match doc.point_files with
    | XmlElement.absent => some ([], [])
    | XmlElement.no_text => none
    | XmlElement.text files => some (files, files)
  match after_point with
  | none => none
  | some lists =>
    let after_local : Option (List String × List String) :=
      match doc.local_point_files with
      | XmlElement.absent => some lists
      | XmlElement.no_text => none
      | XmlElement.text files => some (files, lists.2)
    match after_local with
    | none => none
    | some lists2 =>
      match doc.world_point_files with
      | XmlElement.absent => some lists2
      | XmlElement.no_text => none
      | XmlElement.text files => some (lists2.1, files)

/-- The loop `shapes_[i]->set_group_id(group_ids[i])` over the shapes for which
there is a group id. -/
def Session.set_group_ids : List Int → List Shape → List Shape
  | id :: ids, shape :: shapes =>
    { shape with group_id := some id } :: Session.set_group_ids ids shapes
  | _, shapes => shapes

/-- The end of `Session::load_light_project`, after `load_groomed_files`: the
group ids are read and given to the shapes.  A `group_ids` element without text
is read like the point file elements and throws; with fewer group ids than
shapes, `group_ids[i]` reads past the end of the vector, which is undefined.
In both cases the function does not return (`none`).  The steps after that
(view and tool state, `renumber_shapes`, `store_subjects`) change neither the
returned value nor the members represented here. -/
def Session.read_group_ids (doc : XmlDocument) (s : SessionState) : Option Bool × SessionState :=
  match doc.group_ids with
  | XmlElement.absent => (some true, s)
  | XmlElement.no_text => (none, s)
  | XmlElement.text group_ids =>
    if s.shapes_.length ≤ group_ids.length then
      (some true, { s with shapes_ := Session.set_group_ids group_ids s.shapes_ })
    else (none, { s with shapes_ := Session.set_group_ids group_ids s.shapes_ })

/-- The part of `Session::load_light_project` after the point file lists have
been read: the two checks of the counts, the two `load_point_files` calls,
`load_groomed_files`, and the group ids. -/
def Session.load_light_project_files (w : Surroundings) (doc : XmlDocument) (s : SessionState)
    (groom_files local_point_files global_point_files : List String) :
    Option Bool × SessionState :=
  if groom_files.length > 0 ∧ groom_files.length ≠ local_point_files.length then
    (some false, s)
  else if local_point_files.length ≠ global_point_files.length then
    (some false, s)
  else if !(Session.load_point_files w s local_point_files true).1 then
    (some false, (Session.load_point_files w s local_point_files true).2)
  else if !(Session.load_point_files w
      (Session.load_point_files w s local_point_files true).2 global_point_files false).1 then
    (some false, (Session.load_point_files w
      (Session.load_point_files w s local_point_files true).2 global_point_files false).2)
  else
    Session.read_group_ids doc
      (Session.load_groomed_files w
        (Session.load_point_files w
          (Session.load_point_files w s local_point_files true).2 global_point_files false).2
        groom_files)

/-- `Session::load_light_project(filename)`: the value returned and the session
after it.  The value is `none` when the function does not return: an exception
leaves it or its behaviour is undefined; the session is then the one at that
moment. -/
def Session.load_light_project (w : Surroundings) (s : SessionState) (filename : String) :
    Option Bool × SessionState :=
  match w.xml filename with
  | none => (some false, { s with is_light_project_ := true })
  | some doc =>
    match Session.light_project_groom_files w doc with
    | none =>
      (some false, { s with is_light_project_ := true, groups_available_ := doc.group_ids.present })
    | some groom_files =>
      match Session.light_project_point_files doc with
      | none =>
        (none, { s with is_light_project_ := true, groups_available_ := doc.group_ids.present })
      | some lists =>
        Session.load_light_project_files w doc
          { s with is_light_project_ := true, groups_available_ := doc.group_ids.present }
          groom_files lists.1 lists.2

/-- The first loop of `Session::load_xl_project`: one new `Shape` per subject of
the loaded project, appended to `shapes_`. -/
def Session.add_subject_shapes : List Subject → SessionState → SessionState
  | [], s => s
  | subject :: rest, s =>
    Session.add_subject_shapes rest
      { s with
        shapes_ := s.shapes_ ++ [Shape.create s.objects_created subject]
        objects_created := s.objects_created + 1 }

/-- `Session::load_xl_project(filename)`: the value returned and the session
after it.  The results of the two `load_point_files` calls are not looked
at. -/
def Session.load_xl_project (w : Surroundings) (s : SessionState) (filename : String) :
    Option Bool × SessionState :=
  let subjects := w.project_subjects filename
  let with_particles := subjects.filter (fun subject => subject.local_particle_filename ≠ "")
  let s1 := Session.add_subject_shapes subjects { s with filename_ := filename }
  let s2 := (Session.load_point_files w s1
    (with_particles.map (fun subject => subject.local_particle_filename)) true).2
  let s3 := (Session.load_point_files w s2
    (with_particles.map (fun subject => subject.global_particle_filename)) false).2
  (some true, { s3 with groups_available_ := w.project_has_groups filename })

/-- `filename.toLower().endsWith(".xlsx")`; only the letters A to Z matter for
this suffix. -/
def ends_with_xlsx (filename : String) : Bool :=
  ".xlsx".data.isSuffixOf (filename.data.map Char.toLower)

/-- `Session::load_project(filename)`: the value returned (`none` when the
function does not return) and the session after it.  After the comment "clear
the project out first" the function sets `filename_` and goes on to the loader
for the kind of file. -/
def Session.load_project (w : Surroundings) (s : SessionState) (filename : String) :
    Option Bool × SessionState :=
  if !w.file_exists filename then (some false, s)
  else if ends_with_xlsx filename then
    Session.load_xl_project w { s with filename_ := filename } filename
  else
    match w.xml filename with
    | none => (some false, { s with filename_ := filename })
    | some doc =>
      if !doc.has_project_element then
        Session.load_light_project w { s with filename_ := filename } filename
      else (some false, { s with filename_ := filename })

/-- An empty session. -/
def SessionState.empty : SessionState :=
  { filename_ := "", is_light_project_ := false, groups_available_ := false,
    shapes_ := [], objects_created := 0, load_calls := [] }

/-- The groomed files a legacy parameter file lists: the files of
`distance_transform_files` when that element has text, otherwise those of
`mesh_files`. -/
def XmlDocument.listed_groom_files (doc : XmlDocument) : List String :=
  match doc.distance_transform_files with
  | some files => files
  | none => doc.mesh_files.getD []

/-- A legacy parameter file that lists both mesh files and distance
transforms, and two point files. -/
def sample_document : XmlDocument :=
  { has_project_element := false, group_ids := XmlElement.absent,
    mesh_files := some ["m1.vtk", "m2.vtk"],
    distance_transform_files := some ["d1.nrrd", "d2.nrrd"],
    point_files := XmlElement.text ["p1.particles", "p2.particles"],
    local_point_files := XmlElement.absent, world_point_files := XmlElement.absent }

/-- A legacy parameter file with two distance transforms and one point file. -/
def mismatched_document : XmlDocument :=
  { sample_document with point_files := XmlElement.text ["p1.particles"] }

/-- A legacy parameter file with one distance transform and a `point_files`
element without text (`<point_files></point_files>`). -/
def empty_point_files_document : XmlDocument :=
  { has_project_element := false, group_ids := XmlElement.absent,
    mesh_files := none,
    distance_transform_files := some ["d1.nrrd"],
    point_files := XmlElement.no_text,
    local_point_files := XmlElement.absent, world_point_files := XmlElement.absent }

/-- A legacy parameter file that lists the same file as a mesh file and as a
distance transform, and one point file. -/
def twice_listed_document : XmlDocument :=
  { has_project_element := false, group_ids := XmlElement.absent,
    mesh_files := some ["shape.nrrd"],
    distance_transform_files := some ["shape.nrrd"],
    point_files := XmlElement.text ["p1.particles"],
    local_point_files := XmlElement.absent, world_point_files := XmlElement.absent }

/-- Surroundings in which every file exists and imports, "old.xml", "bad.xml",
"empty.xml" and "twice.xml" are legacy parameter files, and any project read by
`project_->load` has one subject with particle files. -/
def sample_surroundings : Surroundings :=
  { file_exists := fun _ => true
    file_name := fun f => f
    xml := fun f =>
      if f = "old.xml" then some sample_document
      else if f = "bad.xml" then some mismatched_document
      else if f = "empty.xml" then some empty_point_files_document
      else if f = "twice.xml" then some twice_listed_document
      else none
    project_subjects := fun _ =>
      [{ local_particle_filename := "a.local", global_particle_filename := "a.world",
         groomed_filenames := [] }]
    project_has_groups := fun _ => false
    import_local_point_file := fun _ => true
    import_global_point_file := fun _ => true
    was_canceled := fun _ _ => false }

/-- A session that already holds one shape (object 0), as after an import. -/
def session_with_one_shape : SessionState :=
  { SessionState.empty with shapes_ := [Shape.create 0 Subject.fresh], objects_created := 1 }

/-! ## The error latch -/

/-- The bookkeeping of the manager is consistent: no fingerprint is queued
twice, in flight twice, or cached twice, and a fingerprint is in at most one of
the work queue, the in-flight set and the cache. -/
def MeshManager.Settled (s : MeshManager) : Prop :=
  (s.work_queue_.map fingerprint).Nodup ∧
  s.in_flight.Nodup ∧
  (∀ it ∈ s.work_queue_, fingerprint it ∉ s.in_flight) ∧
  (s.mesh_cache_.entries.map Prod.fst).Nodup ∧
  (∀ e ∈ s.mesh_cache_.entries,
    e.1 ∉ s.in_flight ∧ ∀ it ∈ s.work_queue_, fingerprint it ≠ e.1)

/-- The caller of a `get_mesh` step for a fingerprint, with either value of
`wait`. -/
def Event.request_for (fp : Fingerprint) : Event → List CallerId
  | Event.get_mesh caller item _ => if fingerprint item = fp then [caller] else []
  | _ => []

/-- The callers of the `get_mesh` steps of a run for a fingerprint, in order. -/
def requests_for (fp : Fingerprint) : List Event → List CallerId
  | [] => []
  | e :: rest => e.request_for fp ++ requests_for fp rest

/-- Whether a fingerprint is still cached after every step of a run. -/
def MeshManager.stays_cached (s : MeshManager) (fp : Fingerprint) : List Event → Bool
  | [] => true
  | e :: rest =>
    ((s.step e).mesh_cache_.get fp).isSome && MeshManager.stays_cached (s.step e) fp rest

/-- Whether a step taken in state `s` can remove a cached fingerprint from the
cache: `clear_cache()`, or the successful completion of the build of another,
uncached fingerprint while the cache is full and the entry is not pinned (the
insertion then evicts the least recently used unpinned entry). -/
def MeshManager.drops (s : MeshManager) (fp : Fingerprint) : Event → Bool
  | Event.clear_cache => true
  | Event.thread_complete pinned item mesh =>
    s.in_flight.contains (fingerprint item) && !mesh.failed &&
      (s.mesh_cache_.get (fingerprint item)).isNone &&
      decide (s.mesh_cache_.max_entries ≤ s.mesh_cache_.entries.length) &&
      !pinned.contains fp
  | _ => false

/-- Whether a step is a dispatch of a fingerprint to a worker. -/
def Event.dispatches (fp : Fingerprint) : Event → Bool
  | Event.dispatch fp2 => decide (fp2 = fp)
  | _ => false

/-- Whether a step asks for the mesh of a fingerprint: a `get_mesh` or a
`generate_mesh` for an item with that fingerprint. -/
def Event.asks_for (fp : Fingerprint) : Event → Bool
  | Event.get_mesh _ item _ => decide (fingerprint item = fp)
  | Event.generate_mesh item => decide (fingerprint item = fp)
  | _ => false

/-- The item is owned by the work queue or by a worker. -/
def MeshManager.claimed (s : MeshManager) (item : MeshWorkItem) : Prop :=
  1 ≤ s.work_queue_.count item ∨ fingerprint item ∈ s.in_flight

/-! ## Cache lemmas -/

theorem fingerprint_well_formed (item : MeshWorkItem) :
    Fingerprint.well_formed (fingerprint item) = item.well_formed := by
  simp [Fingerprint.well_formed, Fingerprint.points, fingerprint, MeshWorkItem.well_formed]

theorem fingerprint_injective (a b : MeshWorkItem) (h : fingerprint a = fingerprint b) : a = b := by
  cases a with
  | mk pa da ra wa =>
    cases b with
    | mk pb db rb wb =>
      simp only [fingerprint, List.cons.injEq] at h
      obtain ⟨h1, h2, h3, h4⟩ := h
      have hr : ra = rb := by
        cases ra <;> cases rb <;> simp_all
      have hw : wa = wb := by
        cases wa <;> cases wb <;> simp_all
      subst hr hw h3 h4
      rfl

theorem cache_lookup_eq_none_iff (key : Fingerprint) (entries : List (Fingerprint × StudioMesh)) :
    cache_lookup key entries = none ↔ ∀ e ∈ entries, e.1 ≠ key := by
  induction entries with
  | nil => simp [cache_lookup]
  | cons e rest ih =>
    by_cases h : e.1 = key
    · simp [cache_lookup, h]
    · simp [cache_lookup, h, ih]

theorem cache_lookup_mem (key : Fingerprint) (m : StudioMesh)
    (entries : List (Fingerprint × StudioMesh)) (h : cache_lookup key entries = some m) :
    (key, m) ∈ entries := by
  induction entries with
  | nil => simp [cache_lookup] at h
  | cons e rest ih =>
    by_cases hk : e.1 = key
    · simp only [cache_lookup, hk, if_true, Option.some.injEq] at h
      have : e = (key, m) := by
        cases e; simp_all
      simp [this]
    · simp only [cache_lookup, hk, if_false] at h
      exact List.mem_cons_of_mem _ (ih h)

theorem cache_lookup_remove_ne (key other : Fingerprint) (entries : List (Fingerprint × StudioMesh))
    (h : other ≠ key) :
    cache_lookup other (cache_remove key entries) = cache_lookup other entries := by
  induction entries with
  | nil => simp [cache_remove, cache_lookup]
  | cons e rest ih =>
    unfold cache_remove at ih ⊢
    rw [List.filter_cons]
    by_cases hk : e.1 = key
    · have hne : ¬ e.1 = other := fun ho => h (ho.symm.trans hk)
      have hd : decide (e.1 ≠ key) = false := by simp [hk]
      rw [hd]
      simp only [Bool.false_eq_true, if_false, cache_lookup, hne]
      exact ih
    · have hd : decide (e.1 ≠ key) = true := by simp [hk]
      rw [hd]
      simp only [if_true, cache_lookup]
      rw [ih]

theorem touch_get (c : MeshCache) (key other : Fingerprint) :
    (c.touch key).get other = c.get other := by
  unfold MeshCache.touch MeshCache.get
  cases hl : cache_lookup key c.entries with
  | none => simp
  | some m =>
    by_cases h : key = other
    · subst h
      simp [cache_lookup, hl]
    · have h2 : other ≠ key := fun e => h e.symm
      simp [cache_lookup, h, cache_lookup_remove_ne key other c.entries h2]

theorem mem_cache_remove (key : Fingerprint) (entries : List (Fingerprint × StudioMesh))
    (e : Fingerprint × StudioMesh) (h : e ∈ cache_remove key entries) : e ∈ entries := by
  unfold cache_remove at h
  exact List.mem_of_mem_filter h

theorem mem_evict_lru (pinned : List Fingerprint) (entries : List (Fingerprint × StudioMesh))
    (e : Fingerprint × StudioMesh) (h : e ∈ evict_lru pinned entries) : e ∈ entries := by
  unfold evict_lru at h
  rw [List.mem_reverse] at h
  exact List.mem_reverse.mp (List.mem_of_mem_eraseP h)

theorem mem_touch (c : MeshCache) (key : Fingerprint) (e : Fingerprint × StudioMesh)
    (h : e ∈ (c.touch key).entries) : e ∈ c.entries := by
  unfold MeshCache.touch at h
  cases hl : cache_lookup key c.entries with
  | none => simpa [hl] using h
  | some m =>
    simp only [hl, List.mem_cons] at h
    rcases h with h | h
    · rw [h]
      exact cache_lookup_mem key m c.entries hl
    · exact mem_cache_remove key c.entries e h

theorem mem_put (c : MeshCache) (pinned : List Fingerprint) (key : Fingerprint) (mesh : StudioMesh)
    (e : Fingerprint × StudioMesh) (h : e ∈ (c.put pinned key mesh).entries) :
    e = (key, mesh) ∨ e ∈ c.entries := by
  unfold MeshCache.put at h
  cases hl : cache_lookup key c.entries with
  | some m0 =>
    simp only [hl, List.mem_cons] at h
    rcases h with h | h
    · exact Or.inl h
    · exact Or.inr (mem_cache_remove key c.entries e h)
  | none =>
    simp only [hl] at h
    split at h
    · simp only [List.mem_cons] at h
      rcases h with h | h
      · exact Or.inl h
      · exact Or.inr (mem_evict_lru pinned c.entries e h)
    · simp only [List.mem_cons] at h
      exact h

theorem put_get_self (c : MeshCache) (pinned : List Fingerprint) (key : Fingerprint)
    (mesh : StudioMesh) : (c.put pinned key mesh).get key = some mesh := by
  unfold MeshCache.put MeshCache.get
  cases hl : cache_lookup key c.entries with
  | some m0 => simp [cache_lookup]
  | none =>
    simp only
    split <;> simp [cache_lookup]

theorem put_get_none (c : MeshCache) (pinned : List Fingerprint) (key other : Fingerprint)
    (mesh : StudioMesh) (hne : key ≠ other) (h : c.get other = none) :
    (c.put pinned key mesh).get other = none := by
  unfold MeshCache.get at h ⊢
  rw [cache_lookup_eq_none_iff] at h ⊢
  intro e he
  rcases mem_put c pinned key mesh e he with he | he
  · rw [he]
    exact hne
  · exact h e he

/-! ## Cached keys are keys of checked items -/

theorem mem_push (queue : MeshWorkQueue) (in_flight : List Fingerprint) (item it : MeshWorkItem)
    (h : it ∈ (MeshWorkQueue.push queue in_flight item).1) : it ∈ queue ∨ it = item := by
  unfold MeshWorkQueue.push at h
  split at h
  · exact Or.inl h
  · simpa using h

theorem KeysChecked_init (max_entries max_threads : Nat) :
    (MeshManager.init max_entries max_threads).KeysChecked := by
  simp [MeshManager.KeysChecked, MeshManager.init]

theorem KeysChecked_get_mesh (s : MeshManager) (caller : CallerId) (item : MeshWorkItem)
    (wait : Bool) (h : s.KeysChecked) : (s.get_mesh caller item wait).KeysChecked := by
  obtain ⟨hq, hf, hc⟩ := h
  unfold MeshManager.get_mesh
  by_cases hw : item.well_formed = true
  · simp only [hw, Bool.not_true, Bool.false_eq_true, if_false]
    cases hg : s.mesh_cache_.get (fingerprint item) with
    | some m =>
      refine ⟨hq, hf, ?_⟩
      intro e he
      exact hc e (mem_touch _ _ e he)
    | none =>
      cases wait with
      | true =>
        refine ⟨?_, hf, hc⟩
        intro it hit
        rcases mem_push _ _ _ it hit with h1 | h1
        · exact hq it h1
        · rw [h1]; exact hw
      | false =>
        refine ⟨?_, hf, hc⟩
        intro it hit
        rcases mem_push _ _ _ it hit with h1 | h1
        · exact hq it h1
        · rw [h1]; exact hw
  · have hw2 : item.well_formed = false := by simpa using hw
    simp only [hw2, Bool.not_false, if_true]
    exact ⟨hq, hf, hc⟩

theorem KeysChecked_generate_mesh (s : MeshManager) (item : MeshWorkItem) (h : s.KeysChecked) :
    (s.generate_mesh item).KeysChecked := by
  have h1 := KeysChecked_get_mesh s 0 item false h
  exact h1

theorem KeysChecked_clear_cache (s : MeshManager) (h : s.KeysChecked) :
    s.clear_cache.KeysChecked := by
  obtain ⟨hq, hf, _⟩ := h
  refine ⟨hq, hf, ?_⟩
  simp [MeshManager.clear_cache, MeshCache.clear]

theorem KeysChecked_dispatch (s : MeshManager) (fp : Fingerprint) (h : s.KeysChecked) :
    (s.dispatch fp).KeysChecked := by
  obtain ⟨hq, hf, hc⟩ := h
  unfold MeshManager.dispatch
  cases hfind : s.work_queue_.find? (fun it => decide (fingerprint it = fp)) with
  | none => exact ⟨hq, hf, hc⟩
  | some item =>
    simp only
    split
    · have hmem : item ∈ s.work_queue_ := List.mem_of_find?_eq_some hfind
      have hfp : fingerprint item = fp := by
        have := List.find?_some hfind
        simpa using this
      refine ⟨?_, ?_, hc⟩
      · intro it hit
        exact hq it (List.mem_of_mem_erase hit)
      · intro x hx
        simp only [List.mem_append, List.mem_singleton] at hx
        rcases hx with hx | hx
        · exact hf x hx
        · rw [hx, ← hfp, fingerprint_well_formed]
          exact hq item hmem
    · exact ⟨hq, hf, hc⟩

theorem KeysChecked_handle_thread_complete (s : MeshManager) (pinned : List Fingerprint)
    (item : MeshWorkItem) (mesh : StudioMesh) (h : s.KeysChecked) :
    (s.handle_thread_complete pinned item mesh).KeysChecked := by
  obtain ⟨hq, hf, hc⟩ := h
  unfold MeshManager.handle_thread_complete
  by_cases hin : s.in_flight.contains (fingerprint item) = true
  · simp only [hin, if_true]
    have hmem : fingerprint item ∈ s.in_flight := by simpa using hin
    have hf2 : ∀ x ∈ s.in_flight.erase (fingerprint item), Fingerprint.well_formed x = true :=
      fun x hx => hf x (List.mem_of_mem_erase hx)
    cases hfail : mesh.failed with
    | true =>
      simp only [if_true, MeshManager.check_error_status, hfail, Bool.true_and]
      split <;> exact ⟨hq, hf2, hc⟩
    | false =>
      simp only [Bool.false_eq_true, if_false]
      refine ⟨hq, hf2, ?_⟩
      intro e he
      rcases mem_put _ _ _ _ e he with h1 | h1
      · rw [h1]
        exact hf _ hmem
      · exact hc e h1
  · simp only [hin, if_false]
    exact ⟨hq, hf, hc⟩

theorem KeysChecked_step (s : MeshManager) (e : Event) (h : s.KeysChecked) :
    (s.step e).KeysChecked := by
  cases e with
  | get_mesh caller item wait => exact KeysChecked_get_mesh s caller item wait h
  | generate_mesh item => exact KeysChecked_generate_mesh s item h
  | clear_cache => exact KeysChecked_clear_cache s h
  | dispatch fp => exact KeysChecked_dispatch s fp h
  | thread_complete pinned item mesh => exact KeysChecked_handle_thread_complete s pinned item mesh h

theorem KeysChecked_run (events : List Event) (s : MeshManager) (h : s.KeysChecked) :
    (s.run events).KeysChecked := by
  induction events generalizing s with
  | nil => exact h
  | cons e rest ih => exact ih (s.step e) (KeysChecked_step s e h)

/-! ## A cache hit -/

theorem get_mesh_hit (s : MeshManager) (caller : CallerId) (item : MeshWorkItem) (wait : Bool)
    (m : StudioMesh) (hw : item.well_formed = true)
    (hc : s.mesh_cache_.get (fingerprint item) = some m) :
    s.get_mesh caller item wait =
      { s with
        mesh_cache_ := s.mesh_cache_.touch (fingerprint item)
        returns := s.returns ++ [(caller, fingerprint item, some m)] } := by
  unfold MeshManager.get_mesh
  simp only [hw, Bool.not_true, Bool.false_eq_true, if_false, hc]

/-! ## Progress of one build -/

theorem Progress_refl (item : MeshWorkItem) (s : MeshManager) (h : s.Tracked item) :
    Progress item s s [] [] := by
  refine ⟨h, le_refl _, ?_, ?_, ?_⟩ <;> simp

theorem Progress_frame (item : MeshWorkItem) (s t : MeshManager) (ht : t.Tracked item)
    (hf : t.in_flight.count (fingerprint item) = s.in_flight.count (fingerprint item))
    (hc : t.calls_for (fingerprint item) = s.calls_for (fingerprint item))
    (hr : t.returns_for (fingerprint item) = s.returns_for (fingerprint item))
    (hw : t.waiters_for (fingerprint item) = s.waiters_for (fingerprint item)) :
    Progress item s t [] [] := by
  refine ⟨ht, le_of_eq hf.symm, ?_, ?_, ?_⟩
  · rw [hc, hf]; simp
  · rw [hr]; simp
  · rw [hw]; simp

theorem is_inside_iff_mem (queue : MeshWorkQueue) (item : MeshWorkItem) :
    MeshWorkQueue.is_inside queue (fingerprint item) = true ↔ item ∈ queue := by
  unfold MeshWorkQueue.is_inside
  rw [List.any_eq_true]
  constructor
  · rintro ⟨it, hit, hfp⟩
    have : it = item := fingerprint_injective it item (by simpa using hfp)
    rw [← this]; exact hit
  · intro h
    exact ⟨item, h, by simp⟩

theorem count_push_other (queue : MeshWorkQueue) (in_flight : List Fingerprint)
    (item it : MeshWorkItem) (hne : it ≠ item) :
    (MeshWorkQueue.push queue in_flight it).1.count item = queue.count item := by
  unfold MeshWorkQueue.push
  split
  · rfl
  · simp [List.count_append, List.count_cons, hne]

theorem count_push_self (queue : MeshWorkQueue) (in_flight : List Fingerprint)
    (item : MeshWorkItem)
    (h : queue.count item + in_flight.count (fingerprint item) ≤ 1) :
    (MeshWorkQueue.push queue in_flight item).1.count item
      + in_flight.count (fingerprint item) ≤ 1 := by
  unfold MeshWorkQueue.push
  split
  · exact h
  · rename_i hcond
    simp only [Bool.or_eq_true, not_or, Bool.not_eq_true] at hcond
    obtain ⟨hq, hf⟩ := hcond
    have hq2 : item ∉ queue := by
      intro hmem
      have := (is_inside_iff_mem queue item).mpr hmem
      rw [this] at hq
      exact absurd hq (by decide)
    have hf2 : fingerprint item ∉ in_flight := by
      intro hmem
      have : in_flight.contains (fingerprint item) = true := by simpa using hmem
      rw [this] at hf
      exact absurd hf (by decide)
    have c1 : queue.count item = 0 := List.count_eq_zero_of_not_mem hq2
    have c2 : in_flight.count (fingerprint item) = 0 := List.count_eq_zero_of_not_mem hf2
    simp [List.count_append, c1, c2]

theorem Progress_get_mesh_self (item : MeshWorkItem) (s : MeshManager) (caller : CallerId)
    (wait : Bool) (hwf : item.well_formed = true) (h : s.Tracked item) :
    Progress item s (s.get_mesh caller item wait)
      ((Event.get_mesh caller item wait).placeholder_return (fingerprint item))
      ((Event.get_mesh caller item wait).waiting_caller (fingerprint item)) := by
  obtain ⟨hc, hcount⟩ := h
  have hpush := count_push_self s.work_queue_ s.in_flight item hcount
  unfold MeshManager.get_mesh
  simp only [hwf, Bool.not_true, Bool.false_eq_true, if_false, hc]
  cases wait with
  | true =>
    refine ⟨⟨hc, hpush⟩, le_refl _, ?_, ?_, ?_⟩
    · simp [MeshManager.calls_for]
    · simp [MeshManager.returns_for, Event.placeholder_return]
    · simp [MeshManager.waiters_for, Event.waiting_caller, List.filter_append]
  | false =>
    refine ⟨⟨hc, hpush⟩, le_refl _, ?_, ?_, ?_⟩
    · simp [MeshManager.calls_for]
    · simp [MeshManager.returns_for, Event.placeholder_return, List.filter_append]
    · simp [MeshManager.waiters_for, Event.waiting_caller]

theorem Progress_get_mesh_other (item : MeshWorkItem) (s : MeshManager) (caller : CallerId)
    (it : MeshWorkItem) (wait : Bool) (hne : it ≠ item) (h : s.Tracked item) :
    Progress item s (s.get_mesh caller it wait) [] [] := by
  obtain ⟨hc, hcount⟩ := h
  have hfp : fingerprint it ≠ fingerprint item := fun e => hne (fingerprint_injective it item e)
  unfold MeshManager.get_mesh
  cases hw : it.well_formed with
  | false =>
    simp only [Bool.not_false, if_true]
    apply Progress_frame
    · exact ⟨hc, hcount⟩
    · rfl
    · rfl
    · simp [MeshManager.returns_for, List.filter_append, hfp]
    · rfl
  | true =>
    simp only [Bool.not_true, Bool.false_eq_true, if_false]
    cases hg : s.mesh_cache_.get (fingerprint it) with
    | some m =>
      apply Progress_frame
      · refine ⟨?_, hcount⟩
        simp only [touch_get]
        exact hc
      · rfl
      · rfl
      · simp [MeshManager.returns_for, List.filter_append, hfp]
      · rfl
    | none =>
      have hpush := count_push_other s.work_queue_ s.in_flight item it hne
      cases wait with
      | true =>
        apply Progress_frame
        · refine ⟨hc, ?_⟩
          simp only [if_true]
          rw [hpush]
          exact hcount
        · rfl
        · rfl
        · rfl
        · simp [MeshManager.waiters_for, List.filter_append, hfp]
      | false =>
        apply Progress_frame
        · refine ⟨hc, ?_⟩
          simp only [Bool.false_eq_true, if_false]
          rw [hpush]
          exact hcount
        · rfl
        · rfl
        · simp [MeshManager.returns_for, List.filter_append, hfp]
        · rfl

theorem Progress_generate_mesh (item : MeshWorkItem) (s : MeshManager) (it : MeshWorkItem)
    (hwf : item.well_formed = true) (h : s.Tracked item) :
    Progress item s (s.generate_mesh it) [] [] := by
  by_cases hit : it = item
  · subst hit
    obtain ⟨ht, hf, hc, _, hw⟩ := Progress_get_mesh_self it s 0 false hwf h
    refine ⟨ht, hf, hc, ?_, hw⟩
    simp [MeshManager.returns_for, MeshManager.generate_mesh]
  · obtain ⟨ht, hf, hc, _, hw⟩ := Progress_get_mesh_other item s 0 it false hit h
    refine ⟨ht, hf, hc, ?_, hw⟩
    simp [MeshManager.returns_for, MeshManager.generate_mesh]

theorem Progress_clear_cache (item : MeshWorkItem) (s : MeshManager) (h : s.Tracked item) :
    Progress item s s.clear_cache [] [] := by
  apply Progress_frame
  · refine ⟨?_, h.2⟩
    simp [MeshManager.clear_cache, MeshCache.clear, MeshCache.get, cache_lookup]
  · rfl
  · rfl
  · rfl
  · rfl

theorem Progress_dispatch (item : MeshWorkItem) (s : MeshManager) (fp : Fingerprint)
    (h : s.Tracked item) : Progress item s (s.dispatch fp) [] [] := by
  obtain ⟨hc, hcount⟩ := h
  unfold MeshManager.dispatch
  cases hfind : s.work_queue_.find? (fun it => decide (fingerprint it = fp)) with
  | none => exact Progress_refl item s ⟨hc, hcount⟩
  | some it =>
    simp only
    split
    · have hmem : it ∈ s.work_queue_ := List.mem_of_find?_eq_some hfind
      have hfp : fingerprint it = fp := by
        have := List.find?_some hfind
        simpa using this
      by_cases hit : it = item
      · subst hit
        have hpos : 0 < s.work_queue_.count it := List.count_pos_iff.mpr hmem
        have hq1 : s.work_queue_.count it = 1 := by omega
        have hf0 : s.in_flight.count (fingerprint it) = 0 := by omega
        subst hfp
        refine ⟨⟨hc, ?_⟩, ?_, ?_, ?_, ?_⟩
        · simp [List.count_erase_self, List.count_append, hq1, hf0]
        · simp [List.count_append]
        · simp [MeshManager.calls_for, List.filter_append, List.count_append, hf0]
        · simp [MeshManager.returns_for]
        · simp [MeshManager.waiters_for]
      · have hne : fp ≠ fingerprint item := by
          intro e
          exact hit (fingerprint_injective it item (hfp.trans e))
        have hne2 : fingerprint it ≠ fingerprint item := by rw [hfp]; exact hne
        apply Progress_frame
        · refine ⟨hc, ?_⟩
          have : (s.work_queue_.erase it).count item = s.work_queue_.count item :=
            List.count_erase_of_ne (fun e => hit e.symm) _
          simp only [List.count_append, this]
          simp [List.count_cons, hne, hcount]
        · simp [List.count_append, List.count_cons, hne]
        · simp [MeshManager.calls_for, List.filter_append, hne2]
        · rfl
        · rfl
    · exact Progress_refl item s ⟨hc, hcount⟩

theorem filter_filter_ne (waiters : List (CallerId × Fingerprint)) (fp other : Fingerprint)
    (hne : other ≠ fp) :
    (waiters.filter (fun w => decide (w.2 ≠ other))).filter (fun w => decide (w.2 = fp))
      = waiters.filter (fun w => decide (w.2 = fp)) := by
  rw [List.filter_filter]
  apply List.filter_congr
  intro w _
  by_cases h2 : w.2 = fp
  · have h1 : ¬ fp = other := fun e => hne e.symm
    simp [h1, h2]
  · simp [h2]

theorem filter_released_other (released : List (CallerId × Fingerprint)) (fp other : Fingerprint)
    (mesh : StudioMesh) (hne : other ≠ fp) :
    (released.map (fun w => ((w.1, other, some mesh) : CallerId × Fingerprint × MeshHandle))).filter
      (fun r => decide (r.2.1 = fp)) = [] := by
  induction released with
  | nil => rfl
  | cons w rest ih => simp [List.filter_cons, hne, ih]

theorem Progress_thread_complete_other (item : MeshWorkItem) (s : MeshManager)
    (pinned : List Fingerprint) (it : MeshWorkItem) (mesh : StudioMesh)
    (hne : fingerprint it ≠ fingerprint item) (h : s.Tracked item) :
    Progress item s (s.handle_thread_complete pinned it mesh) [] [] := by
  obtain ⟨hc, hcount⟩ := h
  unfold MeshManager.handle_thread_complete
  by_cases hin : s.in_flight.contains (fingerprint it) = true
  · simp only [hin, if_true]
    have hcnt : (s.in_flight.erase (fingerprint it)).count (fingerprint item)
        = s.in_flight.count (fingerprint item) :=
      List.count_erase_of_ne (fun e => hne e.symm) _
    have hret : MeshManager.returns_for
        { s with
          in_flight := s.in_flight.erase (fingerprint it)
          waiters := s.waiters.filter (fun w => decide (w.2 ≠ fingerprint it))
          returns := s.returns ++ (s.waiters.filter (fun w => decide (w.2 = fingerprint it))).map
            (fun w => (w.1, fingerprint it, some mesh)) } (fingerprint item)
        = s.returns_for (fingerprint item) := by
      simp only [MeshManager.returns_for, List.filter_append]
      rw [filter_released_other _ _ _ _ hne]
      simp
    have hwait : MeshManager.waiters_for
        { s with
          in_flight := s.in_flight.erase (fingerprint it)
          waiters := s.waiters.filter (fun w => decide (w.2 ≠ fingerprint it))
          returns := s.returns ++ (s.waiters.filter (fun w => decide (w.2 = fingerprint it))).map
            (fun w => (w.1, fingerprint it, some mesh)) } (fingerprint item)
        = s.waiters_for (fingerprint item) := by
      simp only [MeshManager.waiters_for]
      rw [filter_filter_ne _ _ _ hne]
    cases hfail : mesh.failed with
    | true =>
      simp only [if_true, MeshManager.check_error_status, hfail, Bool.true_and]
      split
      · apply Progress_frame
        · exact ⟨hc, by simp only [hcnt]; exact hcount⟩
        · exact hcnt
        · rfl
        · exact hret
        · exact hwait
      · apply Progress_frame
        · exact ⟨hc, by simp only [hcnt]; exact hcount⟩
        · exact hcnt
        · rfl
        · exact hret
        · exact hwait
    | false =>
      simp only [Bool.false_eq_true, if_false]
      apply Progress_frame
      · refine ⟨?_, by simp only [hcnt]; exact hcount⟩
        exact put_get_none _ _ _ _ _ hne hc
      · exact hcnt
      · rfl
      · exact hret
      · exact hwait
  · simp only [hin, if_false]
    exact Progress_refl item s ⟨hc, hcount⟩

theorem Progress_step (item : MeshWorkItem) (s : MeshManager) (e : Event)
    (hwf : item.well_formed = true) (h : s.Tracked item)
    (hno : e.completes (fingerprint item) = false) :
    Progress item s (s.step e) (e.placeholder_return (fingerprint item))
      (e.waiting_caller (fingerprint item)) := by
  cases e with
  | get_mesh caller it wait =>
    by_cases hit : it = item
    · subst hit
      exact Progress_get_mesh_self it s caller wait hwf h
    · have hfp : fingerprint it ≠ fingerprint item :=
        fun e => hit (fingerprint_injective it item e)
      have h1 : (Event.get_mesh caller it wait).placeholder_return (fingerprint item) = [] := by
        cases wait <;> simp [Event.placeholder_return, hfp]
      have h2 : (Event.get_mesh caller it wait).waiting_caller (fingerprint item) = [] := by
        cases wait <;> simp [Event.waiting_caller, hfp]
      rw [h1, h2]
      exact Progress_get_mesh_other item s caller it wait hit h
  | generate_mesh it => exact Progress_generate_mesh item s it hwf h
  | clear_cache => exact Progress_clear_cache item s h
  | dispatch fp => exact Progress_dispatch item s fp h
  | thread_complete pinned it mesh =>
    have hne : fingerprint it ≠ fingerprint item := by
      simpa [Event.completes] using hno
    exact Progress_thread_complete_other item s pinned it mesh hne h

theorem Progress_trans (item : MeshWorkItem) (s t u : MeshManager)
    (r1 r2 : List (CallerId × Fingerprint × MeshHandle)) (w1 w2 : List CallerId)
    (h1 : Progress item s t r1 w1) (h2 : Progress item t u r2 w2) :
    Progress item s u (r1 ++ r2) (w1 ++ w2) := by
  obtain ⟨_, hf1, hc1, hr1, hw1⟩ := h1
  obtain ⟨ht2, hf2, hc2, hr2, hw2⟩ := h2
  refine ⟨ht2, le_trans hf1 hf2, ?_, ?_, ?_⟩
  · rw [hc2, hc1, List.append_assoc, List.append_replicate_replicate]
    congr 2
    omega
  · rw [hr2, hr1, List.append_assoc]
  · rw [hw2, hw1, List.append_assoc]

theorem Progress_run (item : MeshWorkItem) (events : List Event) (s : MeshManager)
    (hwf : item.well_formed = true) (h : s.Tracked item)
    (hno : ∀ e ∈ events, e.completes (fingerprint item) = false) :
    Progress item s (s.run events) (placeholder_returns (fingerprint item) events)
      (waiting_callers (fingerprint item) events) := by
  induction events generalizing s with
  | nil => exact Progress_refl item s h
  | cons e rest ih =>
    have h1 := Progress_step item s e hwf h (hno e (List.mem_cons_self _ _))
    have h2 := ih (s.step e) h1.1 (fun d hd => hno d (List.mem_cons_of_mem _ hd))
    exact Progress_trans item s (s.step e) _ _ _ _ _ h1 h2

/-! ## A malformed item is never taken by a worker -/

theorem idle_step (item : MeshWorkItem) (s : MeshManager) (e : Event)
    (hwf : item.well_formed = false)
    (h : item ∉ s.work_queue_ ∧ fingerprint item ∉ s.in_flight) :
    item ∉ (s.step e).work_queue_ ∧ fingerprint item ∉ (s.step e).in_flight := by
  obtain ⟨hq, hf⟩ := h
  have key : ∀ (caller : CallerId) (it : MeshWorkItem) (wait : Bool),
      item ∉ (s.get_mesh caller it wait).work_queue_ ∧
        fingerprint item ∉ (s.get_mesh caller it wait).in_flight := by
    intro caller it wait
    unfold MeshManager.get_mesh
    cases hw : it.well_formed with
    | false => simpa using ⟨hq, hf⟩
    | true =>
      have hne : it ≠ item := by
        intro e
        rw [e, hwf] at hw
        exact absurd hw (by decide)
      simp only [Bool.not_true, Bool.false_eq_true, if_false]
      cases hg : s.mesh_cache_.get (fingerprint it) with
      | some m => exact ⟨hq, hf⟩
      | none =>
        have hpush : item ∉ (MeshWorkQueue.push s.work_queue_ s.in_flight it).1 := by
          intro hmem
          rcases mem_push _ _ _ item hmem with h1 | h1
          · exact hq h1
          · exact hne h1.symm
        cases wait with
        | true => exact ⟨hpush, hf⟩
        | false => exact ⟨hpush, hf⟩
  cases e with
  | get_mesh caller it wait => exact key caller it wait
  | generate_mesh it => exact key 0 it false
  | clear_cache => exact ⟨hq, hf⟩
  | dispatch fp =>
    show item ∉ (s.dispatch fp).work_queue_ ∧ fingerprint item ∉ (s.dispatch fp).in_flight
    unfold MeshManager.dispatch
    cases hfind : s.work_queue_.find? (fun it => decide (fingerprint it = fp)) with
    | none => exact ⟨hq, hf⟩
    | some it =>
      simp only
      split
      · have hmem : it ∈ s.work_queue_ := List.mem_of_find?_eq_some hfind
        have hfp : fingerprint it = fp := by
          have := List.find?_some hfind
          simpa using this
        have hne : it ≠ item := fun e => hq (e ▸ hmem)
        refine ⟨fun hm => hq (List.mem_of_mem_erase hm), ?_⟩
        intro hm
        simp only [List.mem_append, List.mem_singleton] at hm
        rcases hm with hm | hm
        · exact hf hm
        · exact hne (fingerprint_injective it item (hfp.trans hm.symm))
      · exact ⟨hq, hf⟩
  | thread_complete pinned it mesh =>
    show item ∉ (s.handle_thread_complete pinned it mesh).work_queue_ ∧
      fingerprint item ∉ (s.handle_thread_complete pinned it mesh).in_flight
    unfold MeshManager.handle_thread_complete
    by_cases hin : s.in_flight.contains (fingerprint it) = true
    · simp only [hin, if_true]
      have hf2 : fingerprint item ∉ s.in_flight.erase (fingerprint it) :=
        fun hm => hf (List.mem_of_mem_erase hm)
      cases hfail : mesh.failed with
      | true =>
        simp only [if_true, MeshManager.check_error_status, hfail, Bool.true_and]
        split <;> exact ⟨hq, hf2⟩
      | false =>
        simp only [Bool.false_eq_true, if_false]
        exact ⟨hq, hf2⟩
    · simp only [hin, if_false]
      exact ⟨hq, hf⟩

theorem idle_run (item : MeshWorkItem) (events : List Event) (s : MeshManager)
    (hwf : item.well_formed = false)
    (h : item ∉ s.work_queue_ ∧ fingerprint item ∉ s.in_flight) :
    fingerprint item ∉ (s.run events).in_flight := by
  induction events generalizing s with
  | nil => exact h.2
  | cons e rest ih => exact ih (s.step e) (idle_step item s e hwf h)

theorem absent_tracked (s : MeshManager) (item : MeshWorkItem) (h : s.absent item) :
    s.Tracked item := by
  obtain ⟨hc, hq, hf, _⟩ := h
  exact ⟨hc, by omega⟩

theorem in_flight_well_formed (s : MeshManager) (item : MeshWorkItem) (events : List Event)
    (habsent : s.absent item) (hflight : fingerprint item ∈ (s.run events).in_flight) :
    item.well_formed = true := by
  cases hwf : item.well_formed with
  | true => rfl
  | false =>
    obtain ⟨_, hq, hf, _⟩ := habsent
    exact absurd hflight
      (idle_run item events s hwf ⟨List.count_eq_zero.mp hq, List.count_eq_zero.mp hf⟩)

/-! ## The completion of a tracked build -/

theorem released_returns (waiters : List (CallerId × Fingerprint)) (fp : Fingerprint)
    (mesh : StudioMesh) :
    ((waiters.filter (fun w => decide (w.2 = fp))).map
        (fun w => ((w.1, fp, some mesh) : CallerId × Fingerprint × MeshHandle))).filter
      (fun r => decide (r.2.1 = fp))
    = ((waiters.filter (fun w => decide (w.2 = fp))).map (fun w => w.1)).map
        (fun c => (c, fp, some mesh)) := by
  rw [List.filter_eq_self.mpr]
  · simp [List.map_map]
  · intro r hr
    simp only [List.mem_map] at hr
    obtain ⟨w, _, rfl⟩ := hr
    simp

theorem remaining_waiters (waiters : List (CallerId × Fingerprint)) (fp : Fingerprint) :
    (waiters.filter (fun w => decide (w.2 ≠ fp))).filter (fun w => decide (w.2 = fp)) = [] := by
  rw [List.filter_filter, List.filter_eq_nil_iff]
  intro w _
  by_cases h : w.2 = fp <;> simp [h]

theorem complete_tracked (s : MeshManager) (pinned : List Fingerprint) (item : MeshWorkItem)
    (mesh : StudioMesh) (h : s.Tracked item) (hflight : fingerprint item ∈ s.in_flight) :
    (s.handle_thread_complete pinned item mesh).calls_for (fingerprint item)
      = s.calls_for (fingerprint item) ∧
    (s.handle_thread_complete pinned item mesh).returns_for (fingerprint item)
      = s.returns_for (fingerprint item) ++
          (s.waiters_for (fingerprint item)).map (fun c => (c, fingerprint item, some mesh)) ∧
    (s.handle_thread_complete pinned item mesh).waiters_for (fingerprint item) = [] ∧
    (s.handle_thread_complete pinned item mesh).work_queue_.count item = 0 ∧
    (s.handle_thread_complete pinned item mesh).in_flight.count (fingerprint item) = 0 ∧
    (s.handle_thread_complete pinned item mesh).mesh_cache_.get (fingerprint item)
      = (if mesh.failed then none else some mesh) ∧
    (mesh.failed = false →
      (s.handle_thread_complete pinned item mesh).notifications
        = s.notifications ++ [Notification.new_mesh]) := by
  obtain ⟨hc, hcount⟩ := h
  have hpos : 0 < s.in_flight.count (fingerprint item) := List.count_pos_iff.mpr hflight
  have hf1 : s.in_flight.count (fingerprint item) = 1 := by omega
  have hq0 : s.work_queue_.count item = 0 := by omega
  have hin : s.in_flight.contains (fingerprint item) = true := by simpa using hflight
  have herase : (s.in_flight.erase (fingerprint item)).count (fingerprint item) = 0 := by
    rw [List.count_erase_self, hf1]
  unfold MeshManager.handle_thread_complete
  simp only [hin, if_true]
  cases hfail : mesh.failed with
  | true =>
    simp only [if_true, MeshManager.check_error_status, hfail, Bool.true_and]
    split
    · refine ⟨rfl, ?_, ?_, hq0, herase, hc, fun h => absurd h (by simp)⟩
      · simp only [MeshManager.returns_for, MeshManager.waiters_for, List.filter_append]
        rw [released_returns]
      · simp only [MeshManager.waiters_for]
        rw [remaining_waiters]
        rfl
    · refine ⟨rfl, ?_, ?_, hq0, herase, hc, fun h => absurd h (by simp)⟩
      · simp only [MeshManager.returns_for, MeshManager.waiters_for, List.filter_append]
        rw [released_returns]
      · simp only [MeshManager.waiters_for]
        rw [remaining_waiters]
        rfl
  | false =>
    simp only [Bool.false_eq_true, if_false]
    refine ⟨rfl, ?_, ?_, hq0, herase, ?_, fun _ => trivial⟩
    · simp only [MeshManager.returns_for, MeshManager.waiters_for, List.filter_append]
      rw [released_returns]
    · simp only [MeshManager.waiters_for]
      rw [remaining_waiters]
      rfl
    · exact put_get_self _ _ _ _

theorem build_in_flight (s : MeshManager) (item : MeshWorkItem) (events : List Event)
    (habsent : s.absent item)
    (hno : ∀ e ∈ events, e.completes (fingerprint item) = false)
    (hflight : fingerprint item ∈ (s.run events).in_flight) :
    (s.run events).Tracked item ∧
    (s.run events).calls_for (fingerprint item) = s.calls_for (fingerprint item) ++ [item] ∧
    (s.run events).returns_for (fingerprint item)
      = s.returns_for (fingerprint item) ++ placeholder_returns (fingerprint item) events ∧
    (s.run events).waiters_for (fingerprint item) = waiting_callers (fingerprint item) events := by
  have hwf := in_flight_well_formed s item events habsent hflight
  obtain ⟨ht, _, hc, hr, hw⟩ := Progress_run item events s hwf (absent_tracked s item habsent) hno
  have hpos : 0 < (s.run events).in_flight.count (fingerprint item) :=
    List.count_pos_iff.mpr hflight
  have h1 : (s.run events).in_flight.count (fingerprint item) = 1 := by
    have := ht.2
    omega
  obtain ⟨_, _, hf0, hw0⟩ := habsent
  refine ⟨ht, ?_, hr, ?_⟩
  · rw [hc, h1, hf0]
    rfl
  · rw [hw, hw0]
    rfl

/-! ## C3: a failed build is not cached -/

/-- C3. Take an item that is absent and a first attempt: any interleaving of
steps without a completion for the item, at the end of which a worker is on it,
and let that build fail.  Then the cache has no entry for the fingerprint and
the item is absent again.  If after any further interleaving (again without a
completion for the item) a worker is on the item once more, the provider has
been invoked for it a second time, and when that build succeeds the cache holds
the mesh under the fingerprint. -/
theorem failed_build_is_not_cached (s : MeshManager) (item : MeshWorkItem)
    (failed_mesh good_mesh : StudioMesh) (pinned1 pinned2 : List Fingerprint)
    (first retry : List Event)
    (habsent : s.absent item)
    (hno1 : ∀ e ∈ first, e.completes (fingerprint item) = false)
    (hflight1 : fingerprint item ∈ (s.run first).in_flight)
    (hfail : failed_mesh.failed = true)
    (hno2 : ∀ e ∈ retry, e.completes (fingerprint item) = false)
    (hflight2 : fingerprint item ∈
      (((s.run first).handle_thread_complete pinned1 item failed_mesh).run retry).in_flight)
    (hgood : good_mesh.failed = false) :
    ((s.run first).handle_thread_complete pinned1 item failed_mesh).mesh_cache_.get
        (fingerprint item) = none ∧
    ((s.run first).handle_thread_complete pinned1 item failed_mesh).absent item ∧
    ((s.run first).handle_thread_complete pinned1 item failed_mesh).calls_for (fingerprint item)
      = s.calls_for (fingerprint item) ++ [item] ∧
    (((s.run first).handle_thread_complete pinned1 item failed_mesh).run retry).calls_for
        (fingerprint item) = s.calls_for (fingerprint item) ++ [item, item] ∧
    ((((s.run first).handle_thread_complete pinned1 item failed_mesh).run retry
      ).handle_thread_complete pinned2 item good_mesh).mesh_cache_.get (fingerprint item)
      = some good_mesh := by
  obtain ⟨ht, hc, _, _⟩ := build_in_flight s item first habsent hno1 hflight1
  obtain ⟨c1, _, c3, c4, c5, c6, _⟩ :=
    complete_tracked (s.run first) pinned1 item failed_mesh ht hflight1
  have hnone : ((s.run first).handle_thread_complete pinned1 item failed_mesh).mesh_cache_.get
      (fingerprint item) = none := by
    rw [c6, hfail]
    rfl
  have habs2 : ((s.run first).handle_thread_complete pinned1 item failed_mesh).absent item :=
    ⟨hnone, c4, c5, c3⟩
  obtain ⟨ht2, hc2, _, _⟩ := build_in_flight _ item retry habs2 hno2 hflight2
  obtain ⟨_, _, _, _, _, d6, _⟩ := complete_tracked _ pinned2 item good_mesh ht2 hflight2
  refine ⟨hnone, habs2, ?_, ?_, ?_⟩
  · rw [c1, hc]
  · rw [hc2, c1, hc]
    simp
  · rw [d6, hgood]
    rfl

theorem failed_build_is_not_cached_witness :
    (MeshManager.init 4 2).absent sample_item ∧
    (((MeshManager.init 4 2).run
        [Event.get_mesh 1 sample_item true, Event.dispatch (fingerprint sample_item)]
      ).handle_thread_complete [] sample_item sample_failed_mesh).mesh_cache_.get
        (fingerprint sample_item) = none ∧
    (((((MeshManager.init 4 2).run
        [Event.get_mesh 1 sample_item true, Event.dispatch (fingerprint sample_item)]
      ).handle_thread_complete [] sample_item sample_failed_mesh).run
        [Event.get_mesh 2 sample_item false, Event.dispatch (fingerprint sample_item)]
      ).handle_thread_complete [] sample_item sample_mesh).mesh_cache_.get
        (fingerprint sample_item) = some sample_mesh :=
  have habs : (MeshManager.init 4 2).absent sample_item :=
    ⟨by decide, by decide, by decide, by decide⟩
  have h := failed_build_is_not_cached (MeshManager.init 4 2) sample_item sample_failed_mesh
    sample_mesh [] []
    [Event.get_mesh 1 sample_item true, Event.dispatch (fingerprint sample_item)]
    [Event.get_mesh 2 sample_item false, Event.dispatch (fingerprint sample_item)]
    habs (by decide) (by decide) (by decide) (by decide) (by decide) (by decide)
  ⟨habs, h.1, h.2.2.2.2⟩

/-! ## C4: clear_cache -/

/-- C4. In every state of the manager, idle or busy, `clear_cache()` empties the
mesh cache and changes nothing else: the capacity, the work queue, the
in-flight set, the waiters, the pool size, the error flag and the logs are the
same after the call as before it.  Hence a build that is in flight during the
clear and then succeeds still commits its mesh, which becomes the only entry of
the emptied cache. -/
theorem clear_cache_only_empties_the_cache (s : MeshManager) :
    s.clear_cache.mesh_cache_.entries = [] ∧
    s.clear_cache.mesh_cache_.max_entries = s.mesh_cache_.max_entries ∧
    s.clear_cache.work_queue_ = s.work_queue_ ∧
    s.clear_cache.in_flight = s.in_flight ∧
    s.clear_cache.waiters = s.waiters ∧
    s.clear_cache.max_threads = s.max_threads ∧
    s.clear_cache.error_emitted_ = s.error_emitted_ ∧
    s.clear_cache.provider_calls = s.provider_calls ∧
    s.clear_cache.notifications = s.notifications ∧
    s.clear_cache.returns = s.returns ∧
    (∀ (pinned : List Fingerprint) (item : MeshWorkItem) (mesh : StudioMesh),
      fingerprint item ∈ s.in_flight → mesh.failed = false →
      (s.clear_cache.handle_thread_complete pinned item mesh).mesh_cache_.entries
        = [(fingerprint item, mesh)]) := by
  refine ⟨rfl, rfl, rfl, rfl, rfl, rfl, rfl, rfl, rfl, rfl, ?_⟩
  intro pinned item mesh hflight hgood
  have hin : s.clear_cache.in_flight.contains (fingerprint item) = true := by
    simpa [MeshManager.clear_cache] using hflight
  unfold MeshManager.handle_thread_complete
  simp only [hin, if_true, hgood, Bool.false_eq_true, if_false]
  simp only [MeshManager.clear_cache, MeshCache.clear, MeshCache.put, cache_lookup]
  split <;> simp [evict_lru]

theorem clear_cache_only_empties_the_cache_witness :
    ((MeshManager.init 4 2).run
        [Event.get_mesh 1 other_item true, Event.dispatch (fingerprint other_item),
         Event.thread_complete [] other_item sample_mesh]).in_flight = [] ∧
    ((MeshManager.init 4 2).run
        [Event.get_mesh 1 other_item true, Event.dispatch (fingerprint other_item),
         Event.thread_complete [] other_item sample_mesh]
      ).mesh_cache_.entries = [(fingerprint other_item, sample_mesh)] ∧
    (((MeshManager.init 4 2).run
        [Event.get_mesh 1 other_item true, Event.dispatch (fingerprint other_item),
         Event.thread_complete [] other_item sample_mesh]
      ).clear_cache).mesh_cache_.entries = [] ∧
    fingerprint sample_item ∈
      ((MeshManager.init 4 2).run
        [Event.get_mesh 1 other_item true, Event.dispatch (fingerprint other_item),
         Event.thread_complete [] other_item sample_mesh,
         Event.get_mesh 2 sample_item true, Event.dispatch (fingerprint sample_item)]).in_flight ∧
    ((((MeshManager.init 4 2).run
        [Event.get_mesh 1 other_item true, Event.dispatch (fingerprint other_item),
         Event.thread_complete [] other_item sample_mesh,
         Event.get_mesh 2 sample_item true, Event.dispatch (fingerprint sample_item)]
      ).clear_cache).handle_thread_complete [] sample_item sample_mesh).mesh_cache_.entries
      = [(fingerprint sample_item, sample_mesh)] :=
  ⟨by decide, by decide,
   (clear_cache_only_empties_the_cache
      ((MeshManager.init 4 2).run
        [Event.get_mesh 1 other_item true, Event.dispatch (fingerprint other_item),
         Event.thread_complete [] other_item sample_mesh])).1,
   by decide,
   (clear_cache_only_empties_the_cache
      ((MeshManager.init 4 2).run
        [Event.get_mesh 1 other_item true, Event.dispatch (fingerprint other_item),
         Event.thread_complete [] other_item sample_mesh,
         Event.get_mesh 2 sample_item true, Event.dispatch (fingerprint sample_item)])
      ).2.2.2.2.2.2.2.2.2.2 [] sample_item sample_mesh (by decide) (by decide)⟩

/-! ## C5: the error notification of a failed build -/

theorem push_merged (queue : MeshWorkQueue) (in_flight : List Fingerprint) (item : MeshWorkItem)
    (h : MeshWorkQueue.is_inside queue (fingerprint item) = true ∨ fingerprint item ∈ in_flight) :
    MeshWorkQueue.push queue in_flight item = (queue, true) := by
  unfold MeshWorkQueue.push
  have : (MeshWorkQueue.is_inside queue (fingerprint item)
      || in_flight.contains (fingerprint item)) = true := by
    rcases h with h | h
    · simp [h]
    · simp [h]
  simp only [this, if_true]

theorem push_distinct (queue : MeshWorkQueue) (in_flight : List Fingerprint) (item : MeshWorkItem)
    (h : (queue.map fingerprint).Nodup) :
    ((MeshWorkQueue.push queue in_flight item).1.map fingerprint).Nodup := by
  unfold MeshWorkQueue.push
  split
  · exact h
  · rename_i hcond
    simp only [Bool.or_eq_true, not_or, Bool.not_eq_true] at hcond
    have hq : item ∉ queue := by
      intro hmem
      have := (is_inside_iff_mem queue item).mpr hmem
      rw [this] at hcond
      exact absurd hcond.1 (by decide)
    have hfp : fingerprint item ∉ queue.map fingerprint := by
      intro hmem
      rw [List.mem_map] at hmem
      obtain ⟨it, hit, e⟩ := hmem
      exact hq (fingerprint_injective it item e ▸ hit)
    simp only [List.map_append, List.map_cons, List.map_nil]
    rw [List.nodup_append]
    refine ⟨h, List.nodup_singleton _, ?_⟩
    intro x hx hx2
    rw [List.mem_singleton] at hx2
    exact hfp (hx2 ▸ hx)

theorem QueueDistinct_get_mesh (s : MeshManager) (caller : CallerId) (item : MeshWorkItem)
    (wait : Bool) (h : s.QueueDistinct) : (s.get_mesh caller item wait).QueueDistinct := by
  unfold MeshManager.QueueDistinct at h ⊢
  unfold MeshManager.get_mesh
  cases hw : item.well_formed with
  | false => simpa using h
  | true =>
    simp only [Bool.not_true, Bool.false_eq_true, if_false]
    cases hg : s.mesh_cache_.get (fingerprint item) with
    | some m => exact h
    | none =>
      cases wait with
      | true => exact push_distinct _ _ _ h
      | false => exact push_distinct _ _ _ h

theorem QueueDistinct_step (s : MeshManager) (e : Event) (h : s.QueueDistinct) :
    (s.step e).QueueDistinct := by
  cases e with
  | get_mesh caller item wait => exact QueueDistinct_get_mesh s caller item wait h
  | generate_mesh item => exact QueueDistinct_get_mesh s 0 item false h
  | clear_cache => exact h
  | dispatch fp =>
    show (s.dispatch fp).QueueDistinct
    unfold MeshManager.dispatch
    cases hfind : s.work_queue_.find? (fun it => decide (fingerprint it = fp)) with
    | none => exact h
    | some it =>
      simp only
      split
      · unfold MeshManager.QueueDistinct at h ⊢
        exact List.Nodup.sublist (List.Sublist.map fingerprint (List.erase_sublist it s.work_queue_)) h
      · exact h
  | thread_complete pinned it mesh =>
    show (s.handle_thread_complete pinned it mesh).QueueDistinct
    unfold MeshManager.handle_thread_complete
    by_cases hin : s.in_flight.contains (fingerprint it) = true
    · simp only [hin, if_true]
      cases hfail : mesh.failed with
      | true =>
        simp only [if_true, MeshManager.check_error_status, hfail, Bool.true_and]
        split <;> exact h
      | false =>
        simp only [Bool.false_eq_true, if_false]
        exact h
    · simp only [hin, if_false]
      exact h

theorem QueueDistinct_run (events : List Event) (s : MeshManager) (h : s.QueueDistinct) :
    (s.run events).QueueDistinct := by
  induction events generalizing s with
  | nil => exact h
  | cons e rest ih => exact ih (s.step e) (QueueDistinct_step s e h)

/-- C6. In every state the manager reaches from its construction, by any
sequence of `get_mesh`, `generate_mesh`, `clear_cache`, dispatch and completion
steps, no fingerprint occurs twice in the work queue; and in such a state a push
of an item whose fingerprint is already queued or in flight reports "merged"
and leaves the queue unchanged, whether it comes from `get_mesh` or from
`generate_mesh`. -/
theorem work_queue_has_no_duplicate_fingerprint (max_entries max_threads : Nat)
    (events : List Event) (caller : CallerId) (item : MeshWorkItem) (wait : Bool) :
    (((MeshManager.init max_entries max_threads).run events).work_queue_.map fingerprint).Nodup ∧
    ((MeshWorkQueue.is_inside ((MeshManager.init max_entries max_threads).run events).work_queue_
          (fingerprint item) = true ∨
        fingerprint item ∈ ((MeshManager.init max_entries max_threads).run events).in_flight) →
      MeshWorkQueue.push ((MeshManager.init max_entries max_threads).run events).work_queue_
          ((MeshManager.init max_entries max_threads).run events).in_flight item
        = (((MeshManager.init max_entries max_threads).run events).work_queue_, true) ∧
      (((MeshManager.init max_entries max_threads).run events).get_mesh caller item wait).work_queue_
        = ((MeshManager.init max_entries max_threads).run events).work_queue_ ∧
      (((MeshManager.init max_entries max_threads).run events).generate_mesh item).work_queue_
        = ((MeshManager.init max_entries max_threads).run events).work_queue_) := by
  refine ⟨QueueDistinct_run events _ (by simp [MeshManager.QueueDistinct, MeshManager.init]), ?_⟩
  intro h
  have hp := push_merged _ _ item h
  have key : ∀ (c : CallerId) (w : Bool),
      (((MeshManager.init max_entries max_threads).run events).get_mesh c item w).work_queue_
        = ((MeshManager.init max_entries max_threads).run events).work_queue_ := by
    intro c w
    unfold MeshManager.get_mesh
    cases hw : item.well_formed with
    | false => simp
    | true =>
      simp only [Bool.not_true, Bool.false_eq_true, if_false]
      cases hg : ((MeshManager.init max_entries max_threads).run events).mesh_cache_.get
          (fingerprint item) with
      | some m => rfl
      | none =>
        cases w with
        | true => simp only [if_true, hp]
        | false => simp only [Bool.false_eq_true, if_false, hp]
  exact ⟨hp, key caller wait, key 0 false⟩

theorem work_queue_has_no_duplicate_fingerprint_witness :
    MeshWorkQueue.is_inside
        ((MeshManager.init 4 2).run
          [Event.get_mesh 1 sample_item true, Event.generate_mesh other_item]).work_queue_
        (fingerprint sample_item) = true ∧
    (((MeshManager.init 4 2).run
        [Event.get_mesh 1 sample_item true, Event.generate_mesh other_item]
      ).get_mesh 2 sample_item true).work_queue_ = [sample_item, other_item] :=
  ⟨by decide,
   ((work_queue_has_no_duplicate_fingerprint 4 2
      [Event.get_mesh 1 sample_item true, Event.generate_mesh other_item] 2 sample_item true).2
      (Or.inl (by decide))).2.1.trans (by decide)⟩

/-! ## The bookkeeping of cached, queued and in-flight fingerprints -/

theorem get_mesh_fields (s : MeshManager) (caller : CallerId) (item : MeshWorkItem)
    (wait : Bool) :
    (s.get_mesh caller item wait).in_flight = s.in_flight ∧
    (s.get_mesh caller item wait).provider_calls = s.provider_calls ∧
    ((s.get_mesh caller item wait).mesh_cache_ = s.mesh_cache_ ∨
      (s.get_mesh caller item wait).mesh_cache_ = s.mesh_cache_.touch (fingerprint item)) ∧
    ((s.get_mesh caller item wait).work_queue_ = s.work_queue_ ∨
      ((s.get_mesh caller item wait).work_queue_ = s.work_queue_ ++ [item] ∧
        s.mesh_cache_.get (fingerprint item) = none ∧
        fingerprint item ∉ s.in_flight)) ∧
    ((s.get_mesh caller item wait).returns = s.returns ∨
      ∃ h, (s.get_mesh caller item wait).returns = s.returns ++ [(caller, fingerprint item, h)]) := by
  cases hw : item.well_formed with
  | false =>
    have hgm : s.get_mesh caller item wait
        = { s with returns := s.returns ++ [(caller, fingerprint item, some input_error_mesh)] } := by
      unfold MeshManager.get_mesh
      simp only [hw, Bool.not_false, if_true]
    rw [hgm]
    exact ⟨rfl, rfl, Or.inl rfl, Or.inl rfl, Or.inr ⟨_, rfl⟩⟩
  | true =>
    cases hg : s.mesh_cache_.get (fingerprint item) with
    | some m =>
      rw [get_mesh_hit s caller item wait m hw hg]
      exact ⟨rfl, rfl, Or.inr rfl, Or.inl rfl, Or.inr ⟨_, rfl⟩⟩
    | none =>
      have hpush : (MeshWorkQueue.push s.work_queue_ s.in_flight item).1 = s.work_queue_ ∨
          ((MeshWorkQueue.push s.work_queue_ s.in_flight item).1 = s.work_queue_ ++ [item] ∧
            fingerprint item ∉ s.in_flight) := by
        unfold MeshWorkQueue.push
        split
        · exact Or.inl rfl
        · rename_i hcond
          simp only [Bool.or_eq_true, not_or, Bool.not_eq_true] at hcond
          refine Or.inr ⟨rfl, ?_⟩
          have := hcond.2
          simpa using this
      cases wait with
      | true =>
        have hgm : s.get_mesh caller item true
            = { s with
                work_queue_ := (MeshWorkQueue.push s.work_queue_ s.in_flight item).1
                waiters := s.waiters ++ [(caller, fingerprint item)] } := by
          unfold MeshManager.get_mesh
          simp only [hw, Bool.not_true, Bool.false_eq_true, if_false, hg, if_true]
        rw [hgm]
        refine ⟨rfl, rfl, Or.inl rfl, ?_, Or.inl rfl⟩
        rcases hpush with h | h
        · exact Or.inl h
        · exact Or.inr ⟨h.1, rfl, h.2⟩
      | false =>
        have hgm : s.get_mesh caller item false
            = { s with
                work_queue_ := (MeshWorkQueue.push s.work_queue_ s.in_flight item).1
                returns := s.returns ++ [(caller, fingerprint item, none)] } := by
          unfold MeshManager.get_mesh
          simp only [hw, Bool.not_true, Bool.false_eq_true, if_false, hg]
        rw [hgm]
        refine ⟨rfl, rfl, Or.inl rfl, ?_, Or.inr ⟨_, rfl⟩⟩
        rcases hpush with h | h
        · exact Or.inl h
        · exact Or.inr ⟨h.1, rfl, h.2⟩

theorem dispatch_fields (s : MeshManager) (fp : Fingerprint) :
    s.dispatch fp = s ∨
    ∃ item, item ∈ s.work_queue_ ∧ fingerprint item = fp ∧
      s.in_flight.length < s.max_threads ∧
      s.dispatch fp =
        { s with
          work_queue_ := s.work_queue_.erase item
          in_flight := s.in_flight ++ [fp]
          provider_calls := s.provider_calls ++ [item] } := by
  unfold MeshManager.dispatch
  cases hfind : s.work_queue_.find? (fun it => decide (fingerprint it = fp)) with
  | none => exact Or.inl rfl
  | some item =>
    simp only
    split
    · rename_i hfree
      have hmem : item ∈ s.work_queue_ := List.mem_of_find?_eq_some hfind
      have hfp : fingerprint item = fp := by
        have := List.find?_some hfind
        simpa using this
      exact Or.inr ⟨item, hmem, hfp, hfree, rfl⟩
    · exact Or.inl rfl

theorem handle_thread_complete_fields (s : MeshManager) (pinned : List Fingerprint)
    (item : MeshWorkItem) (mesh : StudioMesh) :
    s.handle_thread_complete pinned item mesh = s ∨
    (fingerprint item ∈ s.in_flight ∧
      (s.handle_thread_complete pinned item mesh).work_queue_ = s.work_queue_ ∧
      (s.handle_thread_complete pinned item mesh).in_flight
        = s.in_flight.erase (fingerprint item) ∧
      (s.handle_thread_complete pinned item mesh).provider_calls = s.provider_calls ∧
      (s.handle_thread_complete pinned item mesh).returns
        = s.returns ++ (s.waiters.filter (fun w => decide (w.2 = fingerprint item))).map
            (fun w => (w.1, fingerprint item, some mesh)) ∧
      (s.handle_thread_complete pinned item mesh).mesh_cache_
        = (if mesh.failed then s.mesh_cache_
           else s.mesh_cache_.put pinned (fingerprint item) mesh)) := by
  by_cases hin : s.in_flight.contains (fingerprint item) = true
  · have hmem : fingerprint item ∈ s.in_flight := by simpa using hin
    right
    refine ⟨hmem, ?_⟩
    unfold MeshManager.handle_thread_complete
    rw [if_pos hin]
    cases hfail : mesh.failed with
    | true =>
      rw [if_pos rfl, if_pos rfl]
      unfold MeshManager.check_error_status
      split <;> exact ⟨rfl, rfl, rfl, rfl, rfl⟩
    | false =>
      rw [if_neg (by simp), if_neg (by simp)]
      exact ⟨rfl, rfl, rfl, rfl, rfl⟩
  · left
    unfold MeshManager.handle_thread_complete
    rw [if_neg hin]

theorem cache_remove_keys_nodup (key : Fingerprint) (entries : List (Fingerprint × StudioMesh))
    (h : (entries.map Prod.fst).Nodup) : ((cache_remove key entries).map Prod.fst).Nodup := by
  unfold cache_remove
  exact List.Nodup.sublist (List.Sublist.map Prod.fst (List.filter_sublist _)) h

theorem key_not_mem_cache_remove (key : Fingerprint) (entries : List (Fingerprint × StudioMesh)) :
    key ∉ (cache_remove key entries).map Prod.fst := by
  unfold cache_remove
  simp

theorem touch_keys_nodup (c : MeshCache) (key : Fingerprint)
    (h : (c.entries.map Prod.fst).Nodup) : ((c.touch key).entries.map Prod.fst).Nodup := by
  unfold MeshCache.touch
  cases hl : cache_lookup key c.entries with
  | none => exact h
  | some m =>
    simp only [List.map_cons, List.nodup_cons]
    exact ⟨key_not_mem_cache_remove key c.entries, cache_remove_keys_nodup key c.entries h⟩

theorem evict_lru_sublist (pinned : List Fingerprint) (entries : List (Fingerprint × StudioMesh)) :
    List.Sublist (evict_lru pinned entries) entries := by
  unfold evict_lru
  have h := List.eraseP_sublist (p := fun e : Fingerprint × StudioMesh => !pinned.contains e.1)
    entries.reverse
  have h2 := List.Sublist.reverse h
  rwa [List.reverse_reverse] at h2

theorem put_keys_nodup (c : MeshCache) (pinned : List Fingerprint) (key : Fingerprint)
    (mesh : StudioMesh) (h : (c.entries.map Prod.fst).Nodup) :
    ((c.put pinned key mesh).entries.map Prod.fst).Nodup := by
  unfold MeshCache.put
  cases hl : cache_lookup key c.entries with
  | some m0 =>
    simp only [List.map_cons, List.nodup_cons]
    exact ⟨key_not_mem_cache_remove key c.entries, cache_remove_keys_nodup key c.entries h⟩
  | none =>
    have hk : key ∉ c.entries.map Prod.fst := by
      rw [cache_lookup_eq_none_iff] at hl
      intro hmem
      obtain ⟨e, he, hek⟩ := List.mem_map.mp hmem
      exact hl e he hek
    simp only
    split
    · simp only [List.map_cons, List.nodup_cons]
      refine ⟨fun hmem => hk ?_, ?_⟩
      · exact (List.Sublist.map Prod.fst (evict_lru_sublist pinned c.entries)).subset hmem
      · exact List.Nodup.sublist (List.Sublist.map Prod.fst (evict_lru_sublist pinned c.entries)) h
    · simp only [List.map_cons, List.nodup_cons]
      exact ⟨hk, h⟩

theorem cache_lookup_of_mem (key : Fingerprint) (m : StudioMesh)
    (entries : List (Fingerprint × StudioMesh)) (hn : (entries.map Prod.fst).Nodup)
    (h : (key, m) ∈ entries) : cache_lookup key entries = some m := by
  induction entries with
  | nil => simp at h
  | cons e rest ih =>
    simp only [List.map_cons, List.nodup_cons] at hn
    simp only [List.mem_cons] at h
    rcases h with h | h
    · simp [cache_lookup, ← h]
    · have hne : e.1 ≠ key := by
        intro hek
        apply hn.1
        rw [hek]
        exact List.mem_map.mpr ⟨(key, m), h, rfl⟩
      simp only [cache_lookup, hne, if_false]
      exact ih hn.2 h

theorem mem_evict_lru_pinned (pinned : List Fingerprint)
    (entries : List (Fingerprint × StudioMesh)) (e : Fingerprint × StudioMesh)
    (he : e ∈ entries) (hp : e.1 ∈ pinned) : e ∈ evict_lru pinned entries := by
  unfold evict_lru
  rw [List.mem_reverse]
  have hneg : ¬ ((fun x : Fingerprint × StudioMesh => !pinned.contains x.1) e = true) := by
    simp [hp]
  have he2 : e ∈ entries.reverse := List.mem_reverse.mpr he
  exact (List.mem_eraseP_of_neg (l := entries.reverse) hneg).mpr he2

/-- What a `put` of another key does to a cached entry: it stays as it is, or
it is evicted, which takes a full cache, a new key and an unpinned entry. -/
theorem put_get_other (c : MeshCache) (pinned : List Fingerprint) (key other : Fingerprint)
    (mesh m : StudioMesh) (hne : key ≠ other) (hn : (c.entries.map Prod.fst).Nodup)
    (h : c.get other = some m) :
    (c.put pinned key mesh).get other = some m ∨
    ((c.put pinned key mesh).get other = none ∧ c.get key = none ∧
      c.max_entries ≤ c.entries.length ∧ other ∉ pinned) := by
  unfold MeshCache.get at h ⊢
  unfold MeshCache.put
  have hne2 : other ≠ key := fun e => hne e.symm
  cases hl : cache_lookup key c.entries with
  | some m0 =>
    left
    simp only [cache_lookup, hne, if_false]
    rw [cache_lookup_remove_ne key other c.entries hne2]
    exact h
  | none =>
    simp only
    split
    · rename_i hfull
      simp only [cache_lookup, hne, if_false]
      by_cases hmem : (other, m) ∈ evict_lru pinned c.entries
      · left
        exact cache_lookup_of_mem other m _
          (List.Nodup.sublist (List.Sublist.map Prod.fst (evict_lru_sublist pinned c.entries)) hn)
          hmem
      · right
        refine ⟨?_, trivial, hfull, ?_⟩
        · rw [cache_lookup_eq_none_iff]
          intro e he hek
          have he2 : e ∈ c.entries := (evict_lru_sublist pinned c.entries).subset he
          have hlk := cache_lookup_of_mem e.1 e.2 c.entries hn he2
          rw [hek, h] at hlk
          apply hmem
          have : e = (other, m) := by
            cases e
            simp_all
          rw [← this]
          exact he
        · intro hp
          exact hmem (mem_evict_lru_pinned pinned c.entries (other, m)
            (cache_lookup_mem other m c.entries h) hp)
    · left
      simp only [cache_lookup, hne, if_false]
      exact h

theorem Settled_init (max_entries max_threads : Nat) :
    (MeshManager.init max_entries max_threads).Settled := by
  simp [MeshManager.Settled, MeshManager.init]

theorem Settled_get_mesh (s : MeshManager) (caller : CallerId) (item : MeshWorkItem)
    (wait : Bool) (h : s.Settled) : (s.get_mesh caller item wait).Settled := by
  obtain ⟨hQ, hF, hQF, hK, hC⟩ := h
  obtain ⟨gf, _, gc, gq, _⟩ := get_mesh_fields s caller item wait
  have hQ2 := QueueDistinct_get_mesh s caller item wait hQ
  have hsub : ∀ e ∈ (s.get_mesh caller item wait).mesh_cache_.entries, e ∈ s.mesh_cache_.entries := by
    intro e he
    rcases gc with gc | gc
    · rw [gc] at he
      exact he
    · rw [gc] at he
      exact mem_touch _ _ e he
  have hK2 : ((s.get_mesh caller item wait).mesh_cache_.entries.map Prod.fst).Nodup := by
    rcases gc with gc | gc
    · rw [gc]
      exact hK
    · rw [gc]
      exact touch_keys_nodup _ _ hK
  refine ⟨hQ2, by rw [gf]; exact hF, ?_, hK2, ?_⟩
  · intro it hit
    rw [gf]
    rcases gq with gq | ⟨gq, _, hnf⟩
    · rw [gq] at hit
      exact hQF it hit
    · rw [gq] at hit
      simp only [List.mem_append, List.mem_singleton] at hit
      rcases hit with hit | hit
      · exact hQF it hit
      · rw [hit]
        exact hnf
  · intro e he
    have he2 := hsub e he
    refine ⟨by rw [gf]; exact (hC e he2).1, ?_⟩
    intro it hit
    rcases gq with gq | ⟨gq, hmiss, _⟩
    · rw [gq] at hit
      exact (hC e he2).2 it hit
    · rw [gq] at hit
      simp only [List.mem_append, List.mem_singleton] at hit
      rcases hit with hit | hit
      · exact (hC e he2).2 it hit
      · rw [hit]
        unfold MeshCache.get at hmiss
        rw [cache_lookup_eq_none_iff] at hmiss
        exact fun heq => hmiss e he2 heq.symm

theorem Settled_dispatch (s : MeshManager) (fp : Fingerprint) (h : s.Settled) :
    (s.dispatch fp).Settled := by
  rcases dispatch_fields s fp with hd | ⟨item, hmem, hfp, _, hd⟩
  · rw [hd]
    exact h
  · obtain ⟨hQ, hF, hQF, hK, hC⟩ := h
    rw [hd]
    have hnd : s.work_queue_.Nodup := List.Nodup.of_map _ hQ
    have hother : ∀ it ∈ s.work_queue_.erase item, fingerprint it ≠ fp := by
      intro it hit heq
      have hne := ((List.Nodup.mem_erase_iff hnd).mp hit).1
      exact hne (fingerprint_injective it item (heq.trans hfp.symm))
    have hnf : fp ∉ s.in_flight := by
      rw [← hfp]
      exact hQF item hmem
    refine ⟨?_, ?_, ?_, hK, ?_⟩
    · exact List.Nodup.sublist
        (List.Sublist.map fingerprint (List.erase_sublist item s.work_queue_)) hQ
    · show (s.in_flight ++ [fp]).Nodup
      rw [List.nodup_append]
      refine ⟨hF, List.nodup_singleton fp, ?_⟩
      intro x hx hx2
      rw [List.mem_singleton] at hx2
      exact hnf (hx2 ▸ hx)
    · intro it hit
      show fingerprint it ∉ s.in_flight ++ [fp]
      simp only [List.mem_append, List.mem_singleton, not_or]
      exact ⟨hQF it (List.mem_of_mem_erase hit), hother it hit⟩
    · intro e he
      refine ⟨?_, fun it hit => (hC e he).2 it (List.mem_of_mem_erase hit)⟩
      show e.1 ∉ s.in_flight ++ [fp]
      simp only [List.mem_append, List.mem_singleton, not_or]
      refine ⟨(hC e he).1, ?_⟩
      intro heq
      exact (hC e he).2 item hmem (hfp.trans heq.symm)

theorem Settled_handle_thread_complete (s : MeshManager) (pinned : List Fingerprint)
    (item : MeshWorkItem) (mesh : StudioMesh) (h : s.Settled) :
    (s.handle_thread_complete pinned item mesh).Settled := by
  rcases handle_thread_complete_fields s pinned item mesh with hd | ⟨hmem, hq, hf, _, _, hc⟩
  · rw [hd]
    exact h
  · obtain ⟨hQ, hF, hQF, hK, hC⟩ := h
    unfold MeshManager.Settled
    rw [hq, hf, hc]
    have hF2 : (s.in_flight.erase (fingerprint item)).Nodup := List.Nodup.erase _ hF
    have hQF2 : ∀ it ∈ s.work_queue_, fingerprint it ∉ s.in_flight.erase (fingerprint item) :=
      fun it hit hx => hQF it hit (List.mem_of_mem_erase hx)
    have hC2 : ∀ e ∈ s.mesh_cache_.entries,
        e.1 ∉ s.in_flight.erase (fingerprint item) ∧ ∀ it ∈ s.work_queue_, fingerprint it ≠ e.1 :=
      fun e he => ⟨fun hx => (hC e he).1 (List.mem_of_mem_erase hx), (hC e he).2⟩
    cases hfail : mesh.failed with
    | true =>
      simp only [if_true]
      exact ⟨hQ, hF2, hQF2, hK, hC2⟩
    | false =>
      simp only [Bool.false_eq_true, if_false]
      refine ⟨hQ, hF2, hQF2, put_keys_nodup _ _ _ _ hK, ?_⟩
      intro e he
      rcases mem_put _ _ _ _ e he with h1 | h1
      · rw [h1]
        refine ⟨?_, ?_⟩
        · intro hx
          exact ((List.Nodup.mem_erase_iff hF).mp hx).1 rfl
        · intro it hit heq
          exact hQF it hit (heq ▸ hmem)
      · exact hC2 e h1

theorem Settled_step (s : MeshManager) (e : Event) (h : s.Settled) : (s.step e).Settled := by
  cases e with
  | get_mesh caller item wait => exact Settled_get_mesh s caller item wait h
  | generate_mesh item => exact Settled_get_mesh s 0 item false h
  | clear_cache =>
    obtain ⟨hQ, hF, hQF, _, _⟩ := h
    refine ⟨hQ, hF, hQF, ?_, ?_⟩
    · simp [MeshManager.step, MeshManager.clear_cache, MeshCache.clear]
    · simp [MeshManager.step, MeshManager.clear_cache, MeshCache.clear]
  | dispatch fp => exact Settled_dispatch s fp h
  | thread_complete pinned item mesh => exact Settled_handle_thread_complete s pinned item mesh h

theorem Settled_run (events : List Event) (s : MeshManager) (h : s.Settled) :
    (s.run events).Settled := by
  induction events generalizing s with
  | nil => exact h
  | cons e rest ih => exact ih (s.step e) (Settled_step s e h)

/-! ## C1: the cache hit path -/

theorem returns_for_append_other (returns extra : List (CallerId × Fingerprint × MeshHandle))
    (fp : Fingerprint) (h : ∀ r ∈ extra, r.2.1 ≠ fp) :
    (returns ++ extra).filter (fun r => decide (r.2.1 = fp))
      = returns.filter (fun r => decide (r.2.1 = fp)) := by
  rw [List.filter_append]
  have : extra.filter (fun r => decide (r.2.1 = fp)) = [] := by
    rw [List.filter_eq_nil_iff]
    intro r hr
    simpa using h r hr
  rw [this, List.append_nil]

theorem cached_get_mesh (s : MeshManager) (caller : CallerId) (item : MeshWorkItem) (wait : Bool)
    (fp : Fingerprint) (m : StudioMesh) (hK : s.KeysChecked)
    (hc : s.mesh_cache_.get fp = some m) :
    (s.get_mesh caller item wait).provider_calls = s.provider_calls ∧
    (s.get_mesh caller item wait).returns_for fp
      = s.returns_for fp ++
          ((Event.get_mesh caller item wait).request_for fp).map (fun c => (c, fp, some m)) ∧
    (s.get_mesh caller item wait).mesh_cache_.get fp = some m := by
  by_cases hfp : fingerprint item = fp
  · subst hfp
    have hw : item.well_formed = true := by
      rw [← fingerprint_well_formed]
      exact hK.2.2 _ (cache_lookup_mem _ m _ hc)
    rw [get_mesh_hit s caller item wait m hw hc]
    refine ⟨rfl, ?_, ?_⟩
    · simp [MeshManager.returns_for, List.filter_append, Event.request_for]
    · show (s.mesh_cache_.touch (fingerprint item)).get (fingerprint item) = some m
      rw [touch_get]
      exact hc
  · obtain ⟨_, gp, gc, _, gr⟩ := get_mesh_fields s caller item wait
    refine ⟨gp, ?_, ?_⟩
    · have hreq : (Event.get_mesh caller item wait).request_for fp = [] := by
        simp [Event.request_for, hfp]
      rw [hreq, List.map_nil, List.append_nil]
      unfold MeshManager.returns_for
      rcases gr with gr | ⟨h, gr⟩
      · rw [gr]
      · rw [gr]
        apply returns_for_append_other
        intro r hr
        rw [List.mem_singleton] at hr
        rw [hr]
        exact hfp
    · rcases gc with gc | gc
      · rw [gc]
        exact hc
      · rw [gc, touch_get]
        exact hc

theorem cached_step (s : MeshManager) (e : Event) (fp : Fingerprint) (m : StudioMesh)
    (hS : s.Settled) (hK : s.KeysChecked) (hc : s.mesh_cache_.get fp = some m) :
    (s.step e).calls_for fp = s.calls_for fp ∧
    (s.step e).returns_for fp
      = s.returns_for fp ++ (e.request_for fp).map (fun c => (c, fp, some m)) ∧
    ((s.step e).mesh_cache_.get fp = some m ∨
      ((s.step e).mesh_cache_.get fp = none ∧ s.drops fp e = true)) := by
  have hmem : (fp, m) ∈ s.mesh_cache_.entries := cache_lookup_mem fp m _ hc
  obtain ⟨_, _, _, hKeys, hC⟩ := hS
  cases e with
  | get_mesh caller item wait =>
    obtain ⟨h1, h2, h3⟩ := cached_get_mesh s caller item wait fp m hK hc
    refine ⟨?_, h2, Or.inl h3⟩
    show (s.get_mesh caller item wait).calls_for fp = s.calls_for fp
    unfold MeshManager.calls_for
    rw [h1]
  | generate_mesh item =>
    obtain ⟨h1, _, h3⟩ := cached_get_mesh s 0 item false fp m hK hc
    refine ⟨?_, ?_, Or.inl h3⟩
    · show (s.generate_mesh item).calls_for fp = s.calls_for fp
      unfold MeshManager.calls_for
      exact congrArg _ h1
    · show (s.generate_mesh item).returns_for fp = s.returns_for fp ++ _
      simp [Event.request_for, MeshManager.returns_for, MeshManager.generate_mesh]
  | clear_cache =>
    refine ⟨rfl, ?_, Or.inr ⟨rfl, rfl⟩⟩
    show s.returns_for fp = s.returns_for fp ++ _
    simp [Event.request_for]
  | dispatch fp2 =>
    show (s.dispatch fp2).calls_for fp = s.calls_for fp ∧
      (s.dispatch fp2).returns_for fp = s.returns_for fp ++ _ ∧
      ((s.dispatch fp2).mesh_cache_.get fp = some m ∨
        ((s.dispatch fp2).mesh_cache_.get fp = none ∧ _))
    rcases dispatch_fields s fp2 with hd | ⟨item, hitem, hfp2, _, hd⟩
    · rw [hd]
      exact ⟨rfl, by simp [Event.request_for], Or.inl hc⟩
    · rw [hd]
      refine ⟨?_, by simp [Event.request_for, MeshManager.returns_for], Or.inl hc⟩
      have hne : fingerprint item ≠ fp := (hC (fp, m) hmem).2 item hitem
      simp [MeshManager.calls_for, List.filter_append, hne]
  | thread_complete pinned item mesh =>
    show (s.handle_thread_complete pinned item mesh).calls_for fp = s.calls_for fp ∧
      (s.handle_thread_complete pinned item mesh).returns_for fp = s.returns_for fp ++ _ ∧
      ((s.handle_thread_complete pinned item mesh).mesh_cache_.get fp = some m ∨
        ((s.handle_thread_complete pinned item mesh).mesh_cache_.get fp = none ∧ _))
    rcases handle_thread_complete_fields s pinned item mesh with hd | ⟨hin, _, _, hp, hr, hcache⟩
    · rw [hd]
      exact ⟨rfl, by simp [Event.request_for], Or.inl hc⟩
    · have hne : fingerprint item ≠ fp := fun heq => (hC (fp, m) hmem).1 (heq ▸ hin)
      refine ⟨?_, ?_, ?_⟩
      · unfold MeshManager.calls_for
        rw [hp]
      · have hreq : (Event.thread_complete pinned item mesh).request_for fp = [] := rfl
        rw [hreq, List.map_nil, List.append_nil]
        unfold MeshManager.returns_for
        rw [hr]
        apply returns_for_append_other
        intro r hr2
        obtain ⟨w, _, hw⟩ := List.mem_map.mp hr2
        rw [← hw]
        exact hne
      · rw [hcache]
        cases hfail : mesh.failed with
        | true => exact Or.inl hc
        | false =>
          simp only [Bool.false_eq_true, if_false]
          rcases put_get_other s.mesh_cache_ pinned (fingerprint item) fp mesh m hne hKeys hc
            with h | ⟨h1, h2, h3, h4⟩
          · exact Or.inl h
          · refine Or.inr ⟨h1, ?_⟩
            simp [MeshManager.drops, hin, hfail, h2, h3, h4]

theorem cached_run (events : List Event) (s : MeshManager) (fp : Fingerprint) (m : StudioMesh)
    (hS : s.Settled) (hK : s.KeysChecked) (hc : s.mesh_cache_.get fp = some m)
    (hstay : s.stays_cached fp events = true) :
    (s.run events).calls_for fp = s.calls_for fp ∧
    (s.run events).returns_for fp
      = s.returns_for fp ++ (requests_for fp events).map (fun c => (c, fp, some m)) ∧
    (s.run events).mesh_cache_.get fp = some m := by
  induction events generalizing s with
  | nil => exact ⟨rfl, by simp [requests_for, MeshManager.run], hc⟩
  | cons e rest ih =>
    simp only [MeshManager.stays_cached, Bool.and_eq_true] at hstay
    obtain ⟨h1, h2, h3⟩ := cached_step s e fp m hS hK hc
    have hc2 : (s.step e).mesh_cache_.get fp = some m := by
      rcases h3 with h3 | ⟨h3, _⟩
      · exact h3
      · rw [h3] at hstay
        simp at hstay
    obtain ⟨i1, i2, i3⟩ := ih (s.step e) (Settled_step s e hS) (KeysChecked_step s e hK) hc2 hstay.2
    refine ⟨?_, ?_, i3⟩
    · show ((s.step e).run rest).calls_for fp = _
      rw [i1, h1]
    · show ((s.step e).run rest).returns_for fp = _
      rw [i2, h2, requests_for, List.map_append, List.append_assoc]

/-- C1, claim as worded, refuted: in a cache of capacity one, the mesh of an item
is cached, the successful build of another item evicts it, and the next
`get_mesh` for the first item misses and leads to a second provider call for
it, although `clear_cache()` was never called. -/
theorem evicted_mesh_is_built_again :
    ((MeshManager.init 1 2).run
        [Event.get_mesh 1 sample_item true, Event.dispatch (fingerprint sample_item),
         Event.thread_complete [] sample_item sample_mesh]
      ).mesh_cache_.get (fingerprint sample_item) = some sample_mesh ∧
    Event.clear_cache ∉
      [Event.get_mesh 1 sample_item true, Event.dispatch (fingerprint sample_item),
       Event.thread_complete [] sample_item sample_mesh,
       Event.get_mesh 2 other_item true, Event.dispatch (fingerprint other_item),
       Event.thread_complete [] other_item sample_mesh,
       Event.get_mesh 3 sample_item true, Event.dispatch (fingerprint sample_item)] ∧
    ((MeshManager.init 1 2).run
        [Event.get_mesh 1 sample_item true, Event.dispatch (fingerprint sample_item),
         Event.thread_complete [] sample_item sample_mesh,
         Event.get_mesh 2 other_item true, Event.dispatch (fingerprint other_item),
         Event.thread_complete [] other_item sample_mesh,
         Event.get_mesh 3 sample_item true, Event.dispatch (fingerprint sample_item)]
      ).provider_calls = [sample_item, other_item, sample_item] ∧
    ((MeshManager.init 1 2).run
        [Event.get_mesh 1 sample_item true, Event.dispatch (fingerprint sample_item),
         Event.thread_complete [] sample_item sample_mesh,
         Event.get_mesh 2 other_item true, Event.dispatch (fingerprint other_item),
         Event.thread_complete [] other_item sample_mesh,
         Event.get_mesh 3 sample_item true, Event.dispatch (fingerprint sample_item)]
      ).returns_for (fingerprint sample_item)
      = [(1, fingerprint sample_item, some sample_mesh)] := by
  decide

/-- C1, amended. Once a mesh is cached for a fingerprint (in any state the
manager can reach from its construction), then over any further steps after
each of which the fingerprint is still cached, every `get_mesh` call for an
item with that fingerprint, with either value of `wait` and however many there
are, is returned the cached mesh, and no provider call is made for the
fingerprint; such a call itself makes no provider call and changes neither the
work queue nor the in-flight set.  The entry stays cached over every step
except `clear_cache()` and the eviction by the successful build of another,
uncached fingerprint into a full cache while the entry is not pinned. -/
theorem cached_mesh_is_served_until_dropped (max_entries max_threads : Nat)
    (history events : List Event) (fp : Fingerprint) (m : StudioMesh)
    (hcached : ((MeshManager.init max_entries max_threads).run history).mesh_cache_.get fp = some m)
    (hstays : ((MeshManager.init max_entries max_threads).run history).stays_cached fp events
      = true) :
    (((MeshManager.init max_entries max_threads).run history).run events).calls_for fp
      = ((MeshManager.init max_entries max_threads).run history).calls_for fp ∧
    (((MeshManager.init max_entries max_threads).run history).run events).returns_for fp
      = ((MeshManager.init max_entries max_threads).run history).returns_for fp
          ++ (requests_for fp events).map (fun c => (c, fp, some m)) ∧
    (((MeshManager.init max_entries max_threads).run history).run events).mesh_cache_.get fp
      = some m ∧
    (∀ (caller : CallerId) (item : MeshWorkItem) (wait : Bool), fingerprint item = fp →
      ((((MeshManager.init max_entries max_threads).run history).run events).get_mesh
          caller item wait).provider_calls
        = (((MeshManager.init max_entries max_threads).run history).run events).provider_calls ∧
      ((((MeshManager.init max_entries max_threads).run history).run events).get_mesh
          caller item wait).work_queue_
        = (((MeshManager.init max_entries max_threads).run history).run events).work_queue_ ∧
      ((((MeshManager.init max_entries max_threads).run history).run events).get_mesh
          caller item wait).in_flight
        = (((MeshManager.init max_entries max_threads).run history).run events).in_flight ∧
      ((((MeshManager.init max_entries max_threads).run history).run events).get_mesh
          caller item wait).returns
        = (((MeshManager.init max_entries max_threads).run history).run events).returns
            ++ [(caller, fp, some m)]) ∧
    (∀ e : Event,
      ((((MeshManager.init max_entries max_threads).run history).run events).step e
          ).mesh_cache_.get fp = some m ∨
      (((((MeshManager.init max_entries max_threads).run history).run events).step e
          ).mesh_cache_.get fp = none ∧
        (((MeshManager.init max_entries max_threads).run history).run events).drops fp e
          = true)) := by
  have hS := Settled_run history _ (Settled_init max_entries max_threads)
  have hK := KeysChecked_run history _ (KeysChecked_init max_entries max_threads)
  obtain ⟨h1, h2, h3⟩ := cached_run events _ fp m hS hK hcached hstays
  have hS2 := Settled_run events _ hS
  have hK2 := KeysChecked_run events _ hK
  refine ⟨h1, h2, h3, ?_, ?_⟩
  · intro caller item wait hfp
    subst hfp
    have hw : item.well_formed = true := by
      rw [← fingerprint_well_formed]
      exact hK2.2.2 _ (cache_lookup_mem _ m _ h3)
    rw [get_mesh_hit _ caller item wait m hw h3]
    exact ⟨rfl, rfl, rfl, rfl⟩
  · intro e
    exact (cached_step _ e fp m hS2 hK2 h3).2.2

theorem cached_mesh_is_served_until_dropped_witness :
    ((MeshManager.init 2 2).run
        [Event.get_mesh 1 sample_item true, Event.dispatch (fingerprint sample_item),
         Event.thread_complete [] sample_item sample_mesh]
      ).mesh_cache_.get (fingerprint sample_item) = some sample_mesh ∧
    (((MeshManager.init 2 2).run
        [Event.get_mesh 1 sample_item true, Event.dispatch (fingerprint sample_item),
         Event.thread_complete [] sample_item sample_mesh]).run
        [Event.get_mesh 2 sample_item true, Event.get_mesh 3 other_item true,
         Event.dispatch (fingerprint other_item), Event.get_mesh 4 sample_item false,
         Event.thread_complete [] other_item sample_mesh, Event.get_mesh 5 sample_item true]
      ).provider_calls = [sample_item, other_item] ∧
    (((MeshManager.init 2 2).run
        [Event.get_mesh 1 sample_item true, Event.dispatch (fingerprint sample_item),
         Event.thread_complete [] sample_item sample_mesh]).run
        [Event.get_mesh 2 sample_item true, Event.get_mesh 3 other_item true,
         Event.dispatch (fingerprint other_item), Event.get_mesh 4 sample_item false,
         Event.thread_complete [] other_item sample_mesh, Event.get_mesh 5 sample_item true]
      ).returns_for (fingerprint sample_item)
      = [(1, fingerprint sample_item, some sample_mesh),
         (2, fingerprint sample_item, some sample_mesh),
         (4, fingerprint sample_item, some sample_mesh),
         (5, fingerprint sample_item, some sample_mesh)] :=
  have h := cached_mesh_is_served_until_dropped 2 2
    [Event.get_mesh 1 sample_item true, Event.dispatch (fingerprint sample_item),
     Event.thread_complete [] sample_item sample_mesh]
    [Event.get_mesh 2 sample_item true, Event.get_mesh 3 other_item true,
     Event.dispatch (fingerprint other_item), Event.get_mesh 4 sample_item false,
     Event.thread_complete [] other_item sample_mesh, Event.get_mesh 5 sample_item true]
    (fingerprint sample_item) sample_mesh (by decide) (by decide)
  ⟨by decide, by decide, h.2.1.trans (by decide)⟩

/-! ## C2: overlapping requests share one build -/

theorem run_append (s : MeshManager) (a b : List Event) :
    s.run (a ++ b) = (s.run a).run b := by
  unfold MeshManager.run
  rw [List.foldl_append]

theorem request_claims (s : MeshManager) (caller : CallerId) (item : MeshWorkItem) (wait : Bool)
    (hwf : item.well_formed = true) (h : s.Tracked item) :
    (s.get_mesh caller item wait).work_queue_
      = (MeshWorkQueue.push s.work_queue_ s.in_flight item).1 ∧
    (s.get_mesh caller item wait).in_flight = s.in_flight ∧
    (1 ≤ (MeshWorkQueue.push s.work_queue_ s.in_flight item).1.count item ∨
      fingerprint item ∈ s.in_flight) := by
  have hq : (s.get_mesh caller item wait).work_queue_
      = (MeshWorkQueue.push s.work_queue_ s.in_flight item).1 := by
    unfold MeshManager.get_mesh
    simp only [hwf, Bool.not_true, Bool.false_eq_true, if_false, h.1]
    cases wait <;> rfl
  refine ⟨hq, (get_mesh_fields s caller item wait).1, ?_⟩
  unfold MeshWorkQueue.push
  split
  · rename_i hcond
    simp only [Bool.or_eq_true] at hcond
    rcases hcond with hcond | hcond
    · left
      exact List.count_pos_iff.mpr ((is_inside_iff_mem _ _).mp hcond)
    · right
      simpa using hcond
  · left
    simp

theorem claimed_step (item : MeshWorkItem) (s : MeshManager) (e : Event)
    (h : s.claimed item) (hno : e.completes (fingerprint item) = false) :
    (s.step e).claimed item := by
  unfold MeshManager.claimed at h ⊢
  have hget : ∀ (caller : CallerId) (it : MeshWorkItem) (wait : Bool),
      1 ≤ (s.get_mesh caller it wait).work_queue_.count item ∨
        fingerprint item ∈ (s.get_mesh caller it wait).in_flight := by
    intro caller it wait
    obtain ⟨gf, _, _, gq, _⟩ := get_mesh_fields s caller it wait
    rw [gf]
    rcases h with h | h
    · left
      rcases gq with gq | ⟨gq, _⟩
      · rw [gq]
        exact h
      · rw [gq, List.count_append]
        omega
    · exact Or.inr h
  cases e with
  | get_mesh caller it wait => exact hget caller it wait
  | generate_mesh it => exact hget 0 it false
  | clear_cache => exact h
  | dispatch fp2 =>
    show 1 ≤ (s.dispatch fp2).work_queue_.count item ∨ fingerprint item ∈ (s.dispatch fp2).in_flight
    rcases dispatch_fields s fp2 with hd | ⟨it2, _, hfp2, _, hd⟩
    · rw [hd]
      exact h
    · rw [hd]
      by_cases heq : it2 = item
      · right
        show fingerprint item ∈ s.in_flight ++ [fp2]
        rw [← hfp2, heq]
        simp
      · rcases h with h | h
        · left
          show 1 ≤ (s.work_queue_.erase it2).count item
          rw [List.count_erase_of_ne (fun e => heq e.symm)]
          exact h
        · right
          show fingerprint item ∈ s.in_flight ++ [fp2]
          exact List.mem_append_left _ h
  | thread_complete pinned it mesh =>
    have hne : fingerprint it ≠ fingerprint item := by
      simpa [Event.completes] using hno
    show 1 ≤ (s.handle_thread_complete pinned it mesh).work_queue_.count item ∨
      fingerprint item ∈ (s.handle_thread_complete pinned it mesh).in_flight
    rcases handle_thread_complete_fields s pinned it mesh with hd | ⟨_, hq, hf, _⟩
    · rw [hd]
      exact h
    · rw [hq, hf]
      rcases h with h | h
      · exact Or.inl h
      · exact Or.inr ((List.mem_erase_of_ne (fun e => hne e.symm)).mpr h)

theorem claimed_run (item : MeshWorkItem) (events : List Event) (s : MeshManager)
    (hwf : item.well_formed = true) (hT : s.Tracked item)
    (hno : ∀ e ∈ events, e.completes (fingerprint item) = false)
    (h : s.claimed item ∨ events.any (fun e => e.asks_for (fingerprint item)) = true) :
    (s.run events).claimed item := by
  induction events generalizing s with
  | nil =>
    rcases h with h | h
    · exact h
    · simp at h
  | cons e rest ih =>
    have hstep := Progress_step item s e hwf hT (hno e (List.mem_cons_self _ _))
    have hrest : ∀ d ∈ rest, d.completes (fingerprint item) = false :=
      fun d hd => hno d (List.mem_cons_of_mem _ hd)
    show ((s.step e).run rest).claimed item
    apply ih (s.step e) hstep.1 hrest
    rcases h with h | h
    · exact Or.inl (claimed_step item s e h (hno e (List.mem_cons_self _ _)))
    · simp only [List.any_cons, Bool.or_eq_true] at h
      rcases h with h | h
      · left
        cases e with
        | get_mesh caller it wait =>
          have hit : it = item := fingerprint_injective it item (by simpa [Event.asks_for] using h)
          subst hit
          obtain ⟨hq, hf, hc⟩ := request_claims s caller it wait hwf hT
          show 1 ≤ (s.get_mesh caller it wait).work_queue_.count it ∨
            fingerprint it ∈ (s.get_mesh caller it wait).in_flight
          rw [hq, hf]
          exact hc
        | generate_mesh it =>
          have hit : it = item := fingerprint_injective it item (by simpa [Event.asks_for] using h)
          subst hit
          obtain ⟨hq, hf, hc⟩ := request_claims s 0 it false hwf hT
          show 1 ≤ (s.get_mesh 0 it false).work_queue_.count it ∨
            fingerprint it ∈ (s.get_mesh 0 it false).in_flight
          rw [hq, hf]
          exact hc
        | clear_cache => simp [Event.asks_for] at h
        | dispatch fp2 => simp [Event.asks_for] at h
        | thread_complete pinned it mesh => simp [Event.asks_for] at h
      · exact Or.inr h

theorem dispatch_claimed (item : MeshWorkItem) (s : MeshManager) (h : s.claimed item)
    (hfree : s.in_flight.length < s.max_threads) :
    fingerprint item ∈ (s.dispatch (fingerprint item)).in_flight := by
  rcases h with h | h
  · have hmem : item ∈ s.work_queue_ := List.count_pos_iff.mp h
    unfold MeshManager.dispatch
    cases hfind : s.work_queue_.find? (fun it => decide (fingerprint it = fingerprint item)) with
    | none =>
      rw [List.find?_eq_none] at hfind
      exact absurd (hfind item hmem) (by simp)
    | some it =>
      simp only [hfree, if_true]
      simp
  · rcases dispatch_fields s (fingerprint item) with hd | ⟨_, _, _, _, hd⟩
    · rw [hd]
      exact h
    · rw [hd]
      exact List.mem_append_left _ h

theorem build_is_taken (s : MeshManager) (item : MeshWorkItem) (before after : List Event)
    (hwf : item.well_formed = true) (habsent : s.absent item)
    (hbefore : ∀ e ∈ before, e.completes (fingerprint item) = false)
    (hasked : before.any (fun e => e.asks_for (fingerprint item)) = true)
    (hfree : (s.run before).in_flight.length < (s.run before).max_threads)
    (hafter : ∀ e ∈ after, e.completes (fingerprint item) = false) :
    fingerprint item ∈ (s.run (before ++ Event.dispatch (fingerprint item) :: after)).in_flight := by
  have hT := absent_tracked s item habsent
  have h1 := claimed_run item before s hwf hT hbefore (Or.inr hasked)
  have hT1 := (Progress_run item before s hwf hT hbefore).1
  have h2 := dispatch_claimed item (s.run before) h1 hfree
  have hT2 := (Progress_step item (s.run before) (Event.dispatch (fingerprint item)) hwf hT1 rfl).1
  have h3 := (Progress_run item after _ hwf hT2 hafter).2.1
  rw [run_append]
  show fingerprint item ∈ (((s.run before).step (Event.dispatch (fingerprint item))).run after).in_flight
  apply List.count_pos_iff.mp
  have h4 : 0 < ((s.run before).step (Event.dispatch (fingerprint item))).in_flight.count
      (fingerprint item) := List.count_pos_iff.mpr h2
  omega

/-- C2, claim as worded, refuted: for a malformed item, two overlapping
`get_mesh(item, wait = true)` calls followed by a dispatch cause no provider
invocation and are returned the input error handle, not a built mesh; for an
item whose mesh is already cached they cause no provider invocation either;
and with a pool of no worker a well-formed item is never taken, so no provider
is invoked and the callers keep waiting. -/
theorem overlapping_requests_without_a_build :
    ((MeshManager.init 4 2).run
        [Event.get_mesh 1 malformed_item true, Event.get_mesh 2 malformed_item true,
         Event.dispatch (fingerprint malformed_item)]).provider_calls = [] ∧
    ((MeshManager.init 4 2).run
        [Event.get_mesh 1 malformed_item true, Event.get_mesh 2 malformed_item true,
         Event.dispatch (fingerprint malformed_item)]).returns
      = [(1, fingerprint malformed_item, some input_error_mesh),
         (2, fingerprint malformed_item, some input_error_mesh)] ∧
    input_error_mesh.failed = true ∧
    (((MeshManager.init 4 2).run
        [Event.get_mesh 1 sample_item true, Event.dispatch (fingerprint sample_item),
         Event.thread_complete [] sample_item sample_mesh]).run
        [Event.get_mesh 2 sample_item true, Event.get_mesh 3 sample_item true,
         Event.dispatch (fingerprint sample_item)]).provider_calls
      = ((MeshManager.init 4 2).run
        [Event.get_mesh 1 sample_item true, Event.dispatch (fingerprint sample_item),
         Event.thread_complete [] sample_item sample_mesh]).provider_calls ∧
    ((MeshManager.init 4 0).run
        [Event.get_mesh 1 sample_item true, Event.get_mesh 2 sample_item true,
         Event.dispatch (fingerprint sample_item)]).provider_calls = [] ∧
    ((MeshManager.init 4 0).run
        [Event.get_mesh 1 sample_item true, Event.get_mesh 2 sample_item true,
         Event.dispatch (fingerprint sample_item)]).returns = [] ∧
    ((MeshManager.init 4 0).run
        [Event.get_mesh 1 sample_item true, Event.get_mesh 2 sample_item true,
         Event.dispatch (fingerprint sample_item)]).waiters_for (fingerprint sample_item)
      = [1, 2] := by
  decide

/-- C2, amended. Take a well-formed item that is absent (not cached, not queued,
not in flight, no waiter) and any interleaving of steps without a completion
for it: any number of `get_mesh(item, wait = true)` calls by any callers, mixed
with `generate_mesh`, dispatches, cache clears and steps about other items.  If
the item has been asked for and a worker of the pool is free when the item is
dispatched, then a worker is on the item from then on; and when its build
completes successfully, the provider has been invoked for the item exactly
once, every caller that asked with `wait = true` is returned the same built
mesh, at no moment of the run is the fingerprint in flight more than once, and
the mesh is cached. -/
theorem overlapping_requests_cause_one_build (s : MeshManager) (item : MeshWorkItem)
    (mesh : StudioMesh) (pinned : List Fingerprint) (before after : List Event)
    (hwf : item.well_formed = true)
    (habsent : s.absent item)
    (hbefore : ∀ e ∈ before, e.completes (fingerprint item) = false)
    (hasked : before.any (fun e => e.asks_for (fingerprint item)) = true)
    (hfree : (s.run before).in_flight.length < (s.run before).max_threads)
    (hafter : ∀ e ∈ after, e.completes (fingerprint item) = false)
    (hgood : mesh.failed = false) :
    fingerprint item ∈ (s.run (before ++ Event.dispatch (fingerprint item) :: after)).in_flight ∧
    ((s.run (before ++ Event.dispatch (fingerprint item) :: after)).handle_thread_complete
        pinned item mesh).calls_for (fingerprint item)
      = s.calls_for (fingerprint item) ++ [item] ∧
    ((s.run (before ++ Event.dispatch (fingerprint item) :: after)).handle_thread_complete
        pinned item mesh).returns_for (fingerprint item)
      = s.returns_for (fingerprint item) ++
          placeholder_returns (fingerprint item)
            (before ++ Event.dispatch (fingerprint item) :: after) ++
          (waiting_callers (fingerprint item)
            (before ++ Event.dispatch (fingerprint item) :: after)).map
            (fun c => (c, fingerprint item, some mesh)) ∧
    (∀ k, (s.run ((before ++ Event.dispatch (fingerprint item) :: after).take k)).in_flight.count
        (fingerprint item) ≤ 1) ∧
    ((s.run (before ++ Event.dispatch (fingerprint item) :: after)).handle_thread_complete
        pinned item mesh).mesh_cache_.get (fingerprint item) = some mesh := by
  have hflight := build_is_taken s item before after hwf habsent hbefore hasked hfree hafter
  have hno : ∀ e ∈ before ++ Event.dispatch (fingerprint item) :: after,
      e.completes (fingerprint item) = false := by
    intro e he
    simp only [List.mem_append, List.mem_cons] at he
    rcases he with he | he | he
    · exact hbefore e he
    · rw [he]
      rfl
    · exact hafter e he
  obtain ⟨ht, hc, hr, hw⟩ := build_in_flight s item _ habsent hno hflight
  obtain ⟨c1, c2, _, _, _, c6, _⟩ :=
    complete_tracked (s.run (before ++ Event.dispatch (fingerprint item) :: after))
      pinned item mesh ht hflight
  refine ⟨hflight, ?_, ?_, ?_, ?_⟩
  · rw [c1, hc]
  · rw [c2, hr, hw]
  · intro k
    have hk := Progress_run item ((before ++ Event.dispatch (fingerprint item) :: after).take k)
      s hwf (absent_tracked s item habsent) (fun e he => hno e (List.mem_of_mem_take he))
    have := hk.1.2
    omega
  · rw [c6, hgood]
    rfl

theorem overlapping_requests_cause_one_build_witness :
    (MeshManager.init 4 2).absent sample_item ∧
    (((MeshManager.init 4 2).run
        ([Event.get_mesh 1 sample_item true, Event.get_mesh 2 sample_item true] ++
          Event.dispatch (fingerprint sample_item) :: [Event.get_mesh 3 sample_item true])
      ).handle_thread_complete [] sample_item sample_mesh).provider_calls = [sample_item] ∧
    (((MeshManager.init 4 2).run
        ([Event.get_mesh 1 sample_item true, Event.get_mesh 2 sample_item true] ++
          Event.dispatch (fingerprint sample_item) :: [Event.get_mesh 3 sample_item true])
      ).handle_thread_complete [] sample_item sample_mesh).returns_for (fingerprint sample_item)
      = [(1, fingerprint sample_item, some sample_mesh),
         (2, fingerprint sample_item, some sample_mesh),
         (3, fingerprint sample_item, some sample_mesh)] :=
  have habs : (MeshManager.init 4 2).absent sample_item :=
    ⟨by decide, by decide, by decide, by decide⟩
  have h := overlapping_requests_cause_one_build (MeshManager.init 4 2) sample_item sample_mesh []
    [Event.get_mesh 1 sample_item true, Event.get_mesh 2 sample_item true]
    [Event.get_mesh 3 sample_item true]
    (by decide) habs (by decide) (by decide) (by decide) (by decide) (by decide)
  ⟨habs, by decide, h.2.2.1.trans (by decide)⟩

/-! ## C7: fingerprints of items with identical content -/

/-- C7. Two work items with the same point coordinates in the same order, the
same domain index and the same provider selector are equal (equality of work
items is structural), have the same fingerprint, and so address the same entry
of any cache. -/
theorem identical_content_same_fingerprint (a b : MeshWorkItem)
    (hp : a.point_set = b.point_set) (hd : a.domain_index = b.domain_index)
    (hr : a.use_reconstruction = b.use_reconstruction) (hw : a.use_warping = b.use_warping) :
    a = b ∧ fingerprint a = fingerprint b ∧
    ∀ c : MeshCache, c.get (fingerprint a) = c.get (fingerprint b) := by
  have hab : a = b := by
    cases a
    cases b
    simp only [MeshWorkItem.mk.injEq]
    exact ⟨hp, hd, hr, hw⟩
  refine ⟨hab, by rw [hab], ?_⟩
  intro c
  rw [hab]

theorem identical_content_same_fingerprint_witness :
    fingerprint sample_item
      = fingerprint
          { point_set := [1, 2, 3], domain_index := 0, use_reconstruction := true,
            use_warping := false } :=
  (identical_content_same_fingerprint sample_item
      { point_set := [1, 2, 3], domain_index := 0, use_reconstruction := true,
        use_warping := false } rfl rfl rfl rfl).2.1

/-! ## C8: malformed requests -/

/-- C8. A `get_mesh` request whose point set is empty or whose number of
coordinates is not a multiple of 3 only adds one return for the caller, made in
the same step: an error handle with a non-empty message and no geometry.
Nothing is enqueued, no provider is called, no worker is engaged, the cache and
the notifications are untouched; `generate_mesh` of such an item changes
nothing at all. -/
theorem malformed_request_is_rejected (s : MeshManager) (caller : CallerId)
    (item : MeshWorkItem) (wait : Bool)
    (hbad : item.point_set = [] ∨ item.point_set.length % 3 ≠ 0) :
    s.get_mesh caller item wait
      = { s with returns := s.returns ++ [(caller, fingerprint item, some input_error_mesh)] } ∧
    (s.get_mesh caller item wait).work_queue_ = s.work_queue_ ∧
    (s.get_mesh caller item wait).provider_calls = s.provider_calls ∧
    (s.get_mesh caller item wait).in_flight = s.in_flight ∧
    input_error_mesh.failed = true ∧
    input_error_mesh.poly_data_ = none ∧
    s.generate_mesh item = s := by
  have hw : item.well_formed = false := by
    unfold MeshWorkItem.well_formed
    rcases hbad with h | h
    · simp [h]
    · simp [h]
  have hget : ∀ (c : CallerId) (w : Bool), s.get_mesh c item w
      = { s with returns := s.returns ++ [(c, fingerprint item, some input_error_mesh)] } := by
    intro c w
    unfold MeshManager.get_mesh
    simp only [hw, Bool.not_false, if_true]
  refine ⟨hget caller wait, ?_, ?_, ?_, by decide, rfl, ?_⟩
  · rw [hget]
  · rw [hget]
  · rw [hget]
  · unfold MeshManager.generate_mesh
    rw [hget]

theorem malformed_request_is_rejected_witness :
    (malformed_item.point_set = [] ∨ malformed_item.point_set.length % 3 ≠ 0) ∧
    ((MeshManager.init 4 2).get_mesh 1 malformed_item true).returns
      = [(1, fingerprint malformed_item, some input_error_mesh)] ∧
    ((MeshManager.init 4 2).get_mesh 1 malformed_item true).work_queue_ = [] :=
  have h := malformed_request_is_rejected (MeshManager.init 4 2) 1 malformed_item true
    (Or.inr (by decide))
  ⟨Or.inr (by decide), by rw [h.1]; rfl, h.2.1⟩

/-! ## C9: groom and optimize completion clear the cache -/

/-- C9. For every session, the calls made by `handle_groom_complete` and by
`handle_optimize_complete` contain, as one contiguous run, the calls of
`Session::handle_clear_cache`; and those begin with
`MeshManager::clear_cache()` followed by `clear_reconstructed_mesh()` on each
shape of the session, once each and in order, so every shape of the session has
its reconstructed mesh cleared. -/
theorem groom_and_optimize_complete_clear_cache (session : Session) :
    List.IsInfix session.handle_clear_cache (handle_groom_complete session) ∧
    List.IsInfix session.handle_clear_cache (handle_optimize_complete session) ∧
    List.IsPrefix
      (Call.mesh_manager_clear_cache ::
        (List.range session.num_shapes).map Call.shape_clear_reconstructed_mesh)
      session.handle_clear_cache ∧
    (∀ shape, shape < session.num_shapes →
      Call.shape_clear_reconstructed_mesh shape ∈ session.handle_clear_cache) := by
  refine ⟨⟨_, _, rfl⟩, ⟨_, _, rfl⟩, ⟨session.calculate_reconstructed_samples, ?_⟩, ?_⟩
  · simp [Session.handle_clear_cache, Session.shapes_]
  · intro shape hshape
    unfold Session.handle_clear_cache Session.shapes_
    apply List.mem_cons_of_mem
    apply List.mem_append_left
    exact List.mem_map.mpr ⟨shape, List.mem_range.mpr hshape, rfl⟩

theorem groom_and_optimize_complete_clear_cache_witness :
    (1 : Nat) < (Session.mk 2 true).num_shapes ∧
    Call.shape_clear_reconstructed_mesh 1 ∈ (Session.mk 2 true).handle_clear_cache ∧
    handle_groom_complete (Session.mk 2 true)
      = [Call.set_view_combo_item_enabled VIEW_MODE.GROOMED true,
         Call.view_mode_combobox_setCurrentIndex VIEW_MODE.GROOMED,
         Call.mesh_manager_clear_cache,
         Call.shape_clear_reconstructed_mesh 0,
         Call.shape_clear_reconstructed_mesh 1,
         Call.project_get_particles_present,
         Call.shape_get_local_correspondence_points 0,
         Call.shape_get_local_correspondence_points 1,
         Call.update_display (some true),
         Call.visualizer_reset_camera,
         Call.enable_possible_actions] :=
  ⟨by decide,
   (groom_and_optimize_complete_clear_cache (Session.mk 2 true)).2.2.2 1 (by decide),
   by decide⟩

/-! ## C10: Region::valid -/

theorem to_unsigned_long_sub (lo hi : Int) (hlo : is_long lo) (hhi : is_long hi) (h : lo < hi) :
    1 ≤ to_unsigned_long (hi - lo) := by
  unfold is_long LONG_BITS at hlo hhi
  unfold to_unsigned_long LONG_BITS
  norm_num at hlo hhi ⊢
  omega

/-- C10. `Region::valid()` is true exactly when `max[i] > min[i]` strictly on
each of the three axes; the default-constructed region, with `min = 10^9` and
`max = -10^9` on every axis, is not valid; and a valid region (of `long`
coordinates) has every component of `size()` at least 1. -/
theorem region_valid_iff_strictly_ordered (r : Region)
    (hmin : ∀ i, is_long (r.min i)) (hmax : ∀ i, is_long (r.max i)) :
    (r.valid = true ↔ (r.max 0 > r.min 0 ∧ r.max 1 > r.min 1 ∧ r.max 2 > r.min 2)) ∧
    (∀ i, Region.default.min i = 1000000000 ∧ Region.default.max i = -1000000000) ∧
    Region.default.valid = false ∧
    (r.valid = true → ∀ i, 1 ≤ r.size i) := by
  have hiff : r.valid = true ↔ (r.max 0 > r.min 0 ∧ r.max 1 > r.min 1 ∧ r.max 2 > r.min 2) := by
    unfold Region.valid
    simp [and_assoc]
  refine ⟨hiff, fun _ => ⟨rfl, rfl⟩, by decide, ?_⟩
  intro hv i
  obtain ⟨h0, h1, h2⟩ := hiff.mp hv
  unfold Region.size
  fin_cases i
  · exact to_unsigned_long_sub _ _ (hmin 0) (hmax 0) h0
  · exact to_unsigned_long_sub _ _ (hmin 1) (hmax 1) h1
  · exact to_unsigned_long_sub _ _ (hmin 2) (hmax 2) h2

theorem region_valid_iff_strictly_ordered_witness :
    (∀ i, is_long (sample_region.min i)) ∧ (∀ i, is_long (sample_region.max i)) ∧
    sample_region.valid = true ∧ 1 ≤ sample_region.size 0 :=
  have hmin : ∀ i, is_long (sample_region.min i) :=
    fun _ => (show is_long 0 from ⟨by decide, by decide⟩)
  have hmax : ∀ i, is_long (sample_region.max i) :=
    fun _ => (show is_long 5 from ⟨by decide, by decide⟩)
  ⟨hmin, hmax, by decide,
   (region_valid_iff_strictly_ordered sample_region hmin hmax).2.2.2 (by decide) 0⟩

/-! ## C11: the region of a non-empty image -/

theorem to_long_of_small (x : Int) (h0 : 0 ≤ x) (h1 : x < (2 : Int) ^ (LONG_BITS - 1)) :
    to_long x = x := by
  unfold to_long LONG_BITS
  unfold LONG_BITS at h1
  norm_num at h1 ⊢
  have hmod : x % 18446744073709551616 = x := Int.emod_eq_of_lt h0 (by omega)
  rw [hmod]
  simp only [h1, if_true]

theorem region_of_dims_max (d : Dims) (i : Fin 3)
    (hpos : ∀ j, 1 ≤ d j) (hlong : ∀ j, (d j : Int) < (2 : Int) ^ (LONG_BITS - 1))
    (hsum : d 0 + d 1 + d 2 < 2 ^ LONG_BITS) :
    (Region.of_dims d).max i = (d i : Int) - 1 ∧ (Region.of_dims d).min i = 0 := by
  have h0 := hpos 0
  have hi := hpos i
  have li := hlong i
  unfold LONG_BITS at li
  norm_num at li
  have hne : 0 ≠ (d 0 + d 1 + d 2) % 2 ^ LONG_BITS := by
    rw [Nat.mod_eq_of_lt hsum]
    omega
  unfold Region.of_dims
  simp only [hne, ne_eq, not_false_eq_true, if_true, and_true]
  rw [to_long_of_small (d i) (by omega) (hlong i)]
  exact to_long_of_small _ (by omega) (by unfold LONG_BITS; norm_num; omega)

theorem region_of_dims_valid_iff (d : Dims)
    (hpos : ∀ j, 1 ≤ d j) (hlong : ∀ j, (d j : Int) < (2 : Int) ^ (LONG_BITS - 1))
    (hsum : d 0 + d 1 + d 2 < 2 ^ LONG_BITS) :
    (Region.of_dims d).valid = true ↔ ∀ j, 2 ≤ d j := by
  have m0 := region_of_dims_max d 0 hpos hlong hsum
  have m1 := region_of_dims_max d 1 hpos hlong hsum
  have m2 := region_of_dims_max d 2 hpos hlong hsum
  unfold Region.valid
  rw [m0.1, m0.2, m1.1, m1.2, m2.1, m2.2]
  simp only [Bool.and_eq_true, decide_eq_true_eq]
  constructor
  · rintro ⟨⟨a, b⟩, c⟩ j
    fin_cases j
    · show 2 ≤ d 0
      omega
    · show 2 ≤ d 1
      omega
    · show 2 ≤ d 2
      omega
  · intro h
    have a := h 0
    have b := h 1
    have c := h 2
    refine ⟨⟨?_, ?_⟩, ?_⟩ <;> omega

/-- C11, at the failing inputs.  The dimensions 1 x 1 x 1 (one voxel) and
512 x 512 x 1 (one slice) have all components at least 1, and `Region(d)` has
`min = (0, 0, 0)` and `max = d - 1` as the claim says; but `max` equals `min` on
every axis of extent 1, the strict comparison of `valid()` fails there, and
the region of the non-empty image is rejected. -/
theorem region_of_unit_thick_image_is_not_valid :
    (∀ i, 1 ≤ slice_dims i) ∧
    (∀ i, (Region.of_dims slice_dims).min i = 0) ∧
    (∀ i, (Region.of_dims slice_dims).max i = (slice_dims i : Int) - 1) ∧
    (Region.of_dims slice_dims).valid = false ∧
    (∀ i, (Region.of_dims (fun _ => 1)).min i = 0 ∧ (Region.of_dims (fun _ => 1)).max i = 0) ∧
    (Region.of_dims (fun _ => 1)).valid = false := by
  refine ⟨by decide, by decide, by decide, by decide, by decide, by decide⟩

/-! ## C12: Save Project As -/

theorem has_suffix_contract : SuffixTest has_suffix := by
  intro filename suffix
  unfold has_suffix
  exact List.isSuffixOf_iff_suffix

theorem save_as_filename_of_suffix (hasSuffix : String → String → Bool)
    (hcontract : SuffixTest hasSuffix) (filename : String)
    (h : List.IsSuffix ".xlsx".data filename.data) :
    save_as_filename hasSuffix filename = filename := by
  have : hasSuffix filename ".xlsx" = true := (hcontract filename ".xlsx").mpr h
  simp [save_as_filename, this]

theorem save_as_filename_of_not_suffix (hasSuffix : String → String → Bool)
    (hcontract : SuffixTest hasSuffix) (filename : String)
    (h : ¬ List.IsSuffix ".xlsx".data filename.data) :
    save_as_filename hasSuffix filename = filename ++ ".xlsx" := by
  have : hasSuffix filename ".xlsx" = false := by
    cases hs : hasSuffix filename ".xlsx" with
    | false => rfl
    | true => exact absurd ((hcontract filename ".xlsx").mp hs) h
  simp [save_as_filename, this]

theorem save_as_filename_suffix (hasSuffix : String → String → Bool)
    (hcontract : SuffixTest hasSuffix) (filename : String) :
    List.IsSuffix ".xlsx".data (save_as_filename hasSuffix filename).data := by
  by_cases h : List.IsSuffix ".xlsx".data filename.data
  · rw [save_as_filename_of_suffix hasSuffix hcontract filename h]
    exact h
  · rw [save_as_filename_of_not_suffix hasSuffix hcontract filename h, String.data_append]
    exact List.suffix_append _ _

/-- C12. For every non-empty file name chosen in the Save Project As dialog
(`hasSuffix` being the suffix test of `StringUtils`), exactly one name is
passed on to `save_project`, and it ends with ".xlsx": a name that already ends
with ".xlsx" is passed unchanged, any other name is passed with ".xlsx"
appended once, and normalising a normalised name changes nothing. -/
theorem save_as_passes_xlsx_name (hasSuffix : String → String → Bool)
    (hcontract : SuffixTest hasSuffix) (filename : String) (hne : filename ≠ "") :
    (∀ name, SaveAsCall.save_project name ∈ (on_action_save_project_as_triggered hasSuffix filename).2
      ↔ name = save_as_filename hasSuffix filename) ∧
    List.IsSuffix ".xlsx".data (save_as_filename hasSuffix filename).data ∧
    (List.IsSuffix ".xlsx".data filename.data → save_as_filename hasSuffix filename = filename) ∧
    (¬ List.IsSuffix ".xlsx".data filename.data →
      save_as_filename hasSuffix filename = filename ++ ".xlsx") ∧
    save_as_filename hasSuffix (save_as_filename hasSuffix filename)
      = save_as_filename hasSuffix filename := by
  have hempty : filename.isEmpty = false := by
    cases h : filename.isEmpty with
    | false => rfl
    | true => exact absurd ((String.isEmpty_iff filename).mp h) hne
  refine ⟨?_, save_as_filename_suffix hasSuffix hcontract filename,
    save_as_filename_of_suffix hasSuffix hcontract filename,
    save_as_filename_of_not_suffix hasSuffix hcontract filename,
    save_as_filename_of_suffix hasSuffix hcontract _
      (save_as_filename_suffix hasSuffix hcontract filename)⟩
  intro name
  unfold on_action_save_project_as_triggered
  simp [hempty]

theorem save_as_passes_xlsx_name_witness :
    SuffixTest has_suffix ∧ "study" ≠ "" ∧
    save_as_filename has_suffix "study" = "study.xlsx" ∧
    save_as_filename has_suffix "study.xlsx" = "study.xlsx" ∧
    (on_action_save_project_as_triggered has_suffix "study").2
      = [SaveAsCall.preferences_add_recent_file "study.xlsx",
         SaveAsCall.update_recent_files,
         SaveAsCall.preferences_set_last_directory_of "study.xlsx",
         SaveAsCall.save_project "study.xlsx",
         SaveAsCall.enable_possible_actions] :=
  have h := save_as_passes_xlsx_name has_suffix has_suffix_contract "study" (by decide)
  ⟨has_suffix_contract, by decide, (h.2.2.2.1 (by decide)).trans (by decide), by decide, by decide⟩

/-! ## C15: supported file formats -/

/-- C15. Whatever list `Mesh::getSupportedTypes()` returns, every file name
ending in ".nrrd", ".nii", ".nii.gz" or ".mha" (the image extensions offered by
the import dialog) is accepted by `Session::is_supported_file_format`; and a
name that ends in none of the supported mesh types and in none of these four
suffixes is rejected. -/
theorem image_extensions_are_supported (hasSuffix : String → String → Bool)
    (hcontract : SuffixTest hasSuffix) (supported_types : List String) (filename : String) :
    ((List.IsSuffix ".nrrd".data filename.data ∨ List.IsSuffix ".nii".data filename.data ∨
        List.IsSuffix ".nii.gz".data filename.data ∨ List.IsSuffix ".mha".data filename.data) →
      Session.is_supported_file_format hasSuffix supported_types filename = true) ∧
    ((∀ type ∈ supported_types, ¬ List.IsSuffix type.data filename.data) →
      ¬ List.IsSuffix ".nrrd".data filename.data → ¬ List.IsSuffix ".nii".data filename.data →
      ¬ List.IsSuffix ".nii.gz".data filename.data → ¬ List.IsSuffix ".mha".data filename.data →
      Session.is_supported_file_format hasSuffix supported_types filename = false) := by
  have hfalse : ∀ suffix : String, ¬ List.IsSuffix suffix.data filename.data →
      hasSuffix filename suffix = false := by
    intro suffix h
    cases hs : hasSuffix filename suffix with
    | false => rfl
    | true => exact absurd ((hcontract filename suffix).mp hs) h
  constructor
  · intro h
    unfold Session.is_supported_file_format
    by_cases hmesh : supported_types.any (fun type => hasSuffix filename type) = true
    · simp [hmesh]
    · have himg : (hasSuffix filename ".nrrd" || hasSuffix filename ".mha" ||
          hasSuffix filename ".nii" || hasSuffix filename ".nii.gz") = true := by
        rcases h with h | h | h | h
        · simp [(hcontract filename ".nrrd").mpr h]
        · simp [(hcontract filename ".nii").mpr h]
        · simp [(hcontract filename ".nii.gz").mpr h]
        · simp [(hcontract filename ".mha").mpr h]
      simp only [hmesh, himg, if_true, if_false, Bool.false_eq_true]
  · intro hmesh h1 h2 h3 h4
    unfold Session.is_supported_file_format
    have hany : supported_types.any (fun type => hasSuffix filename type) = false := by
      rw [List.any_eq_false]
      intro type htype
      rw [hfalse type (hmesh type htype)]
      simp
    simp [hany, hfalse ".nrrd" h1, hfalse ".nii" h2, hfalse ".nii.gz" h3, hfalse ".mha" h4]

theorem image_extensions_are_supported_witness :
    SuffixTest has_suffix ∧
    List.IsSuffix ".nii.gz".data "scan.nii.gz".data ∧
    Session.is_supported_file_format has_suffix [".vtk", ".ply"] "scan.nii.gz" = true ∧
    Session.is_supported_file_format has_suffix [] "scan.nii.gz" = true ∧
    Session.is_supported_file_format has_suffix [".vtk", ".ply"] "notes.txt" = false :=
  ⟨has_suffix_contract, by decide,
   (image_extensions_are_supported has_suffix has_suffix_contract [".vtk", ".ply"]
      "scan.nii.gz").1 (Or.inr (Or.inr (Or.inl (by decide)))),
   by decide,
   (image_extensions_are_supported has_suffix has_suffix_contract [".vtk", ".ply"]
      "notes.txt").2 (by decide) (by decide) (by decide) (by decide) (by decide)⟩

/-! ## C16: the number of viewers -/

theorem tile_count_values :
    tile_count 0 = 1 ∧ tile_count 1 = 2 ∧ tile_count 2 = 4 ∧ tile_count 3 = 9 ∧
    tile_count 4 = 16 := by
  refine ⟨by decide, by decide, by decide, by decide, by decide⟩

theorem tile_count_cases (w : Int) (h0 : 0 ≤ w) (h4 : w ≤ 4) :
    tile_count w = 1 ∨ tile_count w = 2 ∨ tile_count w = 4 ∨ tile_count w = 9 ∨
    tile_count w = 16 := by
  obtain ⟨t0, t1, t2, t3, t4⟩ := tile_count_values
  have : w = 0 ∨ w = 1 ∨ w = 2 ∨ w = 3 ∨ w = 4 := by omega
  rcases this with h | h | h | h | h <;> subst h
  · exact Or.inl t0
  · exact Or.inr (Or.inl t1)
  · exact Or.inr (Or.inr (Or.inl t2))
  · exact Or.inr (Or.inr (Or.inr (Or.inl t3)))
  · exact Or.inr (Or.inr (Or.inr (Or.inr t4)))

theorem reset_num_viewers_all_samples (MODE_ALL_SAMPLES_C : String)
    (analysis_mode_checked : Bool) (analysis_mode : String) (n : Nat) (zoom_slider : Int)
    (hmode : (if analysis_mode_checked then analysis_mode else MODE_ALL_SAMPLES_C)
      = MODE_ALL_SAMPLES_C) (hn : 1 ≤ n) :
    (n = 1 ∧ reset_num_viewers MODE_ALL_SAMPLES_C analysis_mode_checked analysis_mode n
      zoom_slider = 0) ∨
    (n = 2 ∧ reset_num_viewers MODE_ALL_SAMPLES_C analysis_mode_checked analysis_mode n
      zoom_slider = 1) ∨
    (3 ≤ n ∧ n ≤ 4 ∧ reset_num_viewers MODE_ALL_SAMPLES_C analysis_mode_checked analysis_mode n
      zoom_slider = 2) ∨
    (5 ≤ n ∧ n ≤ 9 ∧ reset_num_viewers MODE_ALL_SAMPLES_C analysis_mode_checked analysis_mode n
      zoom_slider = 3) ∨
    (10 ≤ n ∧ reset_num_viewers MODE_ALL_SAMPLES_C analysis_mode_checked analysis_mode n
      zoom_slider = 4) := by
  have hvalue : reset_num_viewers MODE_ALL_SAMPLES_C analysis_mode_checked analysis_mode n
      zoom_slider
      = (if n = 1 then 0 else if n = 2 then 1 else if n ≤ 4 then 2 else if n ≤ 9 then 3
          else if n > 9 then 4 else 4 : Int) := by
    unfold reset_num_viewers
    simp only [hmode, if_true]
    split <;> simp_all
  rw [hvalue]
  split_ifs <;> omega

/-- C16. In all-samples mode, for every sample count `n ≥ 1`,
`reset_num_viewers` leaves the zoom slider at a value between 0 and 4 whose
tile layout (0: 1 x 1, 1: 2 x 1, 2: 2 x 2, 3: 3 x 3, 4: 4 x 4) has at least
`min n 16` tiles and no more tiles than any of the five layouts that has at
least `min n 16` tiles; in any other analysis mode it leaves the slider at 0,
the single tile. -/
theorem reset_num_viewers_selects_smallest_layout (MODE_ALL_SAMPLES_C : String)
    (analysis_mode_checked : Bool) (analysis_mode : String) (n : Nat) (zoom_slider : Int) :
    ((if analysis_mode_checked then analysis_mode else MODE_ALL_SAMPLES_C) = MODE_ALL_SAMPLES_C →
      1 ≤ n →
      0 ≤ reset_num_viewers MODE_ALL_SAMPLES_C analysis_mode_checked analysis_mode n zoom_slider ∧
      reset_num_viewers MODE_ALL_SAMPLES_C analysis_mode_checked analysis_mode n zoom_slider ≤ 4 ∧
      ((min n 16 : Nat) : Int) ≤ tile_count
        (reset_num_viewers MODE_ALL_SAMPLES_C analysis_mode_checked analysis_mode n zoom_slider) ∧
      ∀ w : Int, 0 ≤ w → w ≤ 4 → ((min n 16 : Nat) : Int) ≤ tile_count w →
        tile_count
          (reset_num_viewers MODE_ALL_SAMPLES_C analysis_mode_checked analysis_mode n zoom_slider)
          ≤ tile_count w) ∧
    ((if analysis_mode_checked then analysis_mode else MODE_ALL_SAMPLES_C) ≠ MODE_ALL_SAMPLES_C →
      reset_num_viewers MODE_ALL_SAMPLES_C analysis_mode_checked analysis_mode n zoom_slider = 0 ∧
      on_zoom_slider_valueChanged true
        (reset_num_viewers MODE_ALL_SAMPLES_C analysis_mode_checked analysis_mode n zoom_slider)
        = some (1, 1)) := by
  obtain ⟨t0, t1, t2, t3, t4⟩ := tile_count_values
  constructor
  · intro hmode hn
    have hm1 : min n 16 ≤ n := Nat.min_le_left _ _
    have hm2 : min n 16 ≤ 16 := Nat.min_le_right _ _
    have hm3 : min n 16 = n ∨ min n 16 = 16 := by omega
    generalize min n 16 = m at hm1 hm2 hm3
    rcases reset_num_viewers_all_samples MODE_ALL_SAMPLES_C analysis_mode_checked analysis_mode n
      zoom_slider hmode hn with ⟨h, hv⟩ | ⟨h, hv⟩ | ⟨h, h', hv⟩ | ⟨h, h', hv⟩ | ⟨h, hv⟩
    all_goals
      rw [hv]
      refine ⟨by omega, by omega, by omega, ?_⟩
      intro w h0 h4 hw
      rcases tile_count_cases w h0 h4 with ht | ht | ht | ht | ht <;> rw [ht] at hw ⊢ <;> omega
  · intro hmode
    have hvalue : reset_num_viewers MODE_ALL_SAMPLES_C analysis_mode_checked analysis_mode n
        zoom_slider = 0 := by
      unfold reset_num_viewers
      simp only [hmode, if_false]
      split <;> simp_all
    rw [hvalue]
    exact ⟨rfl, by decide⟩

theorem reset_num_viewers_selects_smallest_layout_witness :
    reset_num_viewers "all samples" false "mean" 7 0 = 3 ∧
    tile_count (reset_num_viewers "all samples" false "mean" 7 0) = 9 ∧
    tile_count (reset_num_viewers "all samples" false "mean" 7 0) ≤ tile_count 4 ∧
    reset_num_viewers "all samples" true "mean" 7 3 = 0 :=
  have h := reset_num_viewers_selects_smallest_layout "all samples" false "mean" 7 0
  have g := reset_num_viewers_selects_smallest_layout "all samples" true "mean" 7 3
  ⟨by decide, by decide, (h.1 (by decide) (by decide)).2.2.2 4 (by decide) (by decide) (by decide),
   (g.2 (by decide)).1⟩

/-! ## C17: the recent files menu -/

theorem keep_last_eq_pwFilter (canonicalFilePath : String → String) (files : List String) :
    keep_last canonicalFilePath files
      = files.pwFilter (fun f g => canonicalFilePath f ≠ canonicalFilePath g) := rfl

theorem no_dupes_eq_keep_last (canonicalFilePath : String → String) (files : List String) :
    no_dupes canonicalFilePath files = keep_last canonicalFilePath files := by
  rw [keep_last_eq_pwFilter]
  induction files with
  | nil => rfl
  | cons f rest ih =>
    have hiff : (∀ g ∈ rest.pwFilter (fun f g => canonicalFilePath f ≠ canonicalFilePath g),
        canonicalFilePath f ≠ canonicalFilePath g) ↔
        ∀ g ∈ rest, canonicalFilePath f ≠ canonicalFilePath g := by
      apply List.forall_mem_pwFilter
      intro x y z hxz
      by_cases hxy : canonicalFilePath x = canonicalFilePath y
      · right
        intro hyz
        exact hxz (hxy.trans hyz)
      · left
        exact hxy
    by_cases hdup : rest.any (fun g => decide (canonicalFilePath f = canonicalFilePath g)) = true
    · have hneg : ¬ ∀ g ∈ rest.pwFilter (fun f g => canonicalFilePath f ≠ canonicalFilePath g),
          canonicalFilePath f ≠ canonicalFilePath g := by
        rw [hiff]
        rw [List.any_eq_true] at hdup
        obtain ⟨g, hg, he⟩ := hdup
        intro hall
        exact hall g hg (by simpa using he)
      rw [List.pwFilter_cons_of_neg hneg]
      simp only [no_dupes, hdup, if_true]
      exact ih
    · have hpos : ∀ g ∈ rest.pwFilter (fun f g => canonicalFilePath f ≠ canonicalFilePath g),
          canonicalFilePath f ≠ canonicalFilePath g := by
        rw [hiff]
        intro g hg he
        apply hdup
        rw [List.any_eq_true]
        exact ⟨g, hg, by simpa using he⟩
      rw [List.pwFilter_cons_of_pos hpos]
      simp only [no_dupes, hdup, if_false, Bool.false_eq_true]
      rw [ih]

theorem keep_last_distinct (canonicalFilePath : String → String) (files : List String) :
    ((keep_last canonicalFilePath files).map canonicalFilePath).Nodup := by
  rw [keep_last_eq_pwFilter, List.Nodup, List.pairwise_map]
  exact List.pairwise_pwFilter _

theorem set_recent_file_actions_four (fileName : String → String) (files : List String)
    (a0 a1 a2 a3 : RecentFileAction) :
    set_recent_file_actions fileName files (min files.length 4) 0 [a0, a1, a2, a3]
        = [a0, a1, a2, a3].map (fun a => { a with visible := false }) ∧ files = [] ∨
    (∃ x, files = [x] ∧
      shown_entries (set_recent_file_actions fileName files (min files.length 4) 0 [a0, a1, a2, a3])
        = [x] ∧
      (set_recent_file_actions fileName files (min files.length 4) 0 [a0, a1, a2, a3]).map
        (fun a => a.visible) = [true, false, false, false]) ∨
    (∃ x y, files = [x, y] ∧
      shown_entries (set_recent_file_actions fileName files (min files.length 4) 0 [a0, a1, a2, a3])
        = [x, y] ∧
      (set_recent_file_actions fileName files (min files.length 4) 0 [a0, a1, a2, a3]).map
        (fun a => a.visible) = [true, true, false, false]) ∨
    (∃ x y z, files = [x, y, z] ∧
      shown_entries (set_recent_file_actions fileName files (min files.length 4) 0 [a0, a1, a2, a3])
        = [x, y, z] ∧
      (set_recent_file_actions fileName files (min files.length 4) 0 [a0, a1, a2, a3]).map
        (fun a => a.visible) = [true, true, true, false]) ∨
    (∃ x y z w more, files = x :: y :: z :: w :: more ∧
      shown_entries (set_recent_file_actions fileName files (min files.length 4) 0 [a0, a1, a2, a3])
        = [x, y, z, w] ∧
      (set_recent_file_actions fileName files (min files.length 4) 0 [a0, a1, a2, a3]).map
        (fun a => a.visible) = [true, true, true, true]) := by
  match files with
  | [] =>
    left
    simp [set_recent_file_actions]
  | [x] =>
    right; left
    exact ⟨x, rfl, by simp [set_recent_file_actions, shown_entries],
      by simp [set_recent_file_actions]⟩
  | [x, y] =>
    right; right; left
    exact ⟨x, y, rfl, by simp [set_recent_file_actions, shown_entries],
      by simp [set_recent_file_actions]⟩
  | [x, y, z] =>
    right; right; right; left
    exact ⟨x, y, z, rfl, by simp [set_recent_file_actions, shown_entries],
      by simp [set_recent_file_actions]⟩
  | x :: y :: z :: w :: more =>
    right; right; right; right
    have hmin : min (x :: y :: z :: w :: more).length 4 = 4 := by
      simp only [List.length_cons]
      omega
    rw [hmin]
    exact ⟨x, y, z, w, more, rfl, by simp [set_recent_file_actions, shown_entries],
      by simp [set_recent_file_actions]⟩

/-- C17. With the four recent-file actions of the menu, `update_recent_files`
shows exactly the first `min 4 k` entries of the list obtained from the stored
recent files by dropping the files that do not exist and then keeping, among
entries with the same canonical path, only the last one (order preserved),
`k` being the length of that list: at most 4 entries are shown, no two of them
have the same canonical path, and the actions at positions `k` to 3 are
hidden. -/
theorem recent_files_menu_shows_first_four (file_exists : String → Bool)
    (canonicalFilePath fileName : String → String) (stored : List String)
    (actions : List RecentFileAction) (hlen : actions.length = 4) :
    shown_entries (update_recent_files file_exists canonicalFilePath fileName stored actions)
      = (keep_last canonicalFilePath (stored.filter file_exists)).take 4 ∧
    (shown_entries (update_recent_files file_exists canonicalFilePath fileName stored actions)).length
      = min 4 (keep_last canonicalFilePath (stored.filter file_exists)).length ∧
    (shown_entries (update_recent_files file_exists canonicalFilePath fileName stored actions)).length
      ≤ 4 ∧
    ((shown_entries (update_recent_files file_exists canonicalFilePath fileName stored actions)).map
      canonicalFilePath).Nodup ∧
    (update_recent_files file_exists canonicalFilePath fileName stored actions).length = 4 ∧
    ∀ i, (keep_last canonicalFilePath (stored.filter file_exists)).length ≤ i → i < 4 →
      ((update_recent_files file_exists canonicalFilePath fileName stored actions).map
        (fun a => a.visible))[i]? = some false := by
  obtain ⟨a0, a1, a2, a3, rfl⟩ : ∃ a0 a1 a2 a3, actions = [a0, a1, a2, a3] := by
    match actions, hlen with
    | [a0, a1, a2, a3], _ => exact ⟨a0, a1, a2, a3, rfl⟩
  have hupdate : update_recent_files file_exists canonicalFilePath fileName stored [a0, a1, a2, a3]
      = set_recent_file_actions fileName (keep_last canonicalFilePath (stored.filter file_exists))
          (min (keep_last canonicalFilePath (stored.filter file_exists)).length 4) 0
          [a0, a1, a2, a3] := by
    unfold update_recent_files
    simp only [no_dupes_eq_keep_last]
  have hnodup := keep_last_distinct canonicalFilePath (stored.filter file_exists)
  have hshown : shown_entries (update_recent_files file_exists canonicalFilePath fileName stored
      [a0, a1, a2, a3]) = (keep_last canonicalFilePath (stored.filter file_exists)).take 4 ∧
      (update_recent_files file_exists canonicalFilePath fileName stored [a0, a1, a2, a3]).length
        = 4 ∧
      ∀ i, (keep_last canonicalFilePath (stored.filter file_exists)).length ≤ i → i < 4 →
        ((update_recent_files file_exists canonicalFilePath fileName stored [a0, a1, a2, a3]).map
          (fun a => a.visible))[i]? = some false := by
    rw [hupdate]
    generalize keep_last canonicalFilePath (stored.filter file_exists) = files
    rcases set_recent_file_actions_four fileName files a0 a1 a2 a3 with
      ⟨h, rfl⟩ | ⟨x, rfl, hs, hv⟩ | ⟨x, y, rfl, hs, hv⟩ | ⟨x, y, z, rfl, hs, hv⟩ |
      ⟨x, y, z, w, more, rfl, hs, hv⟩
    · rw [h]
      refine ⟨by simp [shown_entries], by simp, ?_⟩
      intro i _ hi
      interval_cases i <;> simp
    · rw [hs]
      refine ⟨by simp, ?_, ?_⟩
      · have := congrArg List.length hv
        simpa using this
      · intro i h1 hi
        rw [hv]
        simp only [List.length_cons, List.length_nil] at h1
        interval_cases i <;> simp
    · rw [hs]
      refine ⟨by simp, ?_, ?_⟩
      · have := congrArg List.length hv
        simpa using this
      · intro i h1 hi
        rw [hv]
        simp only [List.length_cons, List.length_nil] at h1
        interval_cases i <;> simp
    · rw [hs]
      refine ⟨by simp, ?_, ?_⟩
      · have := congrArg List.length hv
        simpa using this
      · intro i h1 hi
        rw [hv]
        simp only [List.length_cons, List.length_nil] at h1
        have hi3 : i = 3 := by omega
        subst hi3
        simp
    · rw [hs]
      refine ⟨by simp, ?_, ?_⟩
      · have := congrArg List.length hv
        simpa using this
      · intro i h1 hi
        simp only [List.length_cons] at h1
        omega
  obtain ⟨h1, h2, h3⟩ := hshown
  refine ⟨h1, ?_, ?_, ?_, h2, h3⟩
  · rw [h1, List.length_take]
  · rw [h1, List.length_take]
    exact Nat.min_le_left _ _
  · rw [h1]
    exact List.Nodup.sublist (List.Sublist.map _ (List.take_sublist _ _)) hnodup

theorem recent_files_menu_shows_first_four_witness :
    sample_actions.length = 4 ∧
    keep_last sample_canonical
        (["a.xlsx", "gone.xlsx", "b.xlsx", "./a.xlsx"].filter sample_file_exists)
      = ["b.xlsx", "./a.xlsx"] ∧
    shown_entries
        (update_recent_files sample_file_exists sample_canonical (fun f => f)
          ["a.xlsx", "gone.xlsx", "b.xlsx", "./a.xlsx"] sample_actions)
      = ["b.xlsx", "./a.xlsx"] ∧
    (update_recent_files sample_file_exists sample_canonical (fun f => f)
        ["a.xlsx", "gone.xlsx", "b.xlsx", "./a.xlsx"] sample_actions).map (fun a => a.visible)
      = [true, true, false, false] :=
  have h := recent_files_menu_shows_first_four sample_file_exists sample_canonical (fun f => f)
    ["a.xlsx", "gone.xlsx", "b.xlsx", "./a.xlsx"] sample_actions (by decide)
  ⟨by decide, by decide, h.1.trans (by decide), by decide⟩

/-! ## Loading: the loader calls and the shape objects -/

theorem map_object_modify (f : Shape → Shape) (hf : ∀ shape, (f shape).object = shape.object)
    (n : Nat) (shapes : List Shape) :
    (shapes.modify f n).map (fun shape => shape.object)
      = shapes.map (fun shape => shape.object) := by
  induction shapes generalizing n with
  | nil => cases n <;> rfl
  | cons a rest ih =>
    cases n with
    | zero => simp [List.modify, hf]
    | succ m =>
      have := ih m
      simp only [List.modify, List.modifyTailIdx, List.map_cons] at this ⊢
      rw [this]

theorem prefix_modify (f : Shape → Shape) (hf : ∀ shape, (f shape).object = shape.object)
    (n : Nat) (objects : List Nat) (shapes : List Shape)
    (h : List.IsPrefix objects (shapes.map (fun shape => shape.object))) :
    List.IsPrefix objects ((shapes.modify f n).map (fun shape => shape.object)) := by
  rw [map_object_modify f hf]
  exact h

theorem load_point_files_from_spec (w : Surroundings) (is_local : Bool) (list : List String)
    (i : Nat) (s : SessionState) :
    (Session.load_point_files_from w is_local i list s).2.load_calls = s.load_calls ∧
    List.IsPrefix (s.shapes_.map (fun shape => shape.object))
      ((Session.load_point_files_from w is_local i list s).2.shapes_.map
        (fun shape => shape.object)) := by
  induction list generalizing i s with
  | nil => exact ⟨rfl, List.prefix_refl _⟩
  | cons fname rest ih =>
    unfold Session.load_point_files_from
    by_cases hc : w.was_canceled is_local i = true
    · rw [if_pos hc]
      exact ⟨rfl, List.prefix_refl _⟩
    · rw [if_neg hc]
      have hpre : List.IsPrefix (s.shapes_.map (fun shape => shape.object))
          ((if i < s.shapes_.length then s
            else
              { s with
                shapes_ := s.shapes_ ++ [Shape.create s.objects_created Subject.fresh]
                objects_created := s.objects_created + 1 }).shapes_.map
            (fun shape => shape.object)) := by
        split
        · exact List.prefix_refl _
        · simp only [List.map_append]
          exact List.prefix_append _ _
      have hcalls : (if i < s.shapes_.length then s
            else
              { s with
                shapes_ := s.shapes_ ++ [Shape.create s.objects_created Subject.fresh]
                objects_created := s.objects_created + 1 }).load_calls = s.load_calls := by
        split <;> rfl
      have hpre2 := prefix_modify
        (fun shape => { shape with annotations := [w.file_name fname, "", "", ""] })
        (fun _ => rfl) (if i < s.shapes_.length then i else s.shapes_.length) _ _ hpre
      simp only
      split
      · split
        · split
          · exact ⟨hcalls, hpre2⟩
          · obtain ⟨h1, h2⟩ := ih (i + 1)
              { (if i < s.shapes_.length then s
                  else
                    { s with
                      shapes_ := s.shapes_ ++ [Shape.create s.objects_created Subject.fresh]
                      objects_created := s.objects_created + 1 }) with
                shapes_ := List.modify
                  (fun shape => { shape with global_point_file := some fname })
                  (if i < s.shapes_.length then i else s.shapes_.length)
                  (List.modify
                    (fun shape => { shape with annotations := [w.file_name fname, "", "", ""] })
                    (if i < s.shapes_.length then i else s.shapes_.length)
                    (if i < s.shapes_.length then s
                      else
                        { s with
                          shapes_ := s.shapes_ ++ [Shape.create s.objects_created Subject.fresh]
                          objects_created := s.objects_created + 1 }).shapes_) }
            have h3 := prefix_modify (fun shape => { shape with global_point_file := some fname })
              (fun _ => rfl) (if i < s.shapes_.length then i else s.shapes_.length) _ _ hpre2
            exact ⟨h1.trans hcalls, List.IsPrefix.trans h3 h2⟩
        · split
          · exact ⟨hcalls, hpre2⟩
          · obtain ⟨h1, h2⟩ := ih (i + 1)
              { (if i < s.shapes_.length then s
                  else
                    { s with
                      shapes_ := s.shapes_ ++ [Shape.create s.objects_created Subject.fresh]
                      objects_created := s.objects_created + 1 }) with
                shapes_ := List.modify
                  (fun shape => { shape with local_point_file := some fname })
                  (if i < s.shapes_.length then i else s.shapes_.length)
                  (List.modify
                    (fun shape => { shape with annotations := [w.file_name fname, "", "", ""] })
                    (if i < s.shapes_.length then i else s.shapes_.length)
                    (if i < s.shapes_.length then s
                      else
                        { s with
                          shapes_ := s.shapes_ ++ [Shape.create s.objects_created Subject.fresh]
                          objects_created := s.objects_created + 1 }).shapes_) }
            have h3 := prefix_modify (fun shape => { shape with local_point_file := some fname })
              (fun _ => rfl) (if i < s.shapes_.length then i else s.shapes_.length) _ _ hpre2
            exact ⟨h1.trans hcalls, List.IsPrefix.trans h3 h2⟩
      · exact ⟨hcalls, hpre2⟩

theorem load_point_files_spec (w : Surroundings) (s : SessionState) (list : List String)
    (is_local : Bool) :
    (Session.load_point_files w s list is_local).2.load_calls
      = s.load_calls ++ [LoadCall.load_point_files list is_local] ∧
    List.IsPrefix (s.shapes_.map (fun shape => shape.object))
      ((Session.load_point_files w s list is_local).2.shapes_.map (fun shape => shape.object)) := by
  unfold Session.load_point_files
  exact load_point_files_from_spec w is_local list 0 _

theorem load_groomed_files_from_calls (w : Surroundings) (file_names : List String) (i : Nat)
    (s : SessionState) :
    (Session.load_groomed_files_from w i file_names s).load_calls = s.load_calls := by
  induction file_names generalizing i s with
  | nil => rfl
  | cons fname rest ih =>
    unfold Session.load_groomed_files_from
    rw [ih]
    simp only
    split <;> rfl

theorem load_groomed_files_calls (w : Surroundings) (s : SessionState)
    (file_names : List String) :
    (Session.load_groomed_files w s file_names).load_calls
      = s.load_calls ++ [LoadCall.load_groomed_files file_names] := by
  unfold Session.load_groomed_files
  rw [load_groomed_files_from_calls]

theorem set_group_ids_objects (ids : List Int) (shapes : List Shape) :
    (Session.set_group_ids ids shapes).map (fun shape => shape.object)
      = shapes.map (fun shape => shape.object) := by
  induction ids generalizing shapes with
  | nil => cases shapes <;> rfl
  | cons id rest ih =>
    cases shapes with
    | nil => rfl
    | cons shape others =>
      simp only [Session.set_group_ids, List.map_cons, ih]

theorem read_group_ids_spec (doc : XmlDocument) (s : SessionState) :
    (Session.read_group_ids doc s).2.load_calls = s.load_calls ∧
    (Session.read_group_ids doc s).2.shapes_.map (fun shape => shape.object)
      = s.shapes_.map (fun shape => shape.object) := by
  unfold Session.read_group_ids
  cases doc.group_ids with
  | absent => exact ⟨rfl, rfl⟩
  | no_text => exact ⟨rfl, rfl⟩
  | text group_ids =>
    dsimp only
    split
    · exact ⟨rfl, set_group_ids_objects _ _⟩
    · exact ⟨rfl, set_group_ids_objects _ _⟩

theorem load_light_project_files_calls (w : Surroundings) (doc : XmlDocument) (s : SessionState)
    (groom_files local_point_files global_point_files : List String) :
    (((Session.load_light_project_files w doc s groom_files local_point_files
          global_point_files).1 = some false ∧
        ((Session.load_light_project_files w doc s groom_files local_point_files
            global_point_files).2.load_calls = s.load_calls ∨
          (Session.load_light_project_files w doc s groom_files local_point_files
            global_point_files).2.load_calls
            = s.load_calls ++ [LoadCall.load_point_files local_point_files true] ∨
          (Session.load_light_project_files w doc s groom_files local_point_files
            global_point_files).2.load_calls
            = s.load_calls ++
              [LoadCall.load_point_files local_point_files true,
               LoadCall.load_point_files global_point_files false])) ∨
      ((Session.load_light_project_files w doc s groom_files local_point_files
          global_point_files).1 ≠ some false ∧
        (Session.load_light_project_files w doc s groom_files local_point_files
            global_point_files).2.load_calls
          = s.load_calls ++
            [LoadCall.load_point_files local_point_files true,
             LoadCall.load_point_files global_point_files false,
             LoadCall.load_groomed_files groom_files])) := by
  unfold Session.load_light_project_files
  split
  · exact Or.inl ⟨rfl, Or.inl rfl⟩
  · split
    · exact Or.inl ⟨rfl, Or.inl rfl⟩
    · split
      · exact Or.inl ⟨rfl, Or.inr (Or.inl (load_point_files_spec w _ _ true).1)⟩
      · split
        · refine Or.inl ⟨rfl, Or.inr (Or.inr ?_)⟩
          rw [(load_point_files_spec w _ _ false).1, (load_point_files_spec w _ _ true).1]
          simp
        · refine Or.inr ⟨?_, ?_⟩
          · unfold Session.read_group_ids
            cases doc.group_ids with
            | absent => simp
            | no_text => simp
            | text group_ids =>
              dsimp only
              split <;> simp
          · rw [(read_group_ids_spec doc _).1, load_groomed_files_calls,
              (load_point_files_spec w _ _ false).1, (load_point_files_spec w _ _ true).1]
            simp

theorem load_light_project_calls (w : Surroundings) (s : SessionState) (filename : String)
    (doc : XmlDocument) (groom_files : List String) (hxml : w.xml filename = some doc)
    (hgroom : Session.light_project_groom_files w doc = some groom_files) :
    ((Session.load_light_project w s filename).1 ≠ some true ∧
      (Session.load_light_project w s filename).2.load_calls = s.load_calls) ∨
    ∃ lists, Session.light_project_point_files doc = some lists ∧
      (((Session.load_light_project w s filename).1 = some false ∧
          ((Session.load_light_project w s filename).2.load_calls = s.load_calls ∨
            (Session.load_light_project w s filename).2.load_calls
              = s.load_calls ++ [LoadCall.load_point_files lists.1 true] ∨
            (Session.load_light_project w s filename).2.load_calls
              = s.load_calls ++
                [LoadCall.load_point_files lists.1 true,
                 LoadCall.load_point_files lists.2 false])) ∨
        ((Session.load_light_project w s filename).1 ≠ some false ∧
          (Session.load_light_project w s filename).2.load_calls
            = s.load_calls ++
              [LoadCall.load_point_files lists.1 true,
               LoadCall.load_point_files lists.2 false,
               LoadCall.load_groomed_files groom_files])) := by
  unfold Session.load_light_project
  simp only [hxml, hgroom]
  cases hp : Session.light_project_point_files doc with
  | none => exact Or.inl ⟨by simp, rfl⟩
  | some lists =>
    right
    refine ⟨lists, rfl, ?_⟩
    exact load_light_project_files_calls w doc
      { s with is_light_project_ := true, groups_available_ := doc.group_ids.present }
      groom_files lists.1 lists.2

/-! ## C13: distance transforms are preferred to mesh files -/

/-- C13, claim as worded, refuted: a legacy parameter file lists the same
existing file in its `mesh_files` and in its `distance_transform_files`
element; the groomed file list, which the successful load hands to
`load_groomed_files`, is the list of distance transforms and contains that mesh
file. -/
theorem groomed_list_contains_a_listed_mesh_file :
    sample_surroundings.xml "twice.xml" = some twice_listed_document ∧
    twice_listed_document.mesh_files = some ["shape.nrrd"] ∧
    twice_listed_document.distance_transform_files = some ["shape.nrrd"] ∧
    sample_surroundings.file_exists "shape.nrrd" = true ∧
    Session.light_project_groom_files sample_surroundings twice_listed_document
      = some ["shape.nrrd"] ∧
    "shape.nrrd" ∈ ["shape.nrrd"] ∧
    (Session.load_light_project sample_surroundings SessionState.empty "twice.xml").1
      = some true ∧
    (Session.load_light_project sample_surroundings SessionState.empty "twice.xml").2.load_calls
      = [LoadCall.load_point_files ["p1.particles"] true,
         LoadCall.load_point_files ["p1.particles"] false,
         LoadCall.load_groomed_files ["shape.nrrd"]] := by
  decide

/-- C13, amended. When the legacy parameter file has both a `mesh_files` and a
`distance_transform_files` element with text and all the files they list exist,
the groomed file list of `load_light_project` is exactly the list of distance
transform files in document order, the same as if there were no `mesh_files`
element at all, so a mesh file is in it only if it is also listed as a distance
transform; whenever `load_groomed_files` is called by the load it is handed
that list, and a load that returns `true` has called it once, after the two
`load_point_files` calls. -/
theorem distance_transforms_replace_mesh_files (w : Surroundings) (s : SessionState)
    (filename : String) (doc : XmlDocument) (mesh_files distance_transforms : List String)
    (hxml : w.xml filename = some doc)
    (hmesh : doc.mesh_files = some mesh_files)
    (hdt : doc.distance_transform_files = some distance_transforms)
    (hexm : ∀ f ∈ mesh_files, w.file_exists f = true)
    (hexd : ∀ f ∈ distance_transforms, w.file_exists f = true) :
    Session.light_project_groom_files w doc = some distance_transforms ∧
    Session.light_project_groom_files w doc
      = Session.light_project_groom_files w { doc with mesh_files := none } ∧
    (∀ f ∈ mesh_files,
      ∀ groom_files, Session.light_project_groom_files w doc = some groom_files →
        f ∈ groom_files → f ∈ distance_transforms) ∧
    (∀ file_names,
      LoadCall.load_groomed_files file_names ∈ (Session.load_light_project w s filename).2.load_calls →
      file_names = distance_transforms ∨ LoadCall.load_groomed_files file_names ∈ s.load_calls) ∧
    ((Session.load_light_project w s filename).1 = some true →
      ∃ lists, Session.light_project_point_files doc = some lists ∧
        (Session.load_light_project w s filename).2.load_calls
          = s.load_calls ++
            [LoadCall.load_point_files lists.1 true,
             LoadCall.load_point_files lists.2 false,
             LoadCall.load_groomed_files distance_transforms]) := by
  have hm : mesh_files.all w.file_exists = true := List.all_eq_true.mpr hexm
  have hd : distance_transforms.all w.file_exists = true := List.all_eq_true.mpr hexd
  have hgroom : Session.light_project_groom_files w doc = some distance_transforms := by
    unfold Session.light_project_groom_files
    simp only [hmesh, hdt, hm, hd, if_true]
  have hgroom2 : Session.light_project_groom_files w { doc with mesh_files := none }
      = some distance_transforms := by
    unfold Session.light_project_groom_files
    simp only [hdt, hd, if_true]
  have hcalls := load_light_project_calls w s filename doc distance_transforms hxml hgroom
  refine ⟨hgroom, hgroom.trans hgroom2.symm, ?_, ?_, ?_⟩
  · intro f _ groom_files hg hf
    rw [hgroom, Option.some.injEq] at hg
    rw [hg]
    exact hf
  · intro file_names hmem
    rcases hcalls with ⟨_, h⟩ | ⟨lists, _, ⟨_, h | h | h⟩ | ⟨_, h⟩⟩ <;> rw [h] at hmem
    · exact Or.inr hmem
    · exact Or.inr hmem
    · simp only [List.mem_append, List.mem_singleton, reduceCtorEq, or_false] at hmem
      exact Or.inr hmem
    · simp only [List.mem_append, List.mem_cons, List.mem_singleton, reduceCtorEq,
        List.not_mem_nil, or_false] at hmem
      exact Or.inr hmem
    · simp only [List.mem_append, List.mem_cons, List.mem_singleton,
        LoadCall.load_groomed_files.injEq, List.not_mem_nil, or_false, false_or,
        reduceCtorEq] at hmem
      rcases hmem with h | h
      · exact Or.inr h
      · exact Or.inl h
  · intro htrue
    rcases hcalls with ⟨hne, _⟩ | ⟨lists, hl, ⟨hfalse, _⟩ | ⟨_, h⟩⟩
    · exact absurd htrue hne
    · rw [htrue] at hfalse
      exact absurd hfalse (by simp)
    · exact ⟨lists, hl, h⟩

theorem distance_transforms_replace_mesh_files_witness :
    sample_surroundings.xml "old.xml" = some sample_document ∧
    Session.light_project_groom_files sample_surroundings sample_document
      = some ["d1.nrrd", "d2.nrrd"] ∧
    (Session.load_light_project sample_surroundings SessionState.empty "old.xml").1 = some true ∧
    (∀ file_names,
      LoadCall.load_groomed_files file_names ∈
        (Session.load_light_project sample_surroundings SessionState.empty "old.xml").2.load_calls →
      file_names = ["d1.nrrd", "d2.nrrd"] ∨
        LoadCall.load_groomed_files file_names ∈ SessionState.empty.load_calls) :=
  have h := distance_transforms_replace_mesh_files sample_surroundings SessionState.empty "old.xml"
    sample_document ["m1.vtk", "m2.vtk"] ["d1.nrrd", "d2.nrrd"] (by decide) (by decide) (by decide)
    (fun _ _ => rfl) (fun _ _ => rfl)
  ⟨by decide, h.1, by decide, h.2.2.2.1⟩

/-! ## C14: mismatched file counts -/

theorem light_project_groom_files_listed (w : Surroundings) (doc : XmlDocument)
    (groom_files : List String)
    (h : Session.light_project_groom_files w doc = some groom_files) :
    groom_files = doc.listed_groom_files := by
  unfold Session.light_project_groom_files at h
  unfold XmlDocument.listed_groom_files
  cases hm : doc.mesh_files with
  | none =>
    cases hd : doc.distance_transform_files with
    | none =>
      rw [hm, hd] at h
      simp only [Option.some.injEq] at h
      rw [← h]
      rfl
    | some d =>
      rw [hm, hd] at h
      by_cases hall : d.all w.file_exists = true
      · simp only [hall, if_true, Option.some.injEq] at h
        exact h.symm
      · simp only [hall, if_false, Bool.false_eq_true] at h
        exact absurd h (by simp)
  | some m =>
    rw [hm] at h
    by_cases hallm : m.all w.file_exists = true
    · simp only [hallm, if_true] at h
      cases hd : doc.distance_transform_files with
      | none =>
        rw [hd] at h
        simp only [Option.some.injEq] at h
        rw [← h]
        rfl
      | some d =>
        rw [hd] at h
        by_cases hall : d.all w.file_exists = true
        · simp only [hall, if_true, Option.some.injEq] at h
          exact h.symm
        · simp only [hall, if_false, Bool.false_eq_true] at h
          exact absurd h (by simp)
    · simp only [hallm, if_false, Bool.false_eq_true] at h
      exact absurd h (by simp)

/-- When every point file element of the legacy parameter file that is there
has text, the two checks of the counts work: with a mismatch
`load_light_project` returns `false` without calling `load_point_files` or
`load_groomed_files` and without creating a shape. -/
theorem mismatched_counts_rejected_when_elements_have_text (w : Surroundings)
    (s : SessionState) (filename : String) (doc : XmlDocument)
    (lists : List String × List String) (hxml : w.xml filename = some doc)
    (hpoints : Session.light_project_point_files doc = some lists)
    (hmismatch :
      (0 < doc.listed_groom_files.length ∧ doc.listed_groom_files.length ≠ lists.1.length) ∨
      lists.1.length ≠ lists.2.length) :
    (Session.load_light_project w s filename).1 = some false ∧
    (Session.load_light_project w s filename).2.load_calls = s.load_calls ∧
    (Session.load_light_project w s filename).2.shapes_ = s.shapes_ ∧
    (Session.load_light_project w s filename).2.objects_created = s.objects_created := by
  unfold Session.load_light_project
  simp only [hxml]
  cases hg : Session.light_project_groom_files w doc with
  | none => exact ⟨rfl, rfl, rfl, rfl⟩
  | some groom_files =>
    have hlisted := light_project_groom_files_listed w doc groom_files hg
    simp only [hpoints]
    unfold Session.load_light_project_files
    split
    · exact ⟨rfl, rfl, rfl, rfl⟩
    · rename_i hnot
      split
      · exact ⟨rfl, rfl, rfl, rfl⟩
      · rename_i hnot2
        exfalso
        rcases hmismatch with ⟨h1, h2⟩ | h
        · apply hnot
          rw [hlisted]
          exact ⟨h1, h2⟩
        · exact hnot2 h

/-- C14, at the failing input.  The legacy parameter file "empty.xml" lists one
distance transform, which exists, and has a `point_files` element without
text, so one groomed file is listed and no local point file: case (a) of the
claim.  `load_light_project` does not return `false`: it does not return at
all, the null text of the element being made into a `std::string` before the
counts are compared.  With no `point_files` element at all, the same counts are
rejected with `false`. -/
theorem empty_point_files_element_is_not_rejected :
    sample_surroundings.xml "empty.xml" = some empty_point_files_document ∧
    Session.light_project_groom_files sample_surroundings empty_point_files_document
      = some ["d1.nrrd"] ∧
    empty_point_files_document.point_files = XmlElement.no_text ∧
    empty_point_files_document.local_point_files = XmlElement.absent ∧
    (Session.load_light_project sample_surroundings SessionState.empty "empty.xml").1 = none ∧
    (Session.load_light_project sample_surroundings SessionState.empty "empty.xml").1
      ≠ some false ∧
    (Session.load_light_project
        { sample_surroundings with
          xml := fun _ =>
            some { empty_point_files_document with point_files := XmlElement.absent } }
        SessionState.empty "empty.xml").1 = some false := by
  decide

/-! ## C18: load_project and the shapes present before the call -/

theorem add_subject_shapes_objects (subjects : List Subject) (s : SessionState) :
    List.IsPrefix (s.shapes_.map (fun shape => shape.object))
      ((Session.add_subject_shapes subjects s).shapes_.map (fun shape => shape.object)) ∧
    (Session.add_subject_shapes subjects s).shapes_.length
      = s.shapes_.length + subjects.length := by
  induction subjects generalizing s with
  | nil => exact ⟨List.prefix_refl _, rfl⟩
  | cons subject rest ih =>
    unfold Session.add_subject_shapes
    obtain ⟨h1, h2⟩ := ih
      { s with
        shapes_ := s.shapes_ ++ [Shape.create s.objects_created subject]
        objects_created := s.objects_created + 1 }
    refine ⟨List.IsPrefix.trans ?_ h1, ?_⟩
    · simp only [List.map_append]
      exact List.prefix_append _ _
    · rw [h2]
      simp only [List.length_append, List.length_cons, List.length_nil]
      omega

theorem load_groomed_files_from_objects (w : Surroundings) (file_names : List String) (i : Nat)
    (s : SessionState) :
    List.IsPrefix (s.shapes_.map (fun shape => shape.object))
      ((Session.load_groomed_files_from w i file_names s).shapes_.map
        (fun shape => shape.object)) := by
  induction file_names generalizing i s with
  | nil => exact List.prefix_refl _
  | cons fname rest ih =>
    unfold Session.load_groomed_files_from
    refine List.IsPrefix.trans ?_ (ih (i + 1) _)
    apply prefix_modify
      (fun shape =>
        { shape with
          subject := { shape.subject with groomed_filenames := [fname] }
          annotations := [w.file_name fname, "", "", ""] })
      (fun _ => rfl)
    split
    · simp only [List.map_append]
      exact List.prefix_append _ _
    · exact List.prefix_refl _

theorem load_groomed_files_objects (w : Surroundings) (s : SessionState)
    (file_names : List String) :
    List.IsPrefix (s.shapes_.map (fun shape => shape.object))
      ((Session.load_groomed_files w s file_names).shapes_.map (fun shape => shape.object)) := by
  unfold Session.load_groomed_files
  exact load_groomed_files_from_objects w file_names 0
    { s with load_calls := s.load_calls ++ [LoadCall.load_groomed_files file_names] }

theorem load_light_project_files_objects (w : Surroundings) (doc : XmlDocument)
    (s : SessionState) (groom_files local_point_files global_point_files : List String) :
    List.IsPrefix (s.shapes_.map (fun shape => shape.object))
      ((Session.load_light_project_files w doc s groom_files local_point_files
        global_point_files).2.shapes_.map (fun shape => shape.object)) := by
  unfold Session.load_light_project_files
  have h1 := (load_point_files_spec w s local_point_files true).2
  have h2 := (load_point_files_spec w
    (Session.load_point_files w s local_point_files true).2 global_point_files false).2
  split
  · exact List.prefix_refl _
  · split
    · exact List.prefix_refl _
    · split
      · exact h1
      · split
        · exact List.IsPrefix.trans h1 h2
        · rw [(read_group_ids_spec doc _).2]
          exact List.IsPrefix.trans (List.IsPrefix.trans h1 h2)
            (load_groomed_files_objects w _ groom_files)

theorem load_light_project_objects (w : Surroundings) (s : SessionState) (filename : String) :
    List.IsPrefix (s.shapes_.map (fun shape => shape.object))
      ((Session.load_light_project w s filename).2.shapes_.map (fun shape => shape.object)) := by
  unfold Session.load_light_project
  cases hxml : w.xml filename with
  | none => exact List.prefix_refl _
  | some doc =>
    dsimp only
    cases hg : Session.light_project_groom_files w doc with
    | none => exact List.prefix_refl _
    | some groom_files =>
      dsimp only
      cases hp : Session.light_project_point_files doc with
      | none => exact List.prefix_refl _
      | some lists =>
        exact load_light_project_files_objects w doc
          { s with is_light_project_ := true, groups_available_ := doc.group_ids.present }
          groom_files lists.1 lists.2

theorem load_xl_project_objects (w : Surroundings) (s : SessionState) (filename : String) :
    (Session.load_xl_project w s filename).1 = some true ∧
    List.IsPrefix (s.shapes_.map (fun shape => shape.object))
      ((Session.load_xl_project w s filename).2.shapes_.map (fun shape => shape.object)) ∧
    s.shapes_.length + (w.project_subjects filename).length
      ≤ (Session.load_xl_project w s filename).2.shapes_.length := by
  unfold Session.load_xl_project
  have h0 := add_subject_shapes_objects (w.project_subjects filename) { s with filename_ := filename }
  have h1 := (load_point_files_spec w
    (Session.add_subject_shapes (w.project_subjects filename) { s with filename_ := filename })
    (((w.project_subjects filename).filter
      (fun subject => subject.local_particle_filename ≠ "")).map
      (fun subject => subject.local_particle_filename)) true).2
  have h2 := (load_point_files_spec w
    (Session.load_point_files w
      (Session.add_subject_shapes (w.project_subjects filename) { s with filename_ := filename })
      (((w.project_subjects filename).filter
        (fun subject => subject.local_particle_filename ≠ "")).map
        (fun subject => subject.local_particle_filename)) true).2
    (((w.project_subjects filename).filter
      (fun subject => subject.local_particle_filename ≠ "")).map
      (fun subject => subject.global_particle_filename)) false).2
  refine ⟨rfl, List.IsPrefix.trans h0.1 (List.IsPrefix.trans h1 h2), ?_⟩
  have hlen := List.IsPrefix.length_le (List.IsPrefix.trans h1 h2)
  simp only [List.length_map] at hlen
  have := h0.2
  simp only at this hlen ⊢
  omega

theorem load_project_keeps_objects (w : Surroundings) (s : SessionState) (filename : String) :
    List.IsPrefix (s.shapes_.map (fun shape => shape.object))
      ((Session.load_project w s filename).2.shapes_.map (fun shape => shape.object)) := by
  unfold Session.load_project
  split
  · exact List.prefix_refl _
  · split
    · exact (load_xl_project_objects w { s with filename_ := filename } filename).2.1
    · split
      · exact List.prefix_refl _
      · split
        · exact load_light_project_objects w { s with filename_ := filename } filename
        · exact List.prefix_refl _

/-- C18, at the failing input.  A session holds one shape (object 0) and
`load_project` is called for "p.xlsx", a project with one subject.  The load
succeeds, but nothing has been cleared: the shape list then holds two shapes,
the shape that was there before the call followed by the shape of the project,
and the particle files of the project's subject have been imported into the
earlier shape. -/
theorem load_project_does_not_clear_shapes :
    (sample_surroundings.project_subjects "p.xlsx").length = 1 ∧
    session_with_one_shape.shapes_.map (fun shape => shape.object) = [0] ∧
    (Session.load_project sample_surroundings session_with_one_shape "p.xlsx").1 = some true ∧
    (Session.load_project sample_surroundings session_with_one_shape "p.xlsx").2.shapes_.map
      (fun shape => shape.object) = [0, 1] ∧
    (Session.load_project sample_surroundings session_with_one_shape "p.xlsx").2.shapes_.map
      (fun shape => shape.local_point_file) = [some "a.local", none] ∧
    (Session.load_project sample_surroundings SessionState.empty "p.xlsx").2.shapes_.map
      (fun shape => shape.object) = [0] := by
  refine ⟨by decide, by decide, by decide, by decide, by decide, by decide⟩

end shapeworks
